import Mathlib

/-!
# Sudoku Pro client (`static/js/game.js`): state model and verified properties

The controller class `SudokuPro` keeps all of its data in `this.gameState`, writes to a
handful of DOM nodes and talks to the backend through `fetch`.  The embedding below makes
each of these explicit:

* `GameState` mirrors the object literal of the constructor field by field;
* `Page` holds the DOM facts the methods write (button states, messages, rendered cells);
* `World` pairs them with the log of requests that were issued and the armed intervals;
* a synchronous method is a function `World → Outcome α` (it returns, or a `TypeError`
  propagates out of it);
* an `async` method is split at its `await`: the part that runs up to the `fetch`
  (`Async`), and the continuation that runs on the answer (`Fetch`).
-/

namespace SudokuPro

/-! ## JavaScript values -/

/-- A 9x9 grid as the backend sends it: an array of rows. -/
abbrev Board := List (List Nat)

/-- Pencil marks: an array of rows of arrays of digits. -/
abbrev Notes := List (List (List Nat))

/-- Result of evaluating the JavaScript expression `g[i][j]` on an array of arrays. -/
inductive Lookup (α : Type) where
  /-- `g[i]` is `undefined`, so indexing it throws a `TypeError`. -/
  | typeError : Lookup α
  /-- `g[i]` is an array without an element `j`: the expression is `undefined`. -/
  | undef : Lookup α
  /-- The element found. -/
  | value (a : α) : Lookup α
deriving DecidableEq, Repr

/-- The expression `g[i][j]`. -/
def index2 {α : Type} (g : List (List α)) (i j : Nat) : Lookup α :=
  match g[i]? with
  | none => Lookup.typeError
  | some row =>
    match row[j]? with
    | none => Lookup.undef
    | some a => Lookup.value a

/-- The test `x !== 0` on the result of a lookup that did not throw
(`undefined !== 0` is true). -/
def Lookup.isNonZero : Lookup Nat → Bool
  | Lookup.value a => a != 0
  | _ => true

/-- Identifier of a game as handed out by the backend: a token that is never falsy.
The value `null` of the field `gameId` is `none`. -/
structure GameId where
  token : Nat
deriving DecidableEq, Repr

/-- Handle returned by `setInterval`: never falsy; `null` is `none`. -/
structure TimerId where
  handle : Nat
deriving DecidableEq, Repr

/-- One entry of `moves_history` or `redo_stack`.  The client never looks inside
an entry, it only stores the arrays and reads their length. -/
structure HistoryEntry where
  tag : Nat
deriving DecidableEq, Repr

/-- The selected cell is a DOM button; the controller only reads its
`dataset.row` and `dataset.col` back. -/
structure CellRef where
  row : Nat
  col : Nat
deriving DecidableEq, Repr

/-! ## The controller's state -/

/-- The object `this.gameState` of the constructor. -/
structure GameState where
  gameId : Option GameId
  difficulty : String
  board : Board
  solution : Board
  originalBoard : Board
  notes : Notes
  selectedCell : Option CellRef
  gameStartTime : Option Int
  timerInterval : Option TimerId
  isGameComplete : Bool
  hintsUsed : Nat
  maxHints : Nat
  movesHistory : List HistoryEntry
  redoStack : List HistoryEntry
  isNoteMode : Bool
  autoCheck : Bool
deriving DecidableEq, Repr

/-- Texts passed to `showStatus`. -/
inductive StatusText where
  | blank
  | newGameStarted
  | selectCellFirst
  | hintsExhausted (maxHints : Nat)
  | cannotHintOriginal
  | hintApplied (remaining : Int)
  | noHintAvailable
  | solutionValid
  | solutionConflicts
  | settingsSaved
deriving DecidableEq, Repr

/-- Second argument of `showStatus`. -/
inductive StatusKind where
  | plain
  | success
  | error
deriving DecidableEq, Repr

/-- Texts passed to `showError`. -/
inductive ErrorText where
  | startNewGame
  | makeMove
  | undoMove
  | redoMove
  | getHint
  | checkSolution
  | loadStats
deriving DecidableEq, Repr

/-- One button of the board as `renderBoard` builds it. -/
structure CellView where
  row : Nat
  col : Nat
  /-- `textContent`, when a digit was written. -/
  text : Option Nat
  /-- Class `original`. -/
  original : Bool
  /-- Class `filled`. -/
  filled : Bool
  /-- The digits shown by `renderNotes`, when a notes container was appended. -/
  notes : Option (List Nat)
  /-- Class `error`. -/
  error : Bool
deriving DecidableEq, Repr

/-- The parts of the document the controller writes. -/
structure Page where
  /-- Children of `#sudokuBoard`, in creation order. -/
  cells : List CellView
  timerText : String
  status : StatusText
  statusKind : StatusKind
  /-- `hintCount.textContent`. -/
  hintCount : Int
  /-- Number of filled cells shown by `updateProgress` (out of 81). -/
  progressFilled : Nat
  undoDisabled : Bool
  redoDisabled : Bool
  noteBtnActive : Bool
  /-- The value whose number button carries the class `active`. -/
  padActive : Lookup Nat
  errorMessage : Option ErrorText
  errorModalShown : Bool
  winModalShown : Bool
  /-- What `showWinModal` wrote: the timer text, the hints used and the difficulty (shown
  capitalised). -/
  winSummary : Option (String × Nat × String)
  loadingShown : Bool
  /-- `welcomeScreen.style.display` is not `none`. -/
  welcomeVisible : Bool
  /-- `gameInterface.style.display` is not `none`. -/
  gameVisible : Bool
deriving DecidableEq, Repr

/-- The field `move_type` of a make-move request. -/
inductive MoveType where
  | note
  | number
deriving DecidableEq, Repr

/-- A request handed to `fetch`. -/
inductive Request where
  | newGame (difficulty : String)
  | makeMove (gameId : Option GameId) (row col value : Nat) (moveType : MoveType)
  | undo (gameId : Option GameId)
  | redo (gameId : Option GameId)
  | hint (gameId : Option GameId) (row col : Nat)
  | checkSolution (gameId : Option GameId)
  | gameStats (gameId : Option GameId) (timeTaken : Int) (completed : Bool)
deriving DecidableEq, Repr

/-- Everything a method can read or write. -/
structure World where
  gameState : GameState
  page : Page
  /-- Requests issued so far, oldest first. -/
  sent : List Request
  /-- Intervals armed with `setInterval` and not yet cleared. -/
  intervals : List TimerId
  /-- Lines written with `console.error`. -/
  errorLog : List ErrorText
deriving DecidableEq, Repr

/-- How a synchronous method ends. -/
inductive Outcome (α : Type) where
  /-- It returned `a`, leaving the world `w`. -/
  | done (a : α) (w : World) : Outcome α
  /-- A `TypeError` propagated out of it, the world being `w` at that point. -/
  | threw (w : World) : Outcome α
deriving DecidableEq, Repr

/-- How the first part of an `async` method ends. -/
inductive Async where
  /-- It returned before any `await`. -/
  | settled (w : World) : Async
  /-- An exception escaped before any `await`: the promise is rejected. -/
  | rejected (w : World) : Async
  /-- It issued its request (the last element of `w.sent`) and awaits the answer. -/
  | awaiting (w : World) : Async
deriving DecidableEq, Repr

/-- What `await fetch(..)` followed by `await response.json()` produces. -/
inductive Fetch (α : Type) where
  /-- The request promise rejects. -/
  | rejected : Fetch α
  /-- The body cannot be read as JSON. -/
  | unreadable : Fetch α
  /-- The parsed payload. -/
  | payload (data : α) : Fetch α
deriving DecidableEq, Repr

/-! ## Conflict detection -/

/-- A grid of nine rows of nine entries. -/
def Grid9 {α : Type} (g : List (List α)) : Prop :=
  g.length = 9 ∧ ∀ row ∈ g, row.length = 9

instance {α : Type} (g : List (List α)) : Decidable (Grid9 g) := by
  unfold Grid9; infer_instance

/-- One of the scanning loops of `isValidMove`, run over the positions `ps` in visiting
order.  A position with `skip` true fails the first conjunct of the test, so the board is
not read there.  `some false` is the `return false` of the loop, `some true` means the loop
ran to its end, `none` that reading the board threw. -/
def scan (b : Board) (num : Nat) (skip : Nat → Nat → Bool) : List (Nat × Nat) → Option Bool
  | [] => some true
  | (i, j) :: ps =>
    if skip i j then scan b num skip ps
    else
      match index2 b i j with
      | Lookup.typeError => none
      | Lookup.undef => scan b num skip ps
      | Lookup.value a => if a = num then some false else scan b num skip ps

/-- Positions visited by `for (let j = 0; j < 9; j++)` in row `row`. -/
def rowCells (row : Nat) : List (Nat × Nat) :=
  (List.range 9).map (fun j => (row, j))

/-- Positions visited by `for (let i = 0; i < 9; i++)` in column `col`. -/
def colCells (col : Nat) : List (Nat × Nat) :=
  (List.range 9).map (fun i => (i, col))

/-- Positions visited by the two nested loops over the 3x3 box, with
`boxRow = Math.floor(row / 3) * 3` and `boxCol = Math.floor(col / 3) * 3`. -/
def boxCells (row col : Nat) : List (Nat × Nat) :=
  (List.range' (row / 3 * 3) 3).flatMap
    (fun i => (List.range' (col / 3 * 3) 3).map (fun j => (i, j)))

/-- The method `isValidMove(row, col, num)`. -/
def isValidMove (w : World) (row col num : Nat) : Outcome Bool :=
  let b := w.gameState.board
  match scan b num (fun _ j => j == col) (rowCells row) with
  | none => Outcome.threw w
  | some false => Outcome.done false w
  | some true =>
    match scan b num (fun i _ => i == row) (colCells col) with
    | none => Outcome.threw w
    | some false => Outcome.done false w
    | some true =>
      match scan b num (fun i j => i == row && j == col) (boxCells row col) with
      | none => Outcome.threw w
      | some false => Outcome.done false w
      | some true => Outcome.done true w

/-- The digit `v` stands at a position other than `(r, c)` in row `r`, in column `c` or
in the 3x3 box of `(r, c)`. -/
def Conflict (b : Board) (r c v : Nat) : Prop :=
  ∃ i j, i < 9 ∧ j < 9 ∧ (i, j) ≠ (r, c) ∧
    (i = r ∨ j = c ∨ (i / 3 = r / 3 ∧ j / 3 = c / 3)) ∧ index2 b i j = Lookup.value v

/-- The test a scanning loop makes at one position. -/
def hit (b : Board) (num : Nat) (skip : Nat → Nat → Bool) (p : Nat × Nat) : Bool :=
  !skip p.1 p.2 && decide (index2 b p.1 p.2 = Lookup.value num)

/-! ## Payloads of the backend -/

/-- Answer of `POST /api/new-game`. -/
structure NewGamePayload where
  success : Bool
  game_id : Option GameId
  puzzle : Board
  solution : Board
deriving DecidableEq, Repr

/-- Answer of `POST /api/make-move`.  A field the code reads behind `||` may be absent
(`none`); the arrays themselves may be empty. -/
structure MovePayload where
  success : Bool
  current_board : Board
  notes : Notes
  moves_history : Option (List HistoryEntry)
  is_complete : Bool
deriving DecidableEq, Repr

/-- Answer of `POST /api/undo` and of `POST /api/redo`. -/
structure HistoryPayload where
  success : Bool
  current_board : Board
  notes : Notes
  moves_history : Option (List HistoryEntry)
  redo_stack : Option (List HistoryEntry)
deriving DecidableEq, Repr

/-- Answer of `POST /api/hint`; an absent `hint` is `none`. -/
structure HintPayload where
  success : Bool
  hint : Option Nat
  hints_used : Nat
deriving DecidableEq, Repr

/-! ## Display helpers -/

/-- The method `showStatus(message, type)`. -/
def showStatus (w : World) (message : StatusText) (kind : StatusKind) : World :=
  { w with page := { w.page with status := message, statusKind := kind } }

/-- The method `showError(message)`: sets the text and opens the error modal. -/
def showError (w : World) (message : ErrorText) : World :=
  { w with page := { w.page with errorMessage := some message, errorModalShown := true } }

/-- A `catch` block of the controller: `console.error(..)` then `showError(..)`. -/
def catchError (w : World) (message : ErrorText) : World :=
  showError { w with errorLog := w.errorLog ++ [message] } message

/-- The method `showLoading(show)`. -/
def showLoading (w : World) (visible : Bool) : World :=
  { w with page := { w.page with loadingShown := visible } }

/-- The method `updateProgress()`: counts `board.flat().filter(cell => cell !== 0)`. -/
def updateProgress (w : World) : World :=
  { w with page := { w.page with
      progressFilled := (w.gameState.board.flatten.filter (fun cell => cell != 0)).length } }

/-- The method `updateUndoRedoButtons()`. -/
def updateUndoRedoButtons (w : World) : World :=
  { w with page := { w.page with
      undoDisabled := decide (w.gameState.movesHistory.length = 0),
      redoDisabled := decide (w.gameState.redoStack.length = 0) } }

/-! ## Timer -/

/-- The method `stopTimer()`. -/
def stopTimer (w : World) : World :=
  match w.gameState.timerInterval with
  | none => w
  | some t =>
    { w with
      intervals := w.intervals.filter (fun u => u != t),
      gameState := { w.gameState with timerInterval := none } }

/-- The method `startTimer()`; `now` is `Date.now()` and `t` the handle `setInterval`
returns. -/
def startTimer (w : World) (now : Int) (t : TimerId) : World :=
  { w with
    intervals := w.intervals ++ [t],
    gameState := { w.gameState with gameStartTime := some now, timerInterval := some t } }

/-- Value of `gameStartTime` in an arithmetic expression (`null` counts as 0). -/
def startMillis (s : GameState) : Int :=
  s.gameStartTime.getD 0

/-- `Math.floor((Date.now() - gameStartTime) / 1000)`; integer division by a positive
number rounds down. -/
def elapsedSeconds (s : GameState) (now : Int) : Int :=
  (now - startMillis s) / 1000

/-! ## Board rendering and selection -/

/-- The digits `renderNotes` writes into the nine note slots. -/
def renderNotes (notes : List Nat) : List Nat :=
  (List.range' 1 9).filter (fun num => notes.contains num)

/-- The digit of a lookup, if it is one. -/
def Lookup.toOption {α : Type} : Lookup α → Option α
  | Lookup.value a => some a
  | _ => none

/-- One iteration of the inner loop of `renderBoard`: the button it appends, or `none`
when the iteration throws. -/
def renderCell (s : GameState) (i j : Nat) : Option CellView :=
  match index2 s.board i j with
  | Lookup.typeError => none
  | v =>
    if v.isNonZero then
      match index2 s.originalBoard i j with
      | Lookup.typeError => none
      | o =>
        some { row := i, col := j, text := v.toOption, original := o.isNonZero,
               filled := !o.isNonZero, notes := none, error := false }
    else
      match index2 s.notes i j with
      | Lookup.value ns =>
        some { row := i, col := j, text := none, original := false, filled := false,
               notes := if ns.length > 0 then some (renderNotes ns) else none,
               error := false }
      | _ => none

/-- The two nested loops of `renderBoard` over the positions `ps`, appending to `acc`;
the flag tells whether they ran to the end. -/
def renderCells (s : GameState) : List (Nat × Nat) → List CellView → List CellView × Bool
  | [], acc => (acc, true)
  | (i, j) :: ps, acc =>
    match renderCell s i j with
    | none => (acc, false)
    | some cell => renderCells s ps (acc ++ [cell])

/-- Positions visited by `for i in 0..8, for j in 0..8`. -/
def allCells : List (Nat × Nat) :=
  (List.range 9).flatMap (fun i => (List.range 9).map (fun j => (i, j)))

/-- The method `renderBoard()`. -/
def renderBoard (w : World) : Outcome Unit :=
  let r := renderCells w.gameState allCells []
  let w1 := { w with page := { w.page with cells := r.1 } }
  if r.2 then Outcome.done () w1 else Outcome.threw w1

/-- The method `updateNumberPad()`. -/
def updateNumberPad (w : World) : Outcome Unit :=
  match w.gameState.selectedCell with
  | none => Outcome.done () w
  | some cell =>
    match index2 w.gameState.board cell.row cell.col with
    | Lookup.typeError => Outcome.threw w
    | v =>
      Outcome.done ()
        { w with page := { w.page with
            padActive := v, noteBtnActive := w.gameState.isNoteMode } }

/-- The method `selectCell(row, col)`.  `querySelector` finds the button only when the
board shows one for `(row, col)`. -/
def selectCell (w : World) (row col : Nat) : Outcome Unit :=
  match index2 w.gameState.originalBoard row col with
  | Lookup.typeError => Outcome.threw w
  | o =>
    if o.isNonZero then Outcome.done () w
    else
      match w.page.cells.find? (fun cell => cell.row == row && cell.col == col) with
      | none =>
        Outcome.threw { w with gameState := { w.gameState with selectedCell := none } }
      | some cell =>
        updateNumberPad
          { w with gameState := { w.gameState with
              selectedCell := some { row := cell.row, col := cell.col } } }

/-- The method `toggleNoteMode()`. -/
def toggleNoteMode (w : World) : Outcome Unit :=
  let noteMode := !w.gameState.isNoteMode
  updateNumberPad
    { w with
      gameState := { w.gameState with isNoteMode := noteMode },
      page := { w.page with noteBtnActive := noteMode } }

/-- Argument of `moveSelection`. -/
inductive Arrow where
  | up
  | down
  | left
  | right
deriving DecidableEq, Repr

/-- The method `moveSelection(direction)`; on naturals `r - 1` is `Math.max(0, r - 1)`. -/
def moveSelection (w : World) (direction : Arrow) : Outcome Unit :=
  match w.gameState.selectedCell with
  | none => Outcome.done () w
  | some cell =>
    match direction with
    | Arrow.up => selectCell w (cell.row - 1) cell.col
    | Arrow.down => selectCell w (min 8 (cell.row + 1)) cell.col
    | Arrow.left => selectCell w cell.row (cell.col - 1)
    | Arrow.right => selectCell w cell.row (min 8 (cell.col + 1))

/-! ## Game lifecycle -/

/-- The method `resetGameState()`. -/
def resetGameState (w : World) : World :=
  let w1 := { w with gameState := { w.gameState with
      board := [], solution := [], originalBoard := [], notes := [],
      selectedCell := none, isGameComplete := false, hintsUsed := 0,
      movesHistory := [], redoStack := [], isNoteMode := false } }
  let w2 := stopTimer w1
  let w3 := { w2 with page := { w2.page with
      timerText := "00:00", hintCount := (w2.gameState.maxHints : Int) } }
  showStatus (updateUndoRedoButtons (updateProgress w3)) StatusText.blank StatusKind.plain

/-- The method `showWelcomeScreen()`. -/
def showWelcomeScreen (w : World) : World :=
  resetGameState { w with page := { w.page with welcomeVisible := true, gameVisible := false } }

/-- `Array(9).fill().map(() => Array(9).fill().map(() => []))`. -/
def emptyNotes : Notes :=
  List.replicate 9 (List.replicate 9 [])

/-- First part of `startNewGame()`, up to `await fetch('/api/new-game', ..)`. -/
def startNewGame (w : World) : Async :=
  let w1 := resetGameState (showLoading w true)
  Async.awaiting { w1 with sent := w1.sent ++ [Request.newGame w1.gameState.difficulty] }

/-- The `catch` and `finally` blocks of `startNewGame()`. -/
def startNewGameFailed (w : World) : World :=
  showLoading (catchError w ErrorText.startNewGame) false

/-- Rest of `startNewGame()` once the answer is in; `now` is `Date.now()` and `t` the
handle the next `setInterval` returns. -/
def startNewGameResume (w : World) (answer : Fetch NewGamePayload) (now : Int)
    (t : TimerId) : World :=
  match answer with
  | Fetch.payload data =>
    if data.success then
      let w1 := { w with gameState := { w.gameState with
          gameId := data.game_id, board := data.puzzle, solution := data.solution,
          originalBoard := data.puzzle.map (fun row => row), notes := emptyNotes } }
      match renderBoard w1 with
      | Outcome.threw w2 => startNewGameFailed w2
      | Outcome.done _ w2 =>
        let w3 := updateUndoRedoButtons (updateProgress (startTimer w2 now t))
        showLoading (showStatus w3 StatusText.newGameStarted StatusKind.success) false
    else startNewGameFailed w
  | _ => startNewGameFailed w

/-! ## Moves -/

/-- The `async` method `saveGameStats()` up to its `fetch`; nothing happens after it. -/
def saveGameStats (w : World) (now : Int) : World :=
  match w.gameState.gameId with
  | none => w
  | some g =>
    { w with sent := w.sent ++
        [Request.gameStats (some g) (elapsedSeconds w.gameState now)
          w.gameState.isGameComplete] }

/-- The method `showWinModal()`.  The third text is shown with its first character put
through the host's `toUpperCase`; the summary keeps the difficulty itself. -/
def showWinModal (w : World) : World :=
  { w with page := { w.page with
      winSummary := some (w.page.timerText, w.gameState.hintsUsed,
        w.gameState.difficulty),
      winModalShown := true } }

/-- The method `handleGameComplete()`; `now` is `Date.now()`. -/
def handleGameComplete (w : World) (now : Int) : World :=
  let w1 := { w with gameState := { w.gameState with isGameComplete := true } }
  saveGameStats (showWinModal (stopTimer w1)) now

/-- First part of `makeMove(value)`, up to `await fetch('/api/make-move', ..)`. -/
def makeMove (w : World) (value : Nat) : Async :=
  match w.gameState.selectedCell with
  | none => Async.settled w
  | some cell =>
    if w.gameState.isGameComplete then Async.settled w
    else
      match index2 w.gameState.originalBoard cell.row cell.col with
      | Lookup.typeError => Async.rejected w
      | o =>
        if o.isNonZero then Async.settled w
        else
          Async.awaiting { w with sent := w.sent ++
            [Request.makeMove w.gameState.gameId cell.row cell.col value
              (if w.gameState.isNoteMode then MoveType.note else MoveType.number)] }

/-- Rest of `makeMove(value)` once the answer is in; `now` is `Date.now()`. -/
def makeMoveResume (w : World) (answer : Fetch MovePayload) (now : Int) : World :=
  match answer with
  | Fetch.payload data =>
    if data.success then
      let w1 := { w with gameState := { w.gameState with
          board := data.current_board, notes := data.notes,
          movesHistory := data.moves_history.getD w.gameState.movesHistory,
          redoStack := [] } }
      match renderBoard w1 with
      | Outcome.threw w2 => catchError w2 ErrorText.makeMove
      | Outcome.done _ w2 =>
        let w3 := updateUndoRedoButtons (updateProgress w2)
        if data.is_complete then handleGameComplete w3 now else w3
    else catchError w ErrorText.makeMove
  | _ => catchError w ErrorText.makeMove

/-! ## Undo and redo -/

/-- The `try` block of `undoMove()` and of `redoMove()` after the answer is parsed; the
two differ only in the message of their `catch`. -/
def adoptHistory (w : World) (answer : Fetch HistoryPayload) (message : ErrorText) : World :=
  match answer with
  | Fetch.payload data =>
    if data.success then
      let w1 := { w with gameState := { w.gameState with
          board := data.current_board, notes := data.notes,
          movesHistory := data.moves_history.getD w.gameState.movesHistory,
          redoStack := data.redo_stack.getD w.gameState.redoStack } }
      match renderBoard w1 with
      | Outcome.threw w2 => catchError w2 message
      | Outcome.done _ w2 => updateUndoRedoButtons (updateProgress w2)
    else catchError w message
  | _ => catchError w message

/-- First part of `undoMove()`, up to `await fetch('/api/undo', ..)`. -/
def undoMove (w : World) : Async :=
  match w.gameState.gameId with
  | none => Async.settled w
  | some g => Async.awaiting { w with sent := w.sent ++ [Request.undo (some g)] }

/-- Rest of `undoMove()` once the answer is in. -/
def undoMoveResume (w : World) (answer : Fetch HistoryPayload) : World :=
  adoptHistory w answer ErrorText.undoMove

/-- First part of `redoMove()`, up to `await fetch('/api/redo', ..)`. -/
def redoMove (w : World) : Async :=
  match w.gameState.gameId with
  | none => Async.settled w
  | some g => Async.awaiting { w with sent := w.sent ++ [Request.redo (some g)] }

/-- Rest of `redoMove()` once the answer is in. -/
def redoMoveResume (w : World) (answer : Fetch HistoryPayload) : World :=
  adoptHistory w answer ErrorText.redoMove

/-! ## Hints -/

/-- First part of `getHint()`, up to `await fetch('/api/hint', ..)`. -/
def getHint (w : World) : Async :=
  match w.gameState.selectedCell with
  | none => Async.settled (showStatus w StatusText.selectCellFirst StatusKind.error)
  | some cell =>
    if w.gameState.isGameComplete then
      Async.settled (showStatus w StatusText.selectCellFirst StatusKind.error)
    else if w.gameState.hintsUsed ≥ w.gameState.maxHints then
      Async.settled
        (showStatus w (StatusText.hintsExhausted w.gameState.maxHints) StatusKind.error)
    else
      match index2 w.gameState.originalBoard cell.row cell.col with
      | Lookup.typeError => Async.rejected w
      | o =>
        if o.isNonZero then
          Async.settled (showStatus w StatusText.cannotHintOriginal StatusKind.error)
        else
          Async.awaiting { w with sent := w.sent ++
            [Request.hint w.gameState.gameId cell.row cell.col] }

/-- Tail of the `try` block of `getHint()`, after `await this.makeMove(data.hint)`:
marking the selected cell throws when nothing is selected any more. -/
def getHintAfterMove (w : World) : World :=
  match w.gameState.selectedCell with
  | none => catchError w ErrorText.getHint
  | some _ =>
    showStatus w
      (StatusText.hintApplied ((w.gameState.maxHints : Int) - (w.gameState.hintsUsed : Int)))
      StatusKind.success

/-- Rest of `getHint()` once the answer of `/api/hint` is in, up to the point where the
nested `makeMove` awaits its own answer (`Async.awaiting`) or `getHint` is over
(`Async.settled`). -/
def getHintResume (w : World) (answer : Fetch HintPayload) : Async :=
  match answer with
  | Fetch.payload data =>
    match data.hint with
    | some h =>
      if data.success && h != 0 then
        let w1 := { w with
          gameState := { w.gameState with hintsUsed := data.hints_used },
          page := { w.page with
            hintCount := (w.gameState.maxHints : Int) - (data.hints_used : Int) } }
        match makeMove w1 h with
        | Async.rejected w2 => Async.settled (catchError w2 ErrorText.getHint)
        | Async.settled w2 => Async.settled (getHintAfterMove w2)
        | Async.awaiting w2 => Async.awaiting w2
      else Async.settled (showStatus w StatusText.noHintAvailable StatusKind.error)
    | none => Async.settled (showStatus w StatusText.noHintAvailable StatusKind.error)
  | _ => Async.settled (catchError w ErrorText.getHint)

/-- End of `getHint()` once the answer to the nested `makeMove` is in. -/
def getHintFinish (w : World) (answer : Fetch MovePayload) (now : Int) : World :=
  getHintAfterMove (makeMoveResume w answer now)

/-! ## Keyboard -/

/-- `parseInt(key)` for a key that starts with a digit: the number spelled by its
leading digits. -/
def parseInt (key : String) : Nat :=
  (key.toList.takeWhile Char.isDigit).foldl (fun n ch => 10 * n + (ch.toNat - 48)) 0

/-- The comparison `a <= b` of two strings: lexicographic, character by character. -/
def strLe : List Char → List Char → Bool
  | [], _ => true
  | _ :: _, [] => false
  | a :: as, b :: bs => a < b || (a == b && strLe as bs)

/-- A synchronous call made from an event handler. -/
def Outcome.toAsync : Outcome Unit → Async
  | Outcome.done _ w => Async.settled w
  | Outcome.threw w => Async.rejected w

/-- The method `handleKeyPress(event)` with `key = event.key`.  A `makeMove` it starts is
not awaited: `Async.awaiting` says that its request is pending when the handler returns. -/
def handleKeyPress (w : World) (key : String) : Async :=
  match w.gameState.selectedCell with
  | none => Async.settled w
  | some cell =>
    if w.gameState.isGameComplete then Async.settled w
    else
      match index2 w.gameState.originalBoard cell.row cell.col with
      | Lookup.typeError => Async.rejected w
      | o =>
        if o.isNonZero then Async.settled w
        else if strLe "1".toList key.toList && strLe key.toList "9".toList then
          makeMove w (parseInt key)
        else if key = "0" ∨ key = "Backspace" ∨ key = "Delete" then makeMove w 0
        else if key = "n" ∨ key = "N" then (toggleNoteMode w).toAsync
        else if key = "ArrowUp" then (moveSelection w Arrow.up).toAsync
        else if key = "ArrowDown" then (moveSelection w Arrow.down).toAsync
        else if key = "ArrowLeft" then (moveSelection w Arrow.left).toAsync
        else if key = "ArrowRight" then (moveSelection w Arrow.right).toAsync
        else Async.settled w

/-- The world an `Async` step leaves behind. -/
def Async.world : Async → World
  | Async.settled w => w
  | Async.rejected w => w
  | Async.awaiting w => w

/-- The step issued a request. -/
def Async.isAwaiting : Async → Bool
  | Async.awaiting _ => true
  | _ => false

/-- The world a synchronous call leaves behind. -/
def Outcome.world {α : Type} : Outcome α → World
  | Outcome.done _ w => w
  | Outcome.threw w => w

/-! ## Sample data -/

/-- A valid puzzle with a few givens removed (0 is an empty cell). -/
def samplePuzzle : Board :=
  [[5, 3, 0, 0, 7, 0, 0, 0, 0],
   [6, 0, 0, 1, 9, 5, 0, 0, 0],
   [0, 9, 8, 0, 0, 0, 0, 6, 0],
   [8, 0, 0, 0, 6, 0, 0, 0, 3],
   [4, 0, 0, 8, 0, 3, 0, 0, 1],
   [7, 0, 0, 0, 2, 0, 0, 0, 6],
   [0, 6, 0, 0, 0, 0, 2, 8, 0],
   [0, 0, 0, 4, 1, 9, 0, 0, 5],
   [0, 0, 0, 0, 8, 0, 0, 7, 9]]

/-- The sample puzzle after the player put a 4 at row 0, column 2. -/
def sampleBoard : Board :=
  [[5, 3, 4, 0, 7, 0, 0, 0, 0],
   [6, 0, 0, 1, 9, 5, 0, 0, 0],
   [0, 9, 8, 0, 0, 0, 0, 6, 0],
   [8, 0, 0, 0, 6, 0, 0, 0, 3],
   [4, 0, 0, 8, 0, 3, 0, 0, 1],
   [7, 0, 0, 0, 2, 0, 0, 0, 6],
   [0, 6, 0, 0, 0, 0, 2, 8, 0],
   [0, 0, 0, 4, 1, 9, 0, 0, 5],
   [0, 0, 0, 0, 8, 0, 0, 7, 9]]

/-- A page as it may look in the middle of a game. -/
def samplePage : Page :=
  { cells := [], timerText := "01:15", status := StatusText.blank,
    statusKind := StatusKind.plain, hintCount := 4, progressFilled := 31,
    undoDisabled := false, redoDisabled := true, noteBtnActive := false,
    padActive := Lookup.value 0, errorMessage := none, errorModalShown := false,
    winModalShown := false, winSummary := none, loadingShown := false,
    welcomeVisible := false, gameVisible := true }

/-- A game in progress: one move made, one hint used, the cell at row 0, column 3
selected, the timer running since `1000`. -/
def sampleState : GameState :=
  { gameId := some { token := 7 }, difficulty := "hard", board := sampleBoard,
    solution := [], originalBoard := samplePuzzle, notes := emptyNotes,
    selectedCell := some { row := 0, col := 3 }, gameStartTime := some 1000,
    timerInterval := some { handle := 1 }, isGameComplete := false, hintsUsed := 1,
    maxHints := 5, movesHistory := [{ tag := 1 }], redoStack := [], isNoteMode := false,
    autoCheck := true }

/-- The sample game with its page and an armed timer. -/
def sampleWorld : World :=
  { gameState := sampleState, page := samplePage, sent := [],
    intervals := [{ handle := 1 }], errorLog := [] }

/-- The make-move request `makeMove(value)` builds for the selected cell `cell`. -/
def moveRequest (w : World) (cell : CellRef) (value : Nat) : Request :=
  Request.makeMove w.gameState.gameId cell.row cell.col value
    (if w.gameState.isNoteMode then MoveType.note else MoveType.number)

/-- A successful answer to a move: the 6 was placed at row 0, column 3, the history has
two entries, the puzzle is not finished. -/
def sampleMoveAnswer : MovePayload :=
  { success := true,
    current_board := (sampleBoard.set 0 [5, 3, 4, 6, 7, 0, 0, 0, 0]),
    notes := emptyNotes, moves_history := some [{ tag := 1 }, { tag := 2 }],
    is_complete := false }

/-- The same answer, announcing that the puzzle is finished. -/
def sampleWinningAnswer : MovePayload :=
  { sampleMoveAnswer with is_complete := true }

/-- A successful answer to undo or redo that carries the board and the notes but neither
`moves_history` nor `redo_stack`. -/
def answerWithoutHistory : HistoryPayload :=
  { success := true, current_board := samplePuzzle, notes := emptyNotes,
    moves_history := none, redo_stack := none }

/-- A successful answer to undo: the board is the puzzle again, the history is empty and
the undone move is on the redo stack. -/
def sampleUndoAnswer : HistoryPayload :=
  { success := true, current_board := samplePuzzle, notes := emptyNotes,
    moves_history := some [], redo_stack := some [{ tag := 1 }] }

/-- The sample game with an empty local history. -/
def sampleWorldNoHistory : World :=
  { sampleWorld with gameState := { sampleState with movesHistory := [] } }

/-- The sample game once the client has marked it complete. -/
def sampleWonWorld : World :=
  { sampleWorld with gameState := { sampleState with
      isGameComplete := true, timerInterval := none }, intervals := [] }

/-- The undo and redo buttons agree with the cached arrays: each is enabled exactly when
its array is non-empty. -/
def ButtonsFollowHistory (w : World) : Prop :=
  (w.page.undoDisabled = false ↔ w.gameState.movesHistory ≠ []) ∧
    (w.page.redoDisabled = false ↔ w.gameState.redoStack ≠ [])

/-- The four assignments at the head of the success branch of `makeMove`. -/
def moveAdopted (w : World) (data : MovePayload) : World :=
  { w with gameState := { w.gameState with
      board := data.current_board, notes := data.notes,
      movesHistory := data.moves_history.getD w.gameState.movesHistory,
      redoStack := [] } }

/-- The four assignments at the head of the success branch of `undoMove` and `redoMove`. -/
def historyAdopted (w : World) (data : HistoryPayload) : World :=
  { w with gameState := { w.gameState with
      board := data.current_board, notes := data.notes,
      movesHistory := data.moves_history.getD w.gameState.movesHistory,
      redoStack := data.redo_stack.getD w.gameState.redoStack } }

/-- The answer to a new-game request counts as a failure: the request rejected, the body
was unreadable, or the payload has a falsy `success`. -/
def NewGameFailed (answer : Fetch NewGamePayload) : Prop :=
  ∀ data, answer = Fetch.payload data → data.success = false

/-- A whole call of `startNewGame()` whose request gets `answer`. -/
def startNewGameThen (w : World) (answer : Fetch NewGamePayload) (now : Int)
    (t : TimerId) : World :=
  startNewGameResume (startNewGame w).world answer now t

/-! ## Checking the solution -/

/-- Answer of `POST /api/check-solution`. -/
structure CheckPayload where
  success : Bool
  is_valid : Bool
deriving DecidableEq, Repr

/-- A scanning loop of `isValidMove` when the argument `num` is `undefined` (the call
`highlightErrors` makes for a cell the board has no entry for): the test
`board[i][j] === undefined` holds exactly at the missing entries of existing rows. -/
def scanUndefined (b : Board) (skip : Nat → Nat → Bool) : List (Nat × Nat) → Option Bool
  | [] => some true
  | (i, j) :: ps =>
    if skip i j then scanUndefined b skip ps
    else
      match index2 b i j with
      | Lookup.typeError => none
      | Lookup.undef => some false
      | Lookup.value _ => scanUndefined b skip ps

/-- The method `isValidMove(row, col, undefined)`. -/
def isValidMoveUndefined (w : World) (row col : Nat) : Outcome Bool :=
  let b := w.gameState.board
  match scanUndefined b (fun _ j => j == col) (rowCells row) with
  | none => Outcome.threw w
  | some false => Outcome.done false w
  | some true =>
    match scanUndefined b (fun i _ => i == row) (colCells col) with
    | none => Outcome.threw w
    | some false => Outcome.done false w
    | some true =>
      match scanUndefined b (fun i j => i == row && j == col) (boxCells row col) with
      | none => Outcome.threw w
      | some false => Outcome.done false w
      | some true => Outcome.done true w

/-- The method `clearErrors()`: every button with the class `error` loses it. -/
def clearErrors (w : World) : World :=
  { w with page := { w.page with
      cells := w.page.cells.map (fun cell => { cell with error := false }) } }

/-- `querySelector` for `(i, j)` followed by `classList.add('error')`: the first button of
the board with these coordinates gets the class, if there is one. -/
def markError : List CellView → Nat → Nat → List CellView
  | [], _, _ => []
  | cell :: cells, i, j =>
    if cell.row == i && cell.col == j then { cell with error := true } :: cells
    else cell :: markError cells i j

/-- The two nested loops of `highlightErrors` over the positions `ps`. -/
def highlightFrom (w : World) : List (Nat × Nat) → Outcome Unit
  | [] => Outcome.done () w
  | (i, j) :: ps =>
    match index2 w.gameState.board i j with
    | Lookup.typeError => Outcome.threw w
    | Lookup.undef =>
      match isValidMoveUndefined w i j with
      | Outcome.threw w1 => Outcome.threw w1
      | Outcome.done true w1 => highlightFrom w1 ps
      | Outcome.done false w1 =>
        highlightFrom { w1 with page := { w1.page with
          cells := markError w1.page.cells i j } } ps
    | Lookup.value a =>
      if a != 0 then
        match isValidMove w i j a with
        | Outcome.threw w1 => Outcome.threw w1
        | Outcome.done true w1 => highlightFrom w1 ps
        | Outcome.done false w1 =>
          highlightFrom { w1 with page := { w1.page with
            cells := markError w1.page.cells i j } } ps
      else highlightFrom w ps

/-- The method `highlightErrors()`. -/
def highlightErrors (w : World) : Outcome Unit :=
  highlightFrom (clearErrors w) allCells

/-- First part of `checkSolution()`, up to `await fetch('/api/check-solution', ..)`. -/
def checkSolution (w : World) : Async :=
  match w.gameState.gameId with
  | none => Async.settled w
  | some g => Async.awaiting { w with sent := w.sent ++ [Request.checkSolution (some g)] }

/-- Rest of `checkSolution()` once the answer is in. -/
def checkSolutionResume (w : World) (answer : Fetch CheckPayload) : World :=
  match answer with
  | Fetch.payload data =>
    if data.success then
      if data.is_valid then
        clearErrors (showStatus w StatusText.solutionValid StatusKind.success)
      else
        match highlightErrors (showStatus w StatusText.solutionConflicts StatusKind.error) with
        | Outcome.done _ w1 => w1
        | Outcome.threw w1 => catchError w1 ErrorText.checkSolution
    else catchError w ErrorText.checkSolution
  | _ => catchError w ErrorText.checkSolution

/-- The verdict of the three scans of `isValidMove` on a board where no lookup throws:
some scan finds `num`. -/
def conflictB (b : Board) (r c num : Nat) : Bool :=
  (rowCells r).any (hit b num (fun _ j => j == c)) ||
    (colCells c).any (hit b num (fun i _ => i == r)) ||
    (boxCells r c).any (hit b num (fun i j => i == r && j == c))

/-- The cell `(i, j)` is filled and `isValidMove` rejects its own digit. -/
def flagged (b : Board) (i j : Nat) : Bool :=
  match index2 b i j with
  | Lookup.value a => a != 0 && conflictB b i j a
  | _ => false

/-- The cell `(i, j)` is filled and its digit stands at another position of its row, its
column or its 3x3 box. -/
def InConflict (b : Board) (i j : Nat) : Prop :=
  ∃ v, index2 b i j = Lookup.value v ∧ v ≠ 0 ∧ Conflict b i j v

/-- The board element shows the 81 buttons in the order `renderBoard` creates them. -/
def ShowsGrid (cells : List CellView) : Prop :=
  cells.map (fun cell => (cell.row, cell.col)) = allCells

instance (cells : List CellView) : Decidable (ShowsGrid cells) := by
  unfold ShowsGrid; infer_instance

/-- The positions `(i, j)` and `(k, l)` lie in a common row, column or 3x3 box. -/
def SameUnit (i j k l : Nat) : Prop :=
  i = k ∨ j = l ∨ (i / 3 = k / 3 ∧ j / 3 = l / 3)

/-- The sample game with its board rendered. -/
def sampleShownWorld : World :=
  (renderBoard sampleWorld).world

/-- The sample board with a second 5 put at row 0, column 3: it clashes with the given 5
of row 0, column 0 (same row) and the 5 of row 1, column 5 (same box). -/
def clashBoard : Board :=
  sampleBoard.set 0 [5, 3, 4, 5, 7, 0, 0, 0, 0]

/-- The sample game showing the clashing board. -/
def clashWorld : World :=
  (renderBoard { sampleWorld with gameState := { sampleState with board := clashBoard } }).world

/-- The marks the loops of `highlightErrors` leave after visiting the positions `ps`. -/
def markAll (b : Board) (ps : List (Nat × Nat)) (cells : List CellView) : List CellView :=
  ps.foldl (fun cs p => if flagged b p.1 p.2 then markError cs p.1 p.2 else cs) cells

/-- The five assignments at the head of the success branch of `startNewGame`. -/
def newGameAdopted (w : World) (data : NewGamePayload) : World :=
  { w with gameState := { w.gameState with
      gameId := data.game_id, board := data.puzzle, solution := data.solution,
      originalBoard := data.puzzle.map (fun row => row), notes := emptyNotes } }

/-- The button a fresh puzzle `P` gets at position `p`: a given shows its digit with the
class `original`; an empty cell shows nothing and has no class. -/
def puzzleCell (P : Board) (p : Nat × Nat) : CellView :=
  match index2 P p.1 p.2 with
  | Lookup.value v =>
    if v ≠ 0 then
      { row := p.1, col := p.2, text := some v, original := true, filled := false,
        notes := none, error := false }
    else
      { row := p.1, col := p.2, text := none, original := false, filled := false,
        notes := none, error := false }
  | _ =>
    { row := p.1, col := p.2, text := none, original := false, filled := false,
      notes := none, error := false }

/-- The solution of the sample puzzle. -/
def sampleSolution : Board :=
  [[5, 3, 4, 6, 7, 8, 9, 1, 2],
   [6, 7, 2, 1, 9, 5, 3, 4, 8],
   [1, 9, 8, 3, 4, 2, 5, 6, 7],
   [8, 5, 9, 7, 6, 1, 4, 2, 3],
   [4, 2, 6, 8, 5, 3, 7, 9, 1],
   [7, 1, 3, 9, 2, 4, 8, 5, 6],
   [9, 6, 1, 5, 3, 7, 2, 8, 4],
   [2, 8, 7, 4, 1, 9, 6, 3, 5],
   [3, 4, 5, 2, 8, 6, 1, 7, 9]]

/-- A successful answer to a new-game request: the sample puzzle with its solution. -/
def sampleNewGameAnswer : NewGamePayload :=
  { success := true, game_id := some { token := 8 }, puzzle := samplePuzzle,
    solution := sampleSolution }

/-- The hint request `getHint()` builds for the selected cell `cell`. -/
def hintRequest (w : World) (cell : CellRef) : Request :=
  Request.hint w.gameState.gameId cell.row cell.col

/-- The two writes of `getHint()` on a successful answer: `hintsUsed` and the remaining
count shown next to the hint button. -/
def hintCounted (w : World) (data : HintPayload) : World :=
  { w with
    gameState := { w.gameState with hintsUsed := data.hints_used },
    page := { w.page with
      hintCount := (w.gameState.maxHints : Int) - (data.hints_used : Int) } }

/-- An answer counts as a failure of the request: the request rejected, the body was
unreadable, or the payload has a falsy `success` (read by `ok`). -/
def Failed {α : Type} (ok : α → Bool) (answer : Fetch α) : Prop :=
  ∀ data, answer = Fetch.payload data → ok data = false

/-- The world `final` is `w` after a `catch` block for `message`: the error modal is open
on `message` and one line was logged; the game state, the armed intervals and the rest of
the page are those of `w`. -/
def ShowsError (w final : World) (message : ErrorText) : Prop :=
  final.gameState = w.gameState ∧ final.intervals = w.intervals ∧
    final.page = { w.page with errorMessage := some message, errorModalShown := true } ∧
    final.errorLog = w.errorLog ++ [message]

/-- The world `final` is `w` with the status line set to `text` of kind `kind`: the game
state, the armed intervals, the log and the rest of the page are those of `w`. -/
def ShowsStatus (w final : World) (text : StatusText) (kind : StatusKind) : Prop :=
  final.gameState = w.gameState ∧ final.intervals = w.intervals ∧
    final.page = { w.page with status := text, statusKind := kind } ∧
    final.errorLog = w.errorLog

/-- An answer to a hint request whose payload has a falsy `success`. -/
def refusedHintAnswer : HintPayload :=
  { success := false, hint := none, hints_used := 0 }

/-- A successful answer to a hint request: the digit 6, the second hint of the game. -/
def sampleHintAnswer : HintPayload :=
  { success := true, hint := some 6, hints_used := 2 }

/-- The sample game in note mode. -/
def sampleNoteWorld : World :=
  { sampleWorld with gameState := { sampleState with isNoteMode := true } }

/-- Some row, column or 3x3 box holds the same non-zero digit at two different
positions. -/
def DuplicateDigit (b : Board) : Prop :=
  ∃ i j k l v, i < 9 ∧ j < 9 ∧ k < 9 ∧ l < 9 ∧ (i, j) ≠ (k, l) ∧ SameUnit i j k l ∧ v ≠ 0 ∧
    index2 b i j = Lookup.value v ∧ index2 b k l = Lookup.value v

/-! ## Settings -/

/-- The object `this.settings`. -/
structure Settings where
  theme : String
  animations : Bool
  autoCheck : Bool
  sound : Bool
deriving DecidableEq, Repr

/-- What `JSON.parse` reads from the item `sudokuProSettings` of the local storage: an
object in which any of the four keys may be missing. -/
structure StoredSettings where
  theme : Option String
  animations : Option Bool
  autoCheck : Option Bool
  sound : Option Bool
deriving DecidableEq, Repr

/-- The controller together with its settings, the stored item (`none` when
`localStorage.getItem` returns `null`), the attribute `data-theme` of the document and the
settings modal. -/
structure Controller where
  world : World
  settings : Settings
  stored : Option StoredSettings
  dataTheme : String
  settingsModalShown : Bool
deriving DecidableEq, Repr

/-- The settings the constructor starts from. -/
def defaultSettings : Settings :=
  { theme := "light", animations := true, autoCheck := true, sound := true }

/-- The object `this.gameState` the constructor starts from. -/
def initialGameState : GameState :=
  { gameId := none, difficulty := "medium", board := [], solution := [], originalBoard := [],
    notes := [], selectedCell := none, gameStartTime := none, timerInterval := none,
    isGameComplete := false, hintsUsed := 0, maxHints := 5, movesHistory := [],
    redoStack := [], isNoteMode := false, autoCheck := true }

/-- What `JSON.parse(JSON.stringify(settings))` gives: all four keys with their values. -/
def stringify (settings : Settings) : StoredSettings :=
  { theme := some settings.theme, animations := some settings.animations,
    autoCheck := some settings.autoCheck, sound := some settings.sound }

/-- The spread `{ ...settings, ...saved }`: a key of `saved` wins over `settings`. -/
def overlay (settings : Settings) (saved : StoredSettings) : Settings :=
  { theme := saved.theme.getD settings.theme,
    animations := saved.animations.getD settings.animations,
    autoCheck := saved.autoCheck.getD settings.autoCheck,
    sound := saved.sound.getD settings.sound }

/-- The method `loadSettings()`. -/
def loadSettings (c : Controller) : Controller :=
  match c.stored with
  | none => c
  | some saved =>
    let settings := overlay c.settings saved
    { c with
      settings := settings,
      world := { c.world with
        gameState := { c.world.gameState with autoCheck := settings.autoCheck } } }

/-- The method `saveSettingsToStorage()`. -/
def saveSettingsToStorage (c : Controller) : Controller :=
  { c with stored := some (stringify c.settings) }

/-- The method `applyTheme()`. -/
def applyTheme (c : Controller) : Controller :=
  { c with dataTheme := c.settings.theme }

/-- The method `saveSettings()`; `controls` holds the values of the four form controls. -/
def saveSettings (c : Controller) (controls : Settings) : Controller :=
  let c1 := { c with
    settings := controls,
    world := { c.world with
      gameState := { c.world.gameState with autoCheck := controls.autoCheck } } }
  let c2 := applyTheme (saveSettingsToStorage c1)
  { c2 with
    settingsModalShown := false,
    world := showStatus c2.world StatusText.settingsSaved StatusKind.success }

/-- The controller as the constructor has set it up before it calls `loadSettings()`:
`page` is the document as loaded, `stored` the item of the local storage. -/
def freshController (page : Page) (stored : Option StoredSettings) (dataTheme : String) :
    Controller :=
  { world := { gameState := initialGameState, page := page, sent := [], intervals := [],
               errorLog := [] },
    settings := defaultSettings, stored := stored, dataTheme := dataTheme,
    settingsModalShown := false }

/-- The constructor: `loadSettings()` then `applyTheme()`. -/
def construct (page : Page) (stored : Option StoredSettings) (dataTheme : String) :
    Controller :=
  applyTheme (loadSettings (freshController page stored dataTheme))

/-- A controller in the middle of the sample game whose settings were changed to the dark
theme without animations. -/
def sampleController : Controller :=
  { world := sampleWorld,
    settings := { theme := "dark", animations := false, autoCheck := true, sound := true },
    stored := none, dataTheme := "dark", settingsModalShown := false }

/-! ## Timer display -/

/-- `text.padStart(2, '0')`. -/
def padStart2 (text : String) : String :=
  if text.length < 2 then String.replicate (2 - text.length) '0' ++ text else text

/-- The method `updateTimer()`; `now` is `Date.now()`.  A start time of 0 is falsy, like
`null`.  `Math.floor` of the quotients is integer division by a positive number, and `%`
is the remainder with the sign of the dividend. -/
def updateTimer (w : World) (now : Int) : World :=
  match w.gameState.gameStartTime with
  | none => w
  | some start =>
    if start = 0 then w
    else
      let elapsed := (now - start) / 1000
      let minutes := elapsed / 60
      let seconds := Int.tmod elapsed 60
      { w with page := { w.page with
          timerText := padStart2 (toString minutes) ++ ":" ++ padStart2 (toString seconds) } }

/-- The display the spec gives for `e` elapsed seconds: `floor(e / 60)` left-padded with
zeros to two digits, a colon, `e mod 60` left-padded with zeros to two digits. -/
def timerDisplay (e : Nat) : String :=
  padStart2 (toString (e / 60)) ++ ":" ++ padStart2 (toString (e % 60))

/-- A text of exactly two decimal digits. -/
def isTwoDigits (text : String) : Bool :=
  match text.toList with
  | [a, b] => a.isDigit && b.isDigit
  | _ => false

/-- A text of the shape `MM:SS`: two digits, a colon, two digits. -/
def isMMSS (text : String) : Bool :=
  match text.toList with
  | [a, b, c, d, e] => a.isDigit && b.isDigit && c == ':' && d.isDigit && e.isDigit
  | _ => false

/-! ## The install helper (`static/js/pwa.js`) -/

/-- The event object of `beforeinstallprompt`, kept to call `prompt()` on it later. -/
structure PromptEvent where
  id : Nat
deriving DecidableEq, Repr

/-- The fields of the class `PWA` that the install handlers use, with what is pending in
the host: the 3 second timers set by the `beforeinstallprompt` handler and the calls of
`installApp()` that wait for `userChoice`. -/
structure Pwa where
  deferredPrompt : Option PromptEvent
  /-- The element `installPrompt` carries the class `show`. -/
  promptShown : Bool
  /-- The events on which `prompt()` was called, oldest first. -/
  prompted : List PromptEvent
  /-- Calls of `installApp()` suspended at `await this.deferredPrompt.userChoice`. -/
  awaitingChoice : Nat
  /-- Timers set with `setTimeout(.., 3000)` that have not fired yet. -/
  showTimers : Nat
  /-- Number of success messages `showInstallSuccess()` has appended. -/
  successShown : Nat
deriving DecidableEq, Repr

/-- The state the constructor leaves; `shown` tells whether the markup gives the prompt
element the class `show`. -/
def initialPwa (shown : Bool) : Pwa :=
  { deferredPrompt := none, promptShown := shown, prompted := [], awaitingChoice := 0,
    showTimers := 0, successShown := 0 }

/-- The handler of `beforeinstallprompt`. -/
def onBeforeInstallPrompt (s : Pwa) (e : PromptEvent) : Pwa :=
  { s with deferredPrompt := some e, showTimers := s.showTimers + 1 }

/-- The method `showInstallPrompt()`; `installed` is the value of `isAppInstalled()`. -/
def showInstallPrompt (s : Pwa) (installed : Bool) : Pwa :=
  if s.deferredPrompt.isSome && !installed then { s with promptShown := true } else s

/-- The method `hideInstallPrompt()`. -/
def hideInstallPrompt (s : Pwa) : Pwa :=
  { s with promptShown := false }

/-- First part of `installApp()`, up to `await this.deferredPrompt.userChoice`. -/
def installApp (s : Pwa) : Pwa :=
  match s.deferredPrompt with
  | none => s
  | some e => { s with prompted := s.prompted ++ [e], awaitingChoice := s.awaitingChoice + 1 }

/-- Rest of `installApp()` once `userChoice` has resolved; both outcomes only differ in
the line they log. -/
def installAppResume (s : Pwa) (_accepted : Bool) : Pwa :=
  hideInstallPrompt { s with deferredPrompt := none }

/-- The handler of `appinstalled`. -/
def onAppInstalled (s : Pwa) : Pwa :=
  let s1 := hideInstallPrompt s
  { s1 with deferredPrompt := none, successShown := s1.successShown + 1 }

/-- What can happen to the install helper. -/
inductive PwaEvent where
  | beforeInstallPrompt (e : PromptEvent)
  | showTimerFires (installed : Bool)
  | installClick
  | choiceResolves (accepted : Bool)
  | dismissClick
  | appInstalled
deriving DecidableEq, Repr

/-- One event of the install helper.  A timer can only fire, and a choice only resolve, if
one is pending. -/
def pwaStep (s : Pwa) : PwaEvent → Pwa
  | PwaEvent.beforeInstallPrompt e => onBeforeInstallPrompt s e
  | PwaEvent.showTimerFires installed =>
    if s.showTimers = 0 then s
    else showInstallPrompt { s with showTimers := s.showTimers - 1 } installed
  | PwaEvent.installClick => installApp s
  | PwaEvent.choiceResolves accepted =>
    if s.awaitingChoice = 0 then s
    else installAppResume { s with awaitingChoice := s.awaitingChoice - 1 } accepted
  | PwaEvent.dismissClick => hideInstallPrompt s
  | PwaEvent.appInstalled => onAppInstalled s

/-- A sequence of events, oldest first. -/
def pwaRun (s : Pwa) (events : List PwaEvent) : Pwa :=
  events.foldl pwaStep s

/-! ## Runs of the controller -/

/-- What can happen to the controller: a call of one of its operations, or the arrival of
a backend answer (which resumes the operation waiting for it). -/
inductive Event where
  | startNewGame
  | newGameAnswer (answer : Fetch NewGamePayload) (now : Int) (t : TimerId)
  | selectCell (row col : Nat)
  | moveSelection (direction : Arrow)
  | makeMove (value : Nat)
  | moveAnswer (answer : Fetch MovePayload) (now : Int)
  | undoMove
  | undoAnswer (answer : Fetch HistoryPayload)
  | redoMove
  | redoAnswer (answer : Fetch HistoryPayload)
  | getHint
  | hintAnswer (answer : Fetch HintPayload)
  | hintMoveAnswer (answer : Fetch MovePayload) (now : Int)
  | checkSolution
  | checkAnswer (answer : Fetch CheckPayload)
  | keyPress (key : String)
  | toggleNoteMode
  | resetGameState
  | showWelcomeScreen
deriving DecidableEq, Repr

/-- The world after one event.  An operation that throws leaves the world it had reached;
answers may arrive at any time and in any order. -/
def step (w : World) : Event → World
  | Event.startNewGame => (startNewGame w).world
  | Event.newGameAnswer answer now t => startNewGameResume w answer now t
  | Event.selectCell row col => (selectCell w row col).world
  | Event.moveSelection direction => (moveSelection w direction).world
  | Event.makeMove value => (makeMove w value).world
  | Event.moveAnswer answer now => makeMoveResume w answer now
  | Event.undoMove => (undoMove w).world
  | Event.undoAnswer answer => undoMoveResume w answer
  | Event.redoMove => (redoMove w).world
  | Event.redoAnswer answer => redoMoveResume w answer
  | Event.getHint => (getHint w).world
  | Event.hintAnswer answer => (getHintResume w answer).world
  | Event.hintMoveAnswer answer now => getHintFinish w answer now
  | Event.checkSolution => (checkSolution w).world
  | Event.checkAnswer answer => checkSolutionResume w answer
  | Event.keyPress key => (handleKeyPress w key).world
  | Event.toggleNoteMode => (toggleNoteMode w).world
  | Event.resetGameState => resetGameState w
  | Event.showWelcomeScreen => showWelcomeScreen w

/-- The world after a sequence of events, oldest first. -/
def run (w : World) (events : List Event) : World :=
  events.foldl step w

/-- New-game requests do not overlap: `startNewGame` is only called while no new-game
request is in flight (`pending` false), and a new-game answer only arrives for a request in
flight. -/
def orderly : Bool → List Event → Bool
  | _, [] => true
  | pending, Event.startNewGame :: events => !pending && orderly true events
  | pending, Event.newGameAnswer _ _ _ :: events => pending && orderly false events
  | pending, _ :: events => orderly pending events

/-- The selected cell, if any, is no given: `originalBoard` is 0 at its coordinates. -/
def SelectionFree (s : GameState) : Prop :=
  ∀ cell, s.selectedCell = some cell →
    index2 s.originalBoard cell.row cell.col = Lookup.value 0

/-- The world in which the constructor leaves the controller, on the sample page. -/
def freshWorld : World :=
  { gameState := initialGameState, page := samplePage, sent := [], intervals := [],
    errorLog := [] }

/-- Two overlapping calls of `startNewGame`: the first answer brings the sample puzzle,
the player selects the empty cell at row 0, column 2, then the second answer brings a
puzzle that has the given 4 there. -/
def overlappingNewGames : List Event :=
  [Event.startNewGame, Event.startNewGame,
   Event.newGameAnswer (Fetch.payload sampleNewGameAnswer) 1000 { handle := 1 },
   Event.selectCell 0 2,
   Event.newGameAnswer (Fetch.payload
     { success := true, game_id := some { token := 9 }, puzzle := sampleBoard,
       solution := sampleSolution }) 2000 { handle := 2 }]

/-- An orderly run: a new game, its answer, a selection, a move with its answer. -/
def orderlyGame : List Event :=
  [Event.startNewGame,
   Event.newGameAnswer (Fetch.payload sampleNewGameAnswer) 1000 { handle := 1 },
   Event.selectCell 0 2, Event.makeMove 4,
   Event.moveAnswer (Fetch.payload sampleMoveAnswer) 2000]

/-- The step from `w` to `w1` leaves the selection and `originalBoard` alone. -/
def Frame (w w1 : World) : Prop :=
  w1.gameState.selectedCell = w.gameState.selectedCell ∧
    w1.gameState.originalBoard = w.gameState.originalBoard

/-- The step from `w` to `w1` keeps `originalBoard` and either keeps the selection, drops
it, or selects a cell where `originalBoard` is 0; or else it resets both. -/
def Keeps (w w1 : World) : Prop :=
  (w1.gameState.originalBoard = w.gameState.originalBoard ∧
    (w1.gameState.selectedCell = w.gameState.selectedCell ∨
      w1.gameState.selectedCell = none ∨
      ∃ cell, w1.gameState.selectedCell = some cell ∧
        index2 w.gameState.originalBoard cell.row cell.col = Lookup.value 0)) ∨
    (w1.gameState.selectedCell = none ∧ w1.gameState.originalBoard = [])

/-- The invariant of an orderly run: the selection is no given, and while a new-game
request is in flight nothing is selected and `originalBoard` is empty. -/
def OrderlyInv (pending : Bool) (w : World) : Prop :=
  SelectionFree w.gameState ∧
    (pending = true → w.gameState.selectedCell = none ∧ w.gameState.originalBoard = [])

/-- The method `renderBoard()` runs to its end in `w`: no lookup of its loops throws. -/
def Renders (w : World) : Prop :=
  (renderCells w.gameState allCells []).2 = true

instance (w : World) : Decidable (Renders w) := by
  unfold Renders; infer_instance

/-- An undo answer that arrives late: `undoMove()` issues its request, the player goes
back to the welcome screen, then the successful answer is processed. -/
def lateUndoAnswer : List Event :=
  [Event.undoMove, Event.showWelcomeScreen,
   Event.undoAnswer (Fetch.payload sampleUndoAnswer)]

/-- A winning answer that arrives late: `makeMove(6)` issues its request, the player goes
back to the welcome screen, then the successful answer with `is_complete` is processed. -/
def lateWinningAnswer : List Event :=
  [Event.makeMove 6, Event.showWelcomeScreen,
   Event.moveAnswer (Fetch.payload sampleWinningAnswer) 126000]

/-- A successful winning answer whose board has only eight rows. -/
def shortWinningAnswer : MovePayload :=
  { sampleWinningAnswer with current_board := sampleSolution.take 8 }

/-! ## Lemmas on lookups and scans -/

theorem index2_of_grid9 {α : Type} {g : List (List α)} (hg : Grid9 g) {i j : Nat}
    (hi : i < 9) (hj : j < 9) : ∃ a, index2 g i j = Lookup.value a := by
  obtain ⟨hlen, hrows⟩ := hg
  have hi2 : i < g.length := by omega
  have hrow : (g[i]).length = 9 := hrows _ (List.getElem_mem hi2)
  have hj2 : j < (g[i]).length := by omega
  refine ⟨(g[i])[j], ?_⟩
  simp [index2, List.getElem?_eq_getElem hi2, List.getElem?_eq_getElem hj2]

theorem scan_eq_any (b : Board) (num : Nat) (skip : Nat → Nat → Bool) :
    ∀ ps : List (Nat × Nat), (∀ p ∈ ps, index2 b p.1 p.2 ≠ Lookup.typeError) →
      scan b num skip ps = some (!ps.any (hit b num skip))
  | [], _ => by simp [scan]
  | (i, j) :: ps, h => by
    have ih := scan_eq_any b num skip ps (fun p hp => h p (List.mem_cons_of_mem _ hp))
    have hij := h (i, j) (List.mem_cons_self _ _)
    simp only [scan, List.any_cons, hit]
    cases hs : skip i j with
    | true => simpa [hit] using ih
    | false =>
      cases hl : index2 b i j with
      | typeError => exact absurd hl hij
      | undef => simpa [hit] using ih
      | value a =>
        by_cases ha : a = num
        · simp [ha]
        · simpa [ha, hit] using ih

theorem mem_rowCells {row : Nat} {p : Nat × Nat} :
    p ∈ rowCells row ↔ p.1 = row ∧ p.2 < 9 := by
  obtain ⟨i, j⟩ := p
  simp only [rowCells, List.mem_map, List.mem_range, Prod.mk.injEq]
  constructor
  · rintro ⟨k, hk, rfl, rfl⟩; exact ⟨rfl, hk⟩
  · rintro ⟨rfl, hj⟩; exact ⟨j, hj, rfl, rfl⟩

theorem mem_colCells {col : Nat} {p : Nat × Nat} :
    p ∈ colCells col ↔ p.1 < 9 ∧ p.2 = col := by
  obtain ⟨i, j⟩ := p
  simp only [colCells, List.mem_map, List.mem_range, Prod.mk.injEq]
  constructor
  · rintro ⟨k, hk, rfl, rfl⟩; exact ⟨hk, rfl⟩
  · rintro ⟨hi, rfl⟩; exact ⟨i, hi, rfl, rfl⟩

theorem mem_boxCells {row col : Nat} {p : Nat × Nat} :
    p ∈ boxCells row col ↔ p.1 / 3 = row / 3 ∧ p.2 / 3 = col / 3 := by
  obtain ⟨i, j⟩ := p
  simp only [boxCells, List.mem_flatMap, List.mem_map, List.mem_range', Prod.mk.injEq]
  constructor
  · rintro ⟨a, ⟨k, hk, rfl⟩, b, ⟨l, hl, rfl⟩, rfl, rfl⟩
    constructor <;> omega
  · rintro ⟨hi, hj⟩
    refine ⟨i, ⟨i - row / 3 * 3, ?_, ?_⟩, j, ⟨j - col / 3 * 3, ?_, ?_⟩, rfl, rfl⟩ <;> omega

/-! ## Lemmas on the helper methods -/

theorem stopTimer_gameState (w : World) :
    (stopTimer w).gameState = { w.gameState with timerInterval := none } := by
  obtain ⟨s, pg, sn, iv, lg⟩ := w
  cases h : s.timerInterval with
  | none => cases s; simp_all [stopTimer]
  | some t => simp [stopTimer, h]

theorem stopTimer_page (w : World) : (stopTimer w).page = w.page := by
  unfold stopTimer; split <;> rfl

theorem stopTimer_sent (w : World) : (stopTimer w).sent = w.sent := by
  unfold stopTimer; split <;> rfl

theorem stopTimer_errorLog (w : World) : (stopTimer w).errorLog = w.errorLog := by
  unfold stopTimer; split <;> rfl

theorem renderBoard_gameState (w : World) :
    (renderBoard w).world.gameState = w.gameState := by
  unfold renderBoard; simp only []; split <;> rfl

theorem renderBoard_sent (w : World) : (renderBoard w).world.sent = w.sent := by
  unfold renderBoard; simp only []; split <;> rfl

theorem renderCell_isSome (s : GameState) (hb : Grid9 s.board) (ho : Grid9 s.originalBoard)
    (hn : Grid9 s.notes) {i j : Nat} (hi : i < 9) (hj : j < 9) :
    (renderCell s i j).isSome = true := by
  obtain ⟨v, hv⟩ := index2_of_grid9 hb hi hj
  obtain ⟨o, ho2⟩ := index2_of_grid9 ho hi hj
  obtain ⟨ns, hn2⟩ := index2_of_grid9 hn hi hj
  simp only [renderCell, hv, ho2, hn2]
  split <;> simp

theorem renderCells_complete (s : GameState) :
    ∀ (ps : List (Nat × Nat)) (acc : List CellView),
      (∀ p ∈ ps, (renderCell s p.1 p.2).isSome = true) → (renderCells s ps acc).2 = true
  | [], _, _ => rfl
  | (i, j) :: ps, acc, h => by
    have hij := h (i, j) (List.mem_cons_self _ _)
    obtain ⟨cell, hcell⟩ := Option.isSome_iff_exists.1 hij
    simp only [renderCells, hcell]
    exact renderCells_complete s ps _ (fun p hp => h p (List.mem_cons_of_mem _ hp))

theorem mem_allCells {p : Nat × Nat} : p ∈ allCells ↔ p.1 < 9 ∧ p.2 < 9 := by
  obtain ⟨i, j⟩ := p
  simp only [allCells, List.mem_flatMap, List.mem_map, List.mem_range, Prod.mk.injEq]
  constructor
  · rintro ⟨a, ha, b, hb, rfl, rfl⟩; exact ⟨ha, hb⟩
  · rintro ⟨hi, hj⟩; exact ⟨i, hi, j, hj, rfl, rfl⟩

/-- On 9x9 grids `renderBoard` runs to its end. -/
theorem renderBoard_done (w : World) (hb : Grid9 w.gameState.board)
    (ho : Grid9 w.gameState.originalBoard) (hn : Grid9 w.gameState.notes) :
    renderBoard w = Outcome.done ()
      { w with page := { w.page with cells := (renderCells w.gameState allCells []).1 } } := by
  have h := renderCells_complete w.gameState allCells [] (fun p hp =>
    renderCell_isSome w.gameState hb ho hn (mem_allCells.1 hp).1 (mem_allCells.1 hp).2)
  simp [renderBoard, h]

theorem saveGameStats_gameState (w : World) (now : Int) :
    (saveGameStats w now).gameState = w.gameState := by
  unfold saveGameStats; split <;> rfl

theorem saveGameStats_page (w : World) (now : Int) :
    (saveGameStats w now).page = w.page := by
  unfold saveGameStats; split <;> rfl

theorem handleGameComplete_gameState (w : World) (now : Int) :
    (handleGameComplete w now).gameState =
      { w.gameState with isGameComplete := true, timerInterval := none } := by
  simp [handleGameComplete, saveGameStats_gameState, showWinModal, stopTimer_gameState]

theorem handleGameComplete_page_buttons (w : World) (now : Int) :
    (handleGameComplete w now).page.undoDisabled = w.page.undoDisabled ∧
      (handleGameComplete w now).page.redoDisabled = w.page.redoDisabled := by
  simp [handleGameComplete, saveGameStats_page, showWinModal, stopTimer_page]

theorem handleGameComplete_sent (w : World) (now : Int) :
    (handleGameComplete w now).sent =
      match w.gameState.gameId with
      | none => w.sent
      | some g => w.sent ++ [Request.gameStats (some g) (elapsedSeconds w.gameState now) true] := by
  unfold handleGameComplete saveGameStats
  simp only [showWinModal, stopTimer_gameState, stopTimer_sent]
  cases w.gameState.gameId <;> simp [elapsedSeconds, startMillis, stopTimer_sent]

theorem handleGameComplete_intervals (w : World) (now : Int) :
    (handleGameComplete w now).intervals =
      match w.gameState.timerInterval with
      | none => w.intervals
      | some t => w.intervals.filter (fun u => u != t) := by
  unfold handleGameComplete saveGameStats
  simp only [showWinModal, stopTimer_gameState]
  cases hg : w.gameState.gameId <;> cases ht : w.gameState.timerInterval <;>
    simp [stopTimer, ht]

theorem renderBoard_intervals (w : World) :
    (renderBoard w).world.intervals = w.intervals := by
  unfold renderBoard; simp only []; split <;> rfl

/-- A successful move answer with 9x9 grids, processed in a world whose `originalBoard`
is 9x9: the `try` block runs to its end. -/
theorem makeMoveResume_of_grids (w : World) (data : MovePayload) (now : Int)
    (hs : data.success = true) (ho : Grid9 w.gameState.originalBoard)
    (hb : Grid9 data.current_board) (hn : Grid9 data.notes) :
    makeMoveResume w (Fetch.payload data) now =
      if data.is_complete then
        handleGameComplete
          (updateUndoRedoButtons (updateProgress (renderBoard (moveAdopted w data)).world)) now
      else updateUndoRedoButtons (updateProgress (renderBoard (moveAdopted w data)).world) := by
  have hd := renderBoard_done (moveAdopted w data) hb ho hn
  simp only [moveAdopted] at hd
  simp only [makeMoveResume, hs, if_true, moveAdopted]
  rw [hd]
  rfl

/-- A successful undo or redo answer with 9x9 grids, processed in a world whose
`originalBoard` is 9x9: the `try` block runs to its end. -/
theorem adoptHistory_of_grids (w : World) (data : HistoryPayload) (message : ErrorText)
    (hs : data.success = true) (ho : Grid9 w.gameState.originalBoard)
    (hb : Grid9 data.current_board) (hn : Grid9 data.notes) :
    adoptHistory w (Fetch.payload data) message =
      updateUndoRedoButtons (updateProgress (renderBoard (historyAdopted w data)).world) := by
  have hd := renderBoard_done (historyAdopted w data) hb ho hn
  simp only [historyAdopted] at hd
  simp only [adoptHistory, hs, if_true, historyAdopted]
  rw [hd]
  rfl

theorem renderBoard_of_renders (w : World) (h : Renders w) :
    renderBoard w = Outcome.done ()
      { w with page := { w.page with cells := (renderCells w.gameState allCells []).1 } } := by
  unfold Renders at h
  simp [renderBoard, h]

theorem renders_of_grids (w : World) (hb : Grid9 w.gameState.board)
    (ho : Grid9 w.gameState.originalBoard) (hn : Grid9 w.gameState.notes) : Renders w :=
  renderCells_complete w.gameState allCells [] (fun _ hp =>
    renderCell_isSome w.gameState hb ho hn (mem_allCells.1 hp).1 (mem_allCells.1 hp).2)

/-- A successful move answer on which `renderBoard` runs to its end: the `try` block runs
to its end. -/
theorem makeMoveResume_of_renders (w : World) (data : MovePayload) (now : Int)
    (hs : data.success = true) (hr : Renders (moveAdopted w data)) :
    makeMoveResume w (Fetch.payload data) now =
      if data.is_complete then
        handleGameComplete
          (updateUndoRedoButtons (updateProgress (renderBoard (moveAdopted w data)).world)) now
      else updateUndoRedoButtons (updateProgress (renderBoard (moveAdopted w data)).world) := by
  have hd := renderBoard_of_renders (moveAdopted w data) hr
  simp only [moveAdopted] at hd
  simp only [makeMoveResume, hs, if_true, moveAdopted]
  rw [hd]
  rfl

/-- A successful undo or redo answer on which `renderBoard` runs to its end: the `try`
block runs to its end. -/
theorem adoptHistory_of_renders (w : World) (data : HistoryPayload) (message : ErrorText)
    (hs : data.success = true) (hr : Renders (historyAdopted w data)) :
    adoptHistory w (Fetch.payload data) message =
      updateUndoRedoButtons (updateProgress (renderBoard (historyAdopted w data)).world) := by
  have hd := renderBoard_of_renders (historyAdopted w data) hr
  simp only [historyAdopted] at hd
  simp only [adoptHistory, hs, if_true, historyAdopted]
  rw [hd]
  rfl

theorem buttonsFollowHistory_update (w : World) :
    ButtonsFollowHistory (updateUndoRedoButtons w) := by
  simp [ButtonsFollowHistory, updateUndoRedoButtons]

/-! ## The guards of `makeMove` -/

theorem makeMove_of_no_selection (w : World) (value : Nat)
    (hsel : w.gameState.selectedCell = none) : makeMove w value = Async.settled w := by
  simp [makeMove, hsel]

theorem makeMove_of_complete (w : World) (value : Nat)
    (hc : w.gameState.isGameComplete = true) : makeMove w value = Async.settled w := by
  unfold makeMove; split <;> simp [hc]

theorem makeMove_of_missing_row (w : World) (value : Nat) {cell : CellRef}
    (hsel : w.gameState.selectedCell = some cell) (hc : w.gameState.isGameComplete = false)
    (ho : index2 w.gameState.originalBoard cell.row cell.col = Lookup.typeError) :
    makeMove w value = Async.rejected w := by
  simp [makeMove, hsel, hc, ho]

theorem makeMove_of_given (w : World) (value : Nat) {cell : CellRef}
    (hsel : w.gameState.selectedCell = some cell) (hc : w.gameState.isGameComplete = false)
    (ho : index2 w.gameState.originalBoard cell.row cell.col ≠ Lookup.typeError)
    (hz : (index2 w.gameState.originalBoard cell.row cell.col).isNonZero = true) :
    makeMove w value = Async.settled w := by
  cases ho2 : index2 w.gameState.originalBoard cell.row cell.col with
  | typeError => exact absurd ho2 ho
  | undef => simp [makeMove, hsel, hc, ho2, Lookup.isNonZero]
  | value a =>
    rw [ho2] at hz
    simp [makeMove, hsel, hc, ho2, hz]

theorem makeMove_of_free (w : World) (value : Nat) {cell : CellRef}
    (hsel : w.gameState.selectedCell = some cell) (hc : w.gameState.isGameComplete = false)
    (ho : index2 w.gameState.originalBoard cell.row cell.col = Lookup.value 0) :
    makeMove w value =
      Async.awaiting { w with sent := w.sent ++ [moveRequest w cell value] } := by
  simp [makeMove, hsel, hc, ho, Lookup.isNonZero, moveRequest]

/-- Whatever `makeMove` does before its `await`, it only appends to the request log. -/
theorem makeMove_world_gameState (w : World) (value : Nat) :
    (makeMove w value).world.gameState = w.gameState ∧
      (makeMove w value).world.page = w.page := by
  unfold makeMove
  split
  · exact ⟨rfl, rfl⟩
  · split
    · exact ⟨rfl, rfl⟩
    · split
      · exact ⟨rfl, rfl⟩
      · split <;> exact ⟨rfl, rfl⟩

theorem makeMove_awaiting_gameState {w w1 : World} {value : Nat}
    (h : makeMove w value = Async.awaiting w1) : w1.gameState = w.gameState := by
  have := (makeMove_world_gameState w value).1
  rw [h] at this; exact this

/-- What is known when `makeMove` has issued its request. -/
theorem makeMove_awaiting_inv {w w1 : World} {value : Nat}
    (h : makeMove w value = Async.awaiting w1) :
    ∃ cell, w.gameState.selectedCell = some cell ∧ w.gameState.isGameComplete = false ∧
      index2 w.gameState.originalBoard cell.row cell.col = Lookup.value 0 ∧
      w1 = { w with sent := w.sent ++ [moveRequest w cell value] } := by
  cases hsel : w.gameState.selectedCell with
  | none => rw [makeMove_of_no_selection w value hsel] at h; cases h
  | some cell =>
    cases hc : w.gameState.isGameComplete with
    | true => rw [makeMove_of_complete w value hc] at h; cases h
    | false =>
      cases ho : index2 w.gameState.originalBoard cell.row cell.col with
      | typeError => rw [makeMove_of_missing_row w value hsel hc ho] at h; cases h
      | undef =>
        rw [makeMove_of_given w value hsel hc (by simp [ho])
          (by simp [ho, Lookup.isNonZero])] at h
        cases h
      | value a =>
        by_cases ha : a = 0
        · subst ha
          rw [makeMove_of_free w value hsel hc ho] at h
          cases h
          exact ⟨cell, rfl, rfl, ho, rfl⟩
        · rw [makeMove_of_given w value hsel hc (by simp [ho])
            (by simp [ho, Lookup.isNonZero, ha])] at h
          cases h

/-! ## Lemmas on error highlighting -/

theorem conflictB_iff (b : Board) {r c : Nat} (v : Nat) (hr : r < 9) (hc : c < 9) :
    conflictB b r c v = true ↔ Conflict b r c v := by
  simp only [conflictB, Bool.or_eq_true, List.any_eq_true, hit, Bool.and_eq_true,
    Bool.not_eq_true', decide_eq_true_eq, beq_eq_false_iff_ne, mem_rowCells, mem_colCells,
    mem_boxCells, Bool.and_eq_false_imp, beq_iff_eq, ne_eq, Conflict, or_assoc]
  constructor
  · rintro (⟨⟨i, j⟩, ⟨h1, h2⟩, hne, hv⟩ | ⟨⟨i, j⟩, ⟨h1, h2⟩, hne, hv⟩ | ⟨⟨i, j⟩, ⟨h1, h2⟩, hne, hv⟩)
    · exact ⟨i, j, by simp only at h1; omega, h2, fun h => hne (Prod.mk.inj h).2,
        Or.inl h1, hv⟩
    · exact ⟨i, j, h1, by simp only at h2; omega, fun h => hne (Prod.mk.inj h).1,
        Or.inr (Or.inl h2), hv⟩
    · exact ⟨i, j, by simp only at h1; omega, by simp only at h2; omega,
        fun h => hne (Prod.mk.inj h).1 (Prod.mk.inj h).2, Or.inr (Or.inr ⟨h1, h2⟩), hv⟩
  · rintro ⟨i, j, hi, hj, hne, hreg, hv⟩
    have hne2 : ¬ (i = r ∧ j = c) := fun h => hne (by rw [h.1, h.2])
    rcases hreg with h | h | h
    · exact Or.inl ⟨(i, j), ⟨h, hj⟩, fun hjc => hne2 ⟨h, hjc⟩, hv⟩
    · exact Or.inr (Or.inl ⟨(i, j), ⟨hi, h⟩, fun hir => hne2 ⟨hir, h⟩, hv⟩)
    · exact Or.inr (Or.inr ⟨(i, j), h, fun hir hjc => hne2 ⟨hir, hjc⟩, hv⟩)

/-- On a 9x9 board `isValidMove` returns the negation of `conflictB` and an unchanged
world. -/
theorem isValidMove_eq (w : World) (r c v : Nat) (hb : Grid9 w.gameState.board)
    (hr : r < 9) (hc : c < 9) :
    isValidMove w r c v = Outcome.done (!conflictB w.gameState.board r c v) w := by
  have hrow : ∀ p ∈ rowCells r, index2 w.gameState.board p.1 p.2 ≠ Lookup.typeError := by
    intro p hp
    obtain ⟨h1, h2⟩ := mem_rowCells.1 hp
    obtain ⟨a, ha⟩ := index2_of_grid9 hb (by omega : p.1 < 9) h2
    simp [ha]
  have hcol : ∀ p ∈ colCells c, index2 w.gameState.board p.1 p.2 ≠ Lookup.typeError := by
    intro p hp
    obtain ⟨h1, h2⟩ := mem_colCells.1 hp
    obtain ⟨a, ha⟩ := index2_of_grid9 hb h1 (by omega : p.2 < 9)
    simp [ha]
  have hbox : ∀ p ∈ boxCells r c, index2 w.gameState.board p.1 p.2 ≠ Lookup.typeError := by
    intro p hp
    obtain ⟨h1, h2⟩ := mem_boxCells.1 hp
    obtain ⟨a, ha⟩ := index2_of_grid9 hb (by omega : p.1 < 9) (by omega : p.2 < 9)
    simp [ha]
  simp only [isValidMove, conflictB, scan_eq_any _ _ _ _ hrow, scan_eq_any _ _ _ _ hcol,
    scan_eq_any _ _ _ _ hbox]
  cases h1 : (rowCells r).any (hit w.gameState.board v (fun _ j => j == c)) <;>
  cases h2 : (colCells c).any (hit w.gameState.board v (fun i _ => i == r)) <;>
  cases h3 : (boxCells r c).any (hit w.gameState.board v (fun i j => i == r && j == c)) <;>
  simp

theorem flagged_iff (b : Board) {i j : Nat} (hi : i < 9) (hj : j < 9) :
    flagged b i j = true ↔ InConflict b i j := by
  unfold flagged InConflict
  cases h : index2 b i j with
  | typeError => simp
  | undef => simp
  | value a =>
    simp only [Bool.and_eq_true, bne_iff_ne, ne_eq, conflictB_iff b a hi hj,
      Lookup.value.injEq, exists_eq_left']

/-- With pairwise different coordinates, marking the first button at `(i, j)` marks every
button at `(i, j)`. -/
theorem markError_eq_map :
    ∀ (cells : List CellView) (i j : Nat),
      (cells.map (fun cell => (cell.row, cell.col))).Nodup →
      markError cells i j =
        cells.map (fun cell =>
          if cell.row = i ∧ cell.col = j then { cell with error := true } else cell)
  | [], _, _, _ => rfl
  | cell :: cells, i, j, h => by
    simp only [List.map_cons, List.nodup_cons, List.mem_map, not_exists, not_and] at h
    obtain ⟨hnot, hnd⟩ := h
    by_cases hp : cell.row = i ∧ cell.col = j
    · have hrest : cells.map (fun cell =>
          if cell.row = i ∧ cell.col = j then { cell with error := true } else cell) = cells := by
        conv_rhs => rw [← List.map_id cells]
        apply List.map_congr_left
        intro c hc
        have hne : ¬ (c.row = i ∧ c.col = j) := by
          intro hcp
          exact hnot c hc (by rw [hcp.1, hcp.2, hp.1, hp.2])
        simp [hne]
      simp [markError, hp, hrest]
    · have ih := markError_eq_map cells i j hnd
      have hp2 : (cell.row == i && cell.col == j) = false := by
        cases h1 : (cell.row == i) <;> cases h2 : (cell.col == j) <;> simp_all
      simp only [markError, hp2, List.map_cons, if_neg hp, ih]
      simp

theorem markAll_eq_map (b : Board) :
    ∀ (ps : List (Nat × Nat)) (cells : List CellView),
      (cells.map (fun cell => (cell.row, cell.col))).Nodup →
      markAll b ps cells =
        cells.map (fun cell => { cell with error :=
          cell.error || (decide ((cell.row, cell.col) ∈ ps) && flagged b cell.row cell.col) })
  | [], cells, _ => by
    simp only [markAll, List.foldl_nil, List.not_mem_nil, decide_False, Bool.false_and,
      Bool.or_false]
    conv_lhs => rw [← List.map_id cells]
    rfl
  | (i, j) :: ps, cells, h => by
    have hstep : markAll b ((i, j) :: ps) cells =
        markAll b ps (if flagged b i j then markError cells i j else cells) := rfl
    rw [hstep]
    by_cases hf : flagged b i j = true
    · simp only [hf, if_true]
      rw [markError_eq_map cells i j h]
      have hnd : ((cells.map (fun cell =>
          if cell.row = i ∧ cell.col = j then { cell with error := true } else cell)).map
            (fun cell => (cell.row, cell.col))).Nodup := by
        have : (cells.map (fun cell =>
          if cell.row = i ∧ cell.col = j then { cell with error := true } else cell)).map
            (fun cell => (cell.row, cell.col)) = cells.map (fun cell => (cell.row, cell.col)) := by
          rw [List.map_map]
          apply List.map_congr_left
          intro c _
          by_cases hc : c.row = i ∧ c.col = j <;> simp [hc]
        rw [this]; exact h
      rw [markAll_eq_map b ps _ hnd, List.map_map]
      apply List.map_congr_left
      intro c _
      by_cases hc : c.row = i ∧ c.col = j
      · obtain ⟨h1, h2⟩ := hc
        subst h1; subst h2
        simp [hf]
      · have hne : ¬ ((c.row, c.col) = (i, j)) := fun h => hc (Prod.mk.inj h)
        simp [hc, List.mem_cons, hne]
    · have hf2 : flagged b i j = false := by simpa using hf
      simp only [hf2, Bool.false_eq_true, if_false]
      rw [markAll_eq_map b ps cells h]
      apply List.map_congr_left
      intro c _
      by_cases hc : (c.row, c.col) = (i, j)
      · obtain ⟨h1, h2⟩ := Prod.mk.inj hc
        subst h1; subst h2
        simp [hf2]
      · simp [List.mem_cons, hc]

theorem highlightFrom_eq :
    ∀ (ps : List (Nat × Nat)) (w : World), Grid9 w.gameState.board →
      (∀ p ∈ ps, p.1 < 9 ∧ p.2 < 9) →
      highlightFrom w ps = Outcome.done ()
        { w with page := { w.page with cells := markAll w.gameState.board ps w.page.cells } }
  | [], w, _, _ => rfl
  | (i, j) :: ps, w, hb, hps => by
    obtain ⟨hi, hj⟩ := hps (i, j) (List.mem_cons_self _ _)
    have hrest : ∀ p ∈ ps, p.1 < 9 ∧ p.2 < 9 := fun p hp => hps p (List.mem_cons_of_mem _ hp)
    obtain ⟨a, ha⟩ := index2_of_grid9 hb hi hj
    have hstep : markAll w.gameState.board ((i, j) :: ps) w.page.cells =
        markAll w.gameState.board ps
          (if flagged w.gameState.board i j then markError w.page.cells i j
            else w.page.cells) := rfl
    rw [hstep]
    simp only [highlightFrom, ha]
    by_cases h0 : a = 0
    · subst h0
      have hf : flagged w.gameState.board i j = false := by simp [flagged, ha]
      simp only [bne_self_eq_false, Bool.false_eq_true, if_false, hf]
      exact highlightFrom_eq ps w hb hrest
    · have hne : (a != 0) = true := by simpa using h0
      simp only [hne, if_true, isValidMove_eq w i j a hb hi hj]
      cases hcf : conflictB w.gameState.board i j a with
      | false =>
        have hf : flagged w.gameState.board i j = false := by simp [flagged, ha, hcf]
        simp only [Bool.not_false, hf, Bool.false_eq_true, if_false]
        exact highlightFrom_eq ps w hb hrest
      | true =>
        have hf : flagged w.gameState.board i j = true := by simp [flagged, ha, hcf, h0]
        simp only [Bool.not_true, hf, if_true]
        exact highlightFrom_eq ps _ hb hrest

theorem allCells_nodup : allCells.Nodup := by decide

/-- On a 9x9 board shown in full, `highlightErrors` returns and the buttons carrying the
class `error` are those of the flagged cells. -/
theorem highlightErrors_eq (w : World) (hb : Grid9 w.gameState.board)
    (hs : ShowsGrid w.page.cells) :
    highlightErrors w = Outcome.done ()
      { w with page := { w.page with
          cells := (w.page.cells.map (fun cell =>
            { cell with error := flagged w.gameState.board cell.row cell.col })) } } := by
  have hnd : ((clearErrors w).page.cells.map (fun cell => (cell.row, cell.col))).Nodup := by
    have : (clearErrors w).page.cells.map (fun cell => (cell.row, cell.col)) = allCells := by
      simp only [clearErrors, List.map_map]
      exact hs
    rw [this]; exact allCells_nodup
  rw [highlightErrors, highlightFrom_eq allCells (clearErrors w) hb
    (fun p hp => mem_allCells.1 hp), markAll_eq_map _ _ _ hnd]
  simp only [clearErrors, List.map_map]
  congr 2
  congr 1
  apply List.map_congr_left
  intro c hc
  have hmem : (c.row, c.col) ∈ allCells := by
    rw [← hs]; exact List.mem_map_of_mem (fun cell => (cell.row, cell.col)) hc
  simp [hmem]

theorem mem_of_showsGrid {cells : List CellView} (hs : ShowsGrid cells) {i j : Nat}
    (hi : i < 9) (hj : j < 9) : ∃ cell ∈ cells, cell.row = i ∧ cell.col = j := by
  have hmem : (i, j) ∈ cells.map (fun cell => (cell.row, cell.col)) := by
    rw [hs]; exact mem_allCells.2 ⟨hi, hj⟩
  obtain ⟨cell, hcell, hpos⟩ := List.mem_map.1 hmem
  exact ⟨cell, hcell, (Prod.mk.inj hpos).1, (Prod.mk.inj hpos).2⟩

theorem pos_of_showsGrid {cells : List CellView} (hs : ShowsGrid cells) {cell : CellView}
    (hc : cell ∈ cells) : cell.row < 9 ∧ cell.col < 9 := by
  have hmem : (cell.row, cell.col) ∈ allCells := by
    rw [← hs]; exact List.mem_map_of_mem (fun cell => (cell.row, cell.col)) hc
  exact mem_allCells.1 hmem

/-- The cells of the board after `highlightErrors`, on a 9x9 board shown in full. -/
theorem mem_highlighted {w : World} {cell : CellView}
    (h : cell ∈ w.page.cells.map (fun cell =>
      { cell with error := flagged w.gameState.board cell.row cell.col })) :
    ∃ c0 ∈ w.page.cells, cell.row = c0.row ∧ cell.col = c0.col ∧
      cell.error = flagged w.gameState.board cell.row cell.col := by
  obtain ⟨c0, hc0, rfl⟩ := List.mem_map.1 h
  exact ⟨c0, hc0, rfl, rfl, rfl⟩

theorem showsGrid_highlighted {w : World} (hs : ShowsGrid w.page.cells) :
    ShowsGrid (w.page.cells.map (fun cell =>
      { cell with error := flagged w.gameState.board cell.row cell.col })) := by
  unfold ShowsGrid at hs ⊢
  rw [List.map_map]
  exact hs

/-! ## Lemmas on a new game -/

theorem renderCells_eq_map (s : GameState) (f : Nat × Nat → CellView) :
    ∀ (ps : List (Nat × Nat)) (acc : List CellView),
      (∀ p ∈ ps, renderCell s p.1 p.2 = some (f p)) →
      renderCells s ps acc = (acc ++ ps.map f, true)
  | [], acc, _ => by simp [renderCells]
  | (i, j) :: ps, acc, h => by
    have hij := h (i, j) (List.mem_cons_self _ _)
    simp only at hij
    simp only [renderCells, hij, List.map_cons]
    rw [renderCells_eq_map s f ps _ (fun p hp => h p (List.mem_cons_of_mem _ hp))]
    simp

theorem emptyNotes_grid : Grid9 emptyNotes := by decide

theorem index2_emptyNotes {i j : Nat} (hi : i < 9) (hj : j < 9) :
    index2 emptyNotes i j = Lookup.value [] := by
  have h : ∀ i < 9, ∀ j < 9, index2 emptyNotes i j = Lookup.value [] := by decide
  exact h i hi j hj

theorem renderCell_newGame (w : World) (data : NewGamePayload) (hp : Grid9 data.puzzle)
    {i j : Nat} (hi : i < 9) (hj : j < 9) :
    renderCell (newGameAdopted w data).gameState i j = some (puzzleCell data.puzzle (i, j)) := by
  obtain ⟨v, hv⟩ := index2_of_grid9 hp hi hj
  have hmap : data.puzzle.map (fun row => row) = data.puzzle := List.map_id' _
  simp only [renderCell, newGameAdopted, hmap, hv, puzzleCell, index2_emptyNotes hi hj]
  by_cases h0 : v = 0
  · simp [h0, Lookup.isNonZero]
  · simp [h0, Lookup.isNonZero, Lookup.toOption]

theorem renderBoard_newGame (w : World) (data : NewGamePayload) (hp : Grid9 data.puzzle) :
    renderBoard (newGameAdopted w data) = Outcome.done ()
      { newGameAdopted w data with page := { w.page with
          cells := allCells.map (puzzleCell data.puzzle) } } := by
  have h := renderCells_eq_map (newGameAdopted w data).gameState (puzzleCell data.puzzle)
    allCells [] (fun p hp2 =>
      renderCell_newGame w data hp (mem_allCells.1 hp2).1 (mem_allCells.1 hp2).2)
  simp only [renderBoard, h, List.nil_append, if_true]
  rfl

theorem startNewGameResume_of_grid (w : World) (data : NewGamePayload) (now : Int)
    (t : TimerId) (hs : data.success = true) (hp : Grid9 data.puzzle) :
    startNewGameResume w (Fetch.payload data) now t =
      showLoading (showStatus (updateUndoRedoButtons (updateProgress (startTimer
        { newGameAdopted w data with page := { w.page with
            cells := allCells.map (puzzleCell data.puzzle) } } now t)))
        StatusText.newGameStarted StatusKind.success) false := by
  have hd := renderBoard_newGame w data hp
  simp only [newGameAdopted] at hd
  simp only [startNewGameResume, hs, if_true, newGameAdopted]
  rw [hd]

/-! ## Lemmas on hints -/

/-- What is known when `getHint` has issued its request. -/
theorem getHint_awaiting_inv {w w1 : World} (h : getHint w = Async.awaiting w1) :
    ∃ cell, w.gameState.selectedCell = some cell ∧ w.gameState.isGameComplete = false ∧
      w.gameState.hintsUsed < w.gameState.maxHints ∧
      index2 w.gameState.originalBoard cell.row cell.col = Lookup.value 0 ∧
      w1 = { w with sent := w.sent ++ [hintRequest w cell] } := by
  unfold getHint at h
  cases hsel : w.gameState.selectedCell with
  | none => simp [hsel] at h
  | some cell =>
    cases hc : w.gameState.isGameComplete with
    | true => simp [hsel, hc] at h
    | false =>
      by_cases hq : w.gameState.hintsUsed ≥ w.gameState.maxHints
      · simp [hsel, hc, hq] at h
      · cases ho : index2 w.gameState.originalBoard cell.row cell.col with
        | typeError => simp [hsel, hc, hq, ho] at h
        | undef => simp [hsel, hc, hq, ho, Lookup.isNonZero] at h
        | value a =>
          by_cases ha : a = 0
          · subst ha
            simp [hsel, hc, hq, ho, Lookup.isNonZero] at h
            exact ⟨cell, rfl, rfl, by omega, ho, by rw [← h]; rfl⟩
          · simp [hsel, hc, hq, ho, Lookup.isNonZero, ha] at h

/-- After a successful hint answer with a non-zero digit, in a world where the guards of
`makeMove` pass, `getHint` has counted the hint and the nested `makeMove` has issued its
request. -/
theorem getHintResume_of_hint (w : World) (data : HintPayload) (h : Nat) (cell : CellRef)
    (hs : data.success = true) (hh : data.hint = some h) (h0 : h ≠ 0)
    (hsel : w.gameState.selectedCell = some cell)
    (hc : w.gameState.isGameComplete = false)
    (ho : index2 w.gameState.originalBoard cell.row cell.col = Lookup.value 0) :
    getHintResume w (Fetch.payload data) =
      Async.awaiting { hintCounted w data with
        sent := w.sent ++ [moveRequest w cell h] } := by
  have hmove : makeMove (hintCounted w data) h =
      Async.awaiting { hintCounted w data with
        sent := (hintCounted w data).sent ++ [moveRequest (hintCounted w data) cell h] } :=
    makeMove_of_free (hintCounted w data) h hsel hc ho
  have hne : (h != 0) = true := by simpa using h0
  simp only [getHintResume, hh, hs, hne, Bool.and_self, if_true]
  have hmove2 := hmove
  simp only [hintCounted] at hmove2
  rw [hmove2]
  rfl

theorem renderBoard_page_hintCount (w : World) :
    (renderBoard w).world.page.hintCount = w.page.hintCount := by
  unfold renderBoard; simp only []; split <;> rfl

theorem handleGameComplete_page_hintCount (w : World) (now : Int) :
    (handleGameComplete w now).page.hintCount = w.page.hintCount := by
  simp [handleGameComplete, saveGameStats_page, showWinModal, stopTimer_page]

/-- Processing the answer to a move never touches the hint counters. -/
theorem makeMoveResume_hints (w : World) (answer : Fetch MovePayload) (now : Int) :
    (makeMoveResume w answer now).gameState.hintsUsed = w.gameState.hintsUsed ∧
      (makeMoveResume w answer now).page.hintCount = w.page.hintCount := by
  cases answer with
  | rejected => exact ⟨rfl, rfl⟩
  | unreadable => exact ⟨rfl, rfl⟩
  | payload data =>
    cases hs : data.success with
    | false => simp [makeMoveResume, hs, catchError, showError]
    | true =>
      simp only [makeMoveResume, hs, if_true]
      generalize hw : ({ w with gameState := { w.gameState with
        board := data.current_board, notes := data.notes,
        movesHistory := data.moves_history.getD w.gameState.movesHistory,
        redoStack := [] } } : World) = wa
      have h1 : (renderBoard wa).world.gameState = wa.gameState := renderBoard_gameState wa
      have h2 : (renderBoard wa).world.page.hintCount = wa.page.hintCount :=
        renderBoard_page_hintCount wa
      have h3 : wa.gameState.hintsUsed = w.gameState.hintsUsed := by rw [← hw]
      have h4 : wa.page.hintCount = w.page.hintCount := by rw [← hw]
      cases hr : renderBoard wa with
      | threw w2 =>
        rw [hr] at h1 h2
        simp only [Outcome.world] at h1 h2
        simp [catchError, showError, h1, h2, h3, h4]
      | done u w2 =>
        rw [hr] at h1 h2
        simp only [Outcome.world] at h1 h2
        cases data.is_complete <;>
          simp [handleGameComplete_gameState, handleGameComplete_page_hintCount,
            updateProgress, updateUndoRedoButtons, h1, h2, h3, h4]

theorem getHintAfterMove_hints (w : World) :
    (getHintAfterMove w).gameState.hintsUsed = w.gameState.hintsUsed ∧
      (getHintAfterMove w).page.hintCount = w.page.hintCount := by
  unfold getHintAfterMove
  split <;> exact ⟨rfl, rfl⟩

/-! ## Lemmas on failed requests -/

theorem showsError_catchError {w w1 : World} (message : ErrorText)
    (hgs : w1.gameState = w.gameState) (hpage : w1.page = w.page)
    (hiv : w1.intervals = w.intervals) (hlog : w1.errorLog = w.errorLog) :
    ShowsError w (catchError w1 message) message := by
  refine ⟨hgs, hiv, ?_, ?_⟩
  · simp [catchError, showError, hpage]
  · simp [catchError, showError, hlog]

theorem showsStatus_showStatus {w w1 : World} (text : StatusText) (kind : StatusKind)
    (hgs : w1.gameState = w.gameState) (hpage : w1.page = w.page)
    (hiv : w1.intervals = w.intervals) (hlog : w1.errorLog = w.errorLog) :
    ShowsStatus w (showStatus w1 text kind) text kind := by
  refine ⟨hgs, hiv, ?_, hlog⟩
  simp [showStatus, hpage]

theorem makeMoveResume_failed (w : World) (answer : Fetch MovePayload) (now : Int)
    (h : Failed MovePayload.success answer) :
    makeMoveResume w answer now = catchError w ErrorText.makeMove := by
  cases answer with
  | rejected => rfl
  | unreadable => rfl
  | payload data => simp [makeMoveResume, h data rfl]

theorem adoptHistory_failed (w : World) (answer : Fetch HistoryPayload) (message : ErrorText)
    (h : Failed HistoryPayload.success answer) :
    adoptHistory w answer message = catchError w message := by
  cases answer with
  | rejected => rfl
  | unreadable => rfl
  | payload data => simp [adoptHistory, h data rfl]

theorem checkSolutionResume_failed (w : World) (answer : Fetch CheckPayload)
    (h : Failed CheckPayload.success answer) :
    checkSolutionResume w answer = catchError w ErrorText.checkSolution := by
  cases answer with
  | rejected => rfl
  | unreadable => rfl
  | payload data => simp [checkSolutionResume, h data rfl]

theorem getHintResume_unanswered (w : World) (answer : Fetch HintPayload)
    (h : ∀ data, answer ≠ Fetch.payload data) :
    getHintResume w answer = Async.settled (catchError w ErrorText.getHint) := by
  cases answer with
  | rejected => rfl
  | unreadable => rfl
  | payload data => exact absurd rfl (h data)

theorem getHintResume_refused (w : World) (data : HintPayload)
    (hs : data.success = false) :
    getHintResume w (Fetch.payload data) =
      Async.settled (showStatus w StatusText.noHintAvailable StatusKind.error) := by
  unfold getHintResume
  simp only []
  split
  · simp [hs]
  · rfl

theorem undoMove_awaiting_inv {w w1 : World} (h : undoMove w = Async.awaiting w1) :
    ∃ g, w.gameState.gameId = some g ∧
      w1 = { w with sent := w.sent ++ [Request.undo (some g)] } := by
  unfold undoMove at h
  split at h
  · cases h
  · rename_i g hg
    cases h
    exact ⟨g, hg, rfl⟩

theorem redoMove_awaiting_inv {w w1 : World} (h : redoMove w = Async.awaiting w1) :
    ∃ g, w.gameState.gameId = some g ∧
      w1 = { w with sent := w.sent ++ [Request.redo (some g)] } := by
  unfold redoMove at h
  split at h
  · cases h
  · rename_i g hg
    cases h
    exact ⟨g, hg, rfl⟩

theorem checkSolution_awaiting_inv {w w1 : World} (h : checkSolution w = Async.awaiting w1) :
    ∃ g, w.gameState.gameId = some g ∧
      w1 = { w with sent := w.sent ++ [Request.checkSolution (some g)] } := by
  unfold checkSolution at h
  split at h
  · cases h
  · rename_i g hg
    cases h
    exact ⟨g, hg, rfl⟩

/-- A filled cell whose digit stands at another position of a common unit is in
conflict. -/
theorem inConflict_of_pair {b : Board} {i j k l v : Nat} (hk : k < 9) (hl : l < 9)
    (hne : (i, j) ≠ (k, l)) (hu : SameUnit i j k l) (hv : v ≠ 0)
    (hij : index2 b i j = Lookup.value v) (hkl : index2 b k l = Lookup.value v) :
    InConflict b i j := by
  refine ⟨v, hij, hv, k, l, hk, hl, fun h => hne h.symm, ?_, hkl⟩
  rcases hu with h | h | ⟨h1, h2⟩
  · exact Or.inl h.symm
  · exact Or.inr (Or.inl h.symm)
  · exact Or.inr (Or.inr ⟨h1.symm, h2.symm⟩)

theorem sameUnit_symm {i j k l : Nat} (h : SameUnit i j k l) : SameUnit k l i j := by
  rcases h with h | h | ⟨h1, h2⟩
  · exact Or.inl h.symm
  · exact Or.inr (Or.inl h.symm)
  · exact Or.inr (Or.inr ⟨h1.symm, h2.symm⟩)

/-- A cell in conflict has a partner: another position of a common unit with its digit. -/
theorem pair_of_inConflict {b : Board} {i j : Nat} (h : InConflict b i j) :
    ∃ k l v, k < 9 ∧ l < 9 ∧ (i, j) ≠ (k, l) ∧ SameUnit i j k l ∧ v ≠ 0 ∧
      index2 b i j = Lookup.value v ∧ index2 b k l = Lookup.value v := by
  obtain ⟨v, hij, hv, k, l, hk, hl, hne, hu, hkl⟩ := h
  refine ⟨k, l, v, hk, hl, fun h => hne h.symm, ?_, hv, hij, hkl⟩
  rcases hu with h | h | ⟨h1, h2⟩
  · exact Or.inl h.symm
  · exact Or.inr (Or.inl h.symm)
  · exact Or.inr (Or.inr ⟨h1.symm, h2.symm⟩)

/-! ## Lemmas on the timer display -/

theorem twoDigits_below_hundred :
    ∀ m : Fin 100, isTwoDigits (padStart2 (toString m.val)) = true := by decide

theorem isMMSS_of_twoDigits {a b : String} (ha : isTwoDigits a = true)
    (hb : isTwoDigits b = true) : isMMSS (a ++ ":" ++ b) = true := by
  obtain ⟨la⟩ := a
  obtain ⟨lb⟩ := b
  simp only [isTwoDigits, String.toList] at ha hb
  have happ : ((String.mk la ++ ":" ++ String.mk lb).toList) = la ++ [':'] ++ lb := by
    simp [String.toList, String.data_append]
  simp only [isMMSS, happ]
  match la, lb, ha, hb with
  | [a1, a2], [b1, b2], ha, hb =>
    simp only [Bool.and_eq_true] at ha hb
    simp [ha.1, ha.2, hb.1, hb.2]

theorem toString_natCast (m : Nat) : toString ((m : Nat) : Int) = toString m := rfl

/-! ## Lemmas on the install helper -/

theorem pwaRun_append (s : Pwa) (es : List PwaEvent) (e : PwaEvent) :
    pwaRun s (es ++ [e]) = pwaStep (pwaRun s es) e := by
  simp [pwaRun, List.foldl_append]

/-- One step keeps the handle, clears it, or stores the event of a `beforeinstallprompt`. -/
theorem pwaStep_deferredPrompt (s : Pwa) (ev : PwaEvent) (e : PromptEvent)
    (h : (pwaStep s ev).deferredPrompt = some e) :
    s.deferredPrompt = some e ∨ ev = PwaEvent.beforeInstallPrompt e := by
  cases ev with
  | beforeInstallPrompt e2 =>
    right
    simp only [pwaStep, onBeforeInstallPrompt, Option.some.injEq] at h
    rw [h]
  | showTimerFires installed =>
    left
    simp only [pwaStep, showInstallPrompt] at h
    split at h
    · exact h
    · split at h <;> exact h
  | installClick =>
    left
    simp only [pwaStep, installApp] at h
    split at h
    · exact h
    · exact h
  | choiceResolves accepted =>
    left
    simp only [pwaStep, installAppResume, hideInstallPrompt] at h
    split at h
    · exact h
    · cases h
  | dismissClick => left; exact h
  | appInstalled => simp [pwaStep, onAppInstalled, hideInstallPrompt] at h

/-! ## Lemmas on runs -/

theorem frame_of_gameState {w w1 : World} (h : w1.gameState = w.gameState) : Frame w w1 := by
  unfold Frame; rw [h]; exact ⟨rfl, rfl⟩

theorem keeps_of_frame {w w1 : World} (h : Frame w w1) : Keeps w w1 :=
  Or.inl ⟨h.2, Or.inl h.1⟩

theorem frame_trans {w w1 w2 : World} (h1 : Frame w w1) (h2 : Frame w1 w2) : Frame w w2 :=
  ⟨h2.1.trans h1.1, h2.2.trans h1.2⟩

theorem updateNumberPad_gameState (w : World) :
    (updateNumberPad w).world.gameState = w.gameState := by
  unfold updateNumberPad
  split
  · rfl
  · split <;> rfl

theorem isValidMove_world (w : World) (r c v : Nat) :
    (isValidMove w r c v).world = w := by
  unfold isValidMove
  simp only []
  split
  · rfl
  · rfl
  · split
    · rfl
    · rfl
    · split <;> rfl

theorem isValidMoveUndefined_world (w : World) (r c : Nat) :
    (isValidMoveUndefined w r c).world = w := by
  unfold isValidMoveUndefined
  simp only []
  split
  · rfl
  · rfl
  · split
    · rfl
    · rfl
    · split <;> rfl

theorem highlightFrom_gameState :
    ∀ (ps : List (Nat × Nat)) (w : World),
      (highlightFrom w ps).world.gameState = w.gameState
  | [], _ => rfl
  | (i, j) :: ps, w => by
    unfold highlightFrom
    split
    · rfl
    · have hw := isValidMoveUndefined_world w i j
      split
      · rename_i w1 h1; rw [h1] at hw; simp only [Outcome.world] at hw ⊢; rw [hw]
      · rename_i w1 h1
        rw [h1] at hw; simp only [Outcome.world] at hw
        rw [highlightFrom_gameState ps w1, hw]
      · rename_i w1 h1
        rw [h1] at hw; simp only [Outcome.world] at hw
        rw [highlightFrom_gameState ps _, hw]
    · rename_i a _
      split
      · have hw := isValidMove_world w i j a
        split
        · rename_i w1 h1; rw [h1] at hw; simp only [Outcome.world] at hw ⊢; rw [hw]
        · rename_i w1 h1
          rw [h1] at hw; simp only [Outcome.world] at hw
          rw [highlightFrom_gameState ps w1, hw]
        · rename_i w1 h1
          rw [h1] at hw; simp only [Outcome.world] at hw
          rw [highlightFrom_gameState ps _, hw]
      · exact highlightFrom_gameState ps w

theorem checkSolutionResume_gameState (w : World) (answer : Fetch CheckPayload) :
    (checkSolutionResume w answer).gameState = w.gameState := by
  cases answer with
  | rejected => rfl
  | unreadable => rfl
  | payload data =>
    unfold checkSolutionResume
    simp only []
    split
    · split
      · rfl
      · have h := highlightFrom_gameState allCells
          (clearErrors (showStatus w StatusText.solutionConflicts StatusKind.error))
        unfold highlightErrors
        split
        · rename_i w1 h1; rw [h1] at h; exact h
        · rename_i w1 h1; rw [h1] at h; exact h
    · rfl

theorem makeMoveResume_frame (w : World) (answer : Fetch MovePayload) (now : Int) :
    Frame w (makeMoveResume w answer now) := by
  cases answer with
  | rejected => exact ⟨rfl, rfl⟩
  | unreadable => exact ⟨rfl, rfl⟩
  | payload data =>
    cases hs : data.success with
    | false => simp [Frame, makeMoveResume, hs, catchError, showError]
    | true =>
      simp only [Frame, makeMoveResume, hs, if_true]
      generalize hw : ({ w with gameState := { w.gameState with
        board := data.current_board, notes := data.notes,
        movesHistory := data.moves_history.getD w.gameState.movesHistory,
        redoStack := [] } } : World) = wa
      have h1 : (renderBoard wa).world.gameState = wa.gameState := renderBoard_gameState wa
      have h3 : wa.gameState.selectedCell = w.gameState.selectedCell := by rw [← hw]
      have h4 : wa.gameState.originalBoard = w.gameState.originalBoard := by rw [← hw]
      cases hr : renderBoard wa with
      | threw w2 =>
        rw [hr] at h1
        simp only [Outcome.world] at h1
        simp [catchError, showError, h1, h3, h4]
      | done u w2 =>
        rw [hr] at h1
        simp only [Outcome.world] at h1
        cases data.is_complete <;>
          simp [handleGameComplete_gameState, updateProgress, updateUndoRedoButtons,
            h1, h3, h4]

theorem adoptHistory_frame (w : World) (answer : Fetch HistoryPayload) (message : ErrorText) :
    Frame w (adoptHistory w answer message) := by
  cases answer with
  | rejected => exact ⟨rfl, rfl⟩
  | unreadable => exact ⟨rfl, rfl⟩
  | payload data =>
    cases hs : data.success with
    | false => simp [Frame, adoptHistory, hs, catchError, showError]
    | true =>
      simp only [Frame, adoptHistory, hs, if_true]
      generalize hw : ({ w with gameState := { w.gameState with
        board := data.current_board, notes := data.notes,
        movesHistory := data.moves_history.getD w.gameState.movesHistory,
        redoStack := data.redo_stack.getD w.gameState.redoStack } } : World) = wa
      have h1 : (renderBoard wa).world.gameState = wa.gameState := renderBoard_gameState wa
      have h3 : wa.gameState.selectedCell = w.gameState.selectedCell := by rw [← hw]
      have h4 : wa.gameState.originalBoard = w.gameState.originalBoard := by rw [← hw]
      cases hr : renderBoard wa with
      | threw w2 =>
        rw [hr] at h1
        simp only [Outcome.world] at h1
        simp [catchError, showError, h1, h3, h4]
      | done u w2 =>
        rw [hr] at h1
        simp only [Outcome.world] at h1
        simp [updateProgress, updateUndoRedoButtons, h1, h3, h4]

/-- Processing a new-game answer never touches the selection. -/
theorem startNewGameResume_selectedCell (w : World) (answer : Fetch NewGamePayload)
    (now : Int) (t : TimerId) :
    (startNewGameResume w answer now t).gameState.selectedCell
      = w.gameState.selectedCell := by
  cases answer with
  | rejected => rfl
  | unreadable => rfl
  | payload data =>
    cases hs : data.success with
    | false => simp [startNewGameResume, hs, startNewGameFailed, showLoading, catchError,
        showError]
    | true =>
      simp only [startNewGameResume, hs, if_true]
      generalize hw : ({ w with gameState := { w.gameState with
        gameId := data.game_id, board := data.puzzle, solution := data.solution,
        originalBoard := data.puzzle.map (fun row => row), notes := emptyNotes } } : World)
        = wa
      have h1 : (renderBoard wa).world.gameState = wa.gameState := renderBoard_gameState wa
      have h3 : wa.gameState.selectedCell = w.gameState.selectedCell := by rw [← hw]
      cases hr : renderBoard wa with
      | threw w2 =>
        rw [hr] at h1
        simp only [Outcome.world] at h1
        simp [startNewGameFailed, showLoading, catchError, showError, h1, h3]
      | done u w2 =>
        rw [hr] at h1
        simp only [Outcome.world] at h1
        simp [showLoading, showStatus, updateProgress, updateUndoRedoButtons, startTimer,
          h1, h3]

theorem getHintAfterMove_frame (w : World) : Frame w (getHintAfterMove w) := by
  unfold getHintAfterMove
  split <;> exact ⟨rfl, rfl⟩

theorem getHint_gameState (w : World) : (getHint w).world.gameState = w.gameState := by
  unfold getHint
  split
  · rfl
  · split
    · rfl
    · split
      · rfl
      · split
        · rfl
        · split <;> rfl

theorem getHintResume_frame (w : World) (answer : Fetch HintPayload) :
    Frame w (getHintResume w answer).world := by
  cases answer with
  | rejected => exact ⟨rfl, rfl⟩
  | unreadable => exact ⟨rfl, rfl⟩
  | payload data =>
    unfold getHintResume
    simp only []
    split
    · rename_i h _
      split
      · generalize hw : ({ w with
          gameState := { w.gameState with hintsUsed := data.hints_used },
          page := { w.page with
            hintCount := (w.gameState.maxHints : Int) - (data.hints_used : Int) } } : World)
          = wa
        have hf : Frame w wa := by rw [← hw]; exact ⟨rfl, rfl⟩
        have hm := (makeMove_world_gameState wa h).1
        split
        · rename_i w2 h2
          rw [h2] at hm
          exact frame_trans hf (frame_of_gameState hm)
        · rename_i w2 h2
          rw [h2] at hm
          exact frame_trans hf
            (frame_trans (frame_of_gameState hm) (getHintAfterMove_frame w2))
        · rename_i w2 h2
          rw [h2] at hm
          exact frame_trans hf (frame_of_gameState hm)
      · exact ⟨rfl, rfl⟩
    · exact ⟨rfl, rfl⟩

theorem selectCell_keeps (w : World) (row col : Nat) :
    Keeps w (selectCell w row col).world := by
  unfold selectCell
  cases ho : index2 w.gameState.originalBoard row col with
  | typeError => exact keeps_of_frame ⟨rfl, rfl⟩
  | undef => exact keeps_of_frame ⟨rfl, rfl⟩
  | value a =>
    by_cases ha : a = 0
    · subst ha
      simp only [Lookup.isNonZero, bne_self_eq_false, Bool.false_eq_true, if_false]
      cases hf : w.page.cells.find? (fun cell => cell.row == row && cell.col == col) with
      | none => exact Or.inl ⟨rfl, Or.inr (Or.inl rfl)⟩
      | some cell =>
        have hp := List.find?_some hf
        simp only [Bool.and_eq_true, beq_iff_eq] at hp
        simp only []
        rw [Keeps, updateNumberPad_gameState]
        refine Or.inl ⟨rfl, Or.inr (Or.inr ⟨{ row := cell.row, col := cell.col }, rfl, ?_⟩)⟩
        simp only [hp.1, hp.2]
        exact ho
    · have hnz : (Lookup.value a : Lookup Nat).isNonZero = true := by
        simp [Lookup.isNonZero, ha]
      simp only [hnz, if_true]
      exact keeps_of_frame ⟨rfl, rfl⟩

theorem moveSelection_keeps (w : World) (direction : Arrow) :
    Keeps w (moveSelection w direction).world := by
  unfold moveSelection
  split
  · exact keeps_of_frame ⟨rfl, rfl⟩
  · cases direction <;> exact selectCell_keeps w _ _

theorem toggleNoteMode_frame (w : World) : Frame w (toggleNoteMode w).world := by
  unfold toggleNoteMode
  simp [Frame, updateNumberPad_gameState]

theorem toAsync_world (o : Outcome Unit) : o.toAsync.world = o.world := by
  cases o <;> rfl

theorem handleKeyPress_keeps (w : World) (key : String) :
    Keeps w (handleKeyPress w key).world := by
  unfold handleKeyPress
  split
  · exact keeps_of_frame ⟨rfl, rfl⟩
  · split
    · exact keeps_of_frame ⟨rfl, rfl⟩
    · split
      · exact keeps_of_frame ⟨rfl, rfl⟩
      · split
        · exact keeps_of_frame ⟨rfl, rfl⟩
        · split
          · exact keeps_of_frame (frame_of_gameState (makeMove_world_gameState w _).1)
          · split
            · exact keeps_of_frame (frame_of_gameState (makeMove_world_gameState w _).1)
            · split
              · rw [toAsync_world]; exact keeps_of_frame (toggleNoteMode_frame w)
              · split
                · rw [toAsync_world]; exact moveSelection_keeps w _
                · split
                  · rw [toAsync_world]; exact moveSelection_keeps w _
                  · split
                    · rw [toAsync_world]; exact moveSelection_keeps w _
                    · split
                      · rw [toAsync_world]; exact moveSelection_keeps w _
                      · exact keeps_of_frame ⟨rfl, rfl⟩

theorem resetGameState_cleared (w : World) :
    (resetGameState w).gameState.selectedCell = none ∧
      (resetGameState w).gameState.originalBoard = [] := by
  simp [resetGameState, showStatus, updateUndoRedoButtons, updateProgress,
    stopTimer_gameState]

theorem undoMove_gameState (w : World) : (undoMove w).world.gameState = w.gameState := by
  unfold undoMove; split <;> rfl

theorem redoMove_gameState (w : World) : (redoMove w).world.gameState = w.gameState := by
  unfold redoMove; split <;> rfl

theorem checkSolution_gameState (w : World) :
    (checkSolution w).world.gameState = w.gameState := by
  unfold checkSolution; split <;> rfl

/-- Every event other than a call of `startNewGame` and the arrival of a new-game answer
keeps `originalBoard` and moves the selection only to cells that are no givens, or resets
both. -/
theorem step_keeps (w : World) (ev : Event) (h1 : ev ≠ Event.startNewGame)
    (h2 : ∀ answer now t, ev ≠ Event.newGameAnswer answer now t) :
    Keeps w (step w ev) := by
  cases ev with
  | startNewGame => exact absurd rfl h1
  | newGameAnswer answer now t => exact absurd rfl (h2 answer now t)
  | selectCell row col => exact selectCell_keeps w row col
  | moveSelection direction => exact moveSelection_keeps w direction
  | makeMove value =>
    exact keeps_of_frame (frame_of_gameState (makeMove_world_gameState w value).1)
  | moveAnswer answer now => exact keeps_of_frame (makeMoveResume_frame w answer now)
  | undoMove => exact keeps_of_frame (frame_of_gameState (undoMove_gameState w))
  | undoAnswer answer => exact keeps_of_frame (adoptHistory_frame w answer _)
  | redoMove => exact keeps_of_frame (frame_of_gameState (redoMove_gameState w))
  | redoAnswer answer => exact keeps_of_frame (adoptHistory_frame w answer _)
  | getHint => exact keeps_of_frame (frame_of_gameState (getHint_gameState w))
  | hintAnswer answer => exact keeps_of_frame (getHintResume_frame w answer)
  | hintMoveAnswer answer now =>
    exact keeps_of_frame
      (frame_trans (makeMoveResume_frame w answer now) (getHintAfterMove_frame _))
  | checkSolution => exact keeps_of_frame (frame_of_gameState (checkSolution_gameState w))
  | checkAnswer answer =>
    exact keeps_of_frame (frame_of_gameState (checkSolutionResume_gameState w answer))
  | keyPress key => exact handleKeyPress_keeps w key
  | toggleNoteMode => exact keeps_of_frame (toggleNoteMode_frame w)
  | resetGameState => exact Or.inr (resetGameState_cleared w)
  | showWelcomeScreen => exact Or.inr (resetGameState_cleared _)

theorem orderlyInv_of_keeps {pending : Bool} {w w1 : World} (hk : Keeps w w1)
    (hinv : OrderlyInv pending w) : OrderlyInv pending w1 := by
  obtain ⟨hfree, hpend⟩ := hinv
  rcases hk with ⟨ho, hsel | hsel | ⟨cell, hsel, hzero⟩⟩ | ⟨hsel, ho⟩
  · refine ⟨?_, ?_⟩
    · intro cell hc
      rw [ho]
      exact hfree cell (by rw [← hsel]; exact hc)
    · intro hp
      rw [hsel, ho]
      exact hpend hp
  · refine ⟨?_, ?_⟩
    · intro cell hc
      rw [hsel] at hc
      cases hc
    · intro hp
      exact ⟨hsel, by rw [ho]; exact (hpend hp).2⟩
  · refine ⟨?_, ?_⟩
    · intro cell2 hc
      rw [hsel] at hc
      cases hc
      rw [ho]
      exact hzero
    · intro hp
      have hempty := (hpend hp).2
      rw [hempty] at hzero
      simp [index2] at hzero
  · refine ⟨?_, ?_⟩
    · intro cell hc
      rw [hsel] at hc
      cases hc
    · intro _
      exact ⟨hsel, ho⟩

/-- The invariant holds along every orderly run. -/
theorem orderlyInv_run :
    ∀ (events : List Event) (pending : Bool) (w : World), OrderlyInv pending w →
      orderly pending events = true → SelectionFree (run w events).gameState
  | [], _, _, hinv, _ => hinv.1
  | ev :: events, pending, w, hinv, hord => by
    have hrun : run w (ev :: events) = run (step w ev) events := rfl
    rw [hrun]
    cases ev with
    | startNewGame =>
      simp only [orderly, Bool.and_eq_true, Bool.not_eq_true'] at hord
      refine orderlyInv_run events true _ ?_ hord.2
      have hc := resetGameState_cleared (showLoading w true)
      refine ⟨?_, fun _ => hc⟩
      intro cell hcell
      have hs : (step w Event.startNewGame).gameState.selectedCell = none := hc.1
      rw [hs] at hcell
      cases hcell
    | newGameAnswer answer now t =>
      simp only [orderly, Bool.and_eq_true] at hord
      have hnone : (step w (Event.newGameAnswer answer now t)).gameState.selectedCell
          = none := by
        rw [step, startNewGameResume_selectedCell]
        exact (hinv.2 hord.1).1
      refine orderlyInv_run events false _ ⟨?_, ?_⟩ hord.2
      · intro cell hcell
        rw [hnone] at hcell
        cases hcell
      · intro h; cases h
    | selectCell row col =>
      exact orderlyInv_run events pending _
        (orderlyInv_of_keeps (step_keeps w _ (by simp) (by simp)) hinv) hord
    | moveSelection direction =>
      exact orderlyInv_run events pending _
        (orderlyInv_of_keeps (step_keeps w _ (by simp) (by simp)) hinv) hord
    | makeMove value =>
      exact orderlyInv_run events pending _
        (orderlyInv_of_keeps (step_keeps w _ (by simp) (by simp)) hinv) hord
    | moveAnswer answer now =>
      exact orderlyInv_run events pending _
        (orderlyInv_of_keeps (step_keeps w _ (by simp) (by simp)) hinv) hord
    | undoMove =>
      exact orderlyInv_run events pending _
        (orderlyInv_of_keeps (step_keeps w _ (by simp) (by simp)) hinv) hord
    | undoAnswer answer =>
      exact orderlyInv_run events pending _
        (orderlyInv_of_keeps (step_keeps w _ (by simp) (by simp)) hinv) hord
    | redoMove =>
      exact orderlyInv_run events pending _
        (orderlyInv_of_keeps (step_keeps w _ (by simp) (by simp)) hinv) hord
    | redoAnswer answer =>
      exact orderlyInv_run events pending _
        (orderlyInv_of_keeps (step_keeps w _ (by simp) (by simp)) hinv) hord
    | getHint =>
      exact orderlyInv_run events pending _
        (orderlyInv_of_keeps (step_keeps w _ (by simp) (by simp)) hinv) hord
    | hintAnswer answer =>
      exact orderlyInv_run events pending _
        (orderlyInv_of_keeps (step_keeps w _ (by simp) (by simp)) hinv) hord
    | hintMoveAnswer answer now =>
      exact orderlyInv_run events pending _
        (orderlyInv_of_keeps (step_keeps w _ (by simp) (by simp)) hinv) hord
    | checkSolution =>
      exact orderlyInv_run events pending _
        (orderlyInv_of_keeps (step_keeps w _ (by simp) (by simp)) hinv) hord
    | checkAnswer answer =>
      exact orderlyInv_run events pending _
        (orderlyInv_of_keeps (step_keeps w _ (by simp) (by simp)) hinv) hord
    | keyPress key =>
      exact orderlyInv_run events pending _
        (orderlyInv_of_keeps (step_keeps w _ (by simp) (by simp)) hinv) hord
    | toggleNoteMode =>
      exact orderlyInv_run events pending _
        (orderlyInv_of_keeps (step_keeps w _ (by simp) (by simp)) hinv) hord
    | resetGameState =>
      exact orderlyInv_run events pending _
        (orderlyInv_of_keeps (step_keeps w _ (by simp) (by simp)) hinv) hord
    | showWelcomeScreen =>
      exact orderlyInv_run events pending _
        (orderlyInv_of_keeps (step_keeps w _ (by simp) (by simp)) hinv) hord

/-! ## Theorems -/

/-- C1: on a 9x9 board, for a cell `(r, c)` with `r, c ≤ 8` and any digit `v`,
`isValidMove(r, c, v)` returns (it does not throw), the world after the call is the world
before it, and the value returned is `false` exactly when `v` stands at another position of
row `r`, column `c` or the 3x3 box of `(r, c)`; otherwise it is `true`. -/
theorem isValidMove_iff_conflict (w : World) (r c v : Nat)
    (hb : Grid9 w.gameState.board) (hr : r < 9) (hc : c < 9) :
    ∃ ans, isValidMove w r c v = Outcome.done ans w ∧
      (ans = false ↔ Conflict w.gameState.board r c v) ∧
      (ans = true ↔ ¬ Conflict w.gameState.board r c v) := by
  have hrow : ∀ p ∈ rowCells r, index2 w.gameState.board p.1 p.2 ≠ Lookup.typeError := by
    intro p hp
    obtain ⟨h1, h2⟩ := mem_rowCells.1 hp
    obtain ⟨a, ha⟩ := index2_of_grid9 hb (by omega : p.1 < 9) h2
    simp [ha]
  have hcol : ∀ p ∈ colCells c, index2 w.gameState.board p.1 p.2 ≠ Lookup.typeError := by
    intro p hp
    obtain ⟨h1, h2⟩ := mem_colCells.1 hp
    obtain ⟨a, ha⟩ := index2_of_grid9 hb h1 (by omega : p.2 < 9)
    simp [ha]
  have hbox : ∀ p ∈ boxCells r c, index2 w.gameState.board p.1 p.2 ≠ Lookup.typeError := by
    intro p hp
    obtain ⟨h1, h2⟩ := mem_boxCells.1 hp
    obtain ⟨a, ha⟩ := index2_of_grid9 hb (by omega : p.1 < 9) (by omega : p.2 < 9)
    simp [ha]
  have key : Conflict w.gameState.board r c v ↔
      ((rowCells r).any (hit w.gameState.board v (fun _ j => j == c)) = true ∨
       (colCells c).any (hit w.gameState.board v (fun i _ => i == r)) = true ∨
       (boxCells r c).any (hit w.gameState.board v (fun i j => i == r && j == c)) = true) := by
    simp only [List.any_eq_true, hit, Bool.and_eq_true, Bool.not_eq_true', decide_eq_true_eq,
      beq_eq_false_iff_ne, mem_rowCells, mem_colCells, mem_boxCells, Bool.and_eq_false_imp,
      beq_iff_eq, ne_eq]
    constructor
    · rintro ⟨i, j, hi, hj, hne, hreg, hv⟩
      have hne2 : ¬ (i = r ∧ j = c) := fun h => hne (by rw [h.1, h.2])
      rcases hreg with h | h | h
      · exact Or.inl ⟨(i, j), ⟨h, hj⟩, fun hjc => hne2 ⟨h, hjc⟩, hv⟩
      · exact Or.inr (Or.inl ⟨(i, j), ⟨hi, h⟩, fun hir => hne2 ⟨hir, h⟩, hv⟩)
      · exact Or.inr (Or.inr ⟨(i, j), h, fun hir hjc => hne2 ⟨hir, hjc⟩, hv⟩)
    · rintro (⟨⟨i, j⟩, ⟨h1, h2⟩, hne, hv⟩ | ⟨⟨i, j⟩, ⟨h1, h2⟩, hne, hv⟩ | ⟨⟨i, j⟩, ⟨h1, h2⟩, hne, hv⟩)
      · exact ⟨i, j, by simp only at h1; omega, h2, fun h => hne (Prod.mk.inj h).2,
          Or.inl h1, hv⟩
      · exact ⟨i, j, h1, by simp only at h2; omega, fun h => hne (Prod.mk.inj h).1,
          Or.inr (Or.inl h2), hv⟩
      · exact ⟨i, j, by simp only at h1; omega, by simp only at h2; omega,
          fun h => hne (Prod.mk.inj h).1 (Prod.mk.inj h).2, Or.inr (Or.inr ⟨h1, h2⟩), hv⟩
  rw [key]
  simp only [isValidMove, scan_eq_any _ _ _ _ hrow, scan_eq_any _ _ _ _ hcol,
    scan_eq_any _ _ _ _ hbox]
  cases h1 : (rowCells r).any (hit w.gameState.board v (fun _ j => j == c)) <;>
  cases h2 : (colCells c).any (hit w.gameState.board v (fun i _ => i == r)) <;>
  cases h3 : (boxCells r c).any (hit w.gameState.board v (fun i j => i == r && j == c)) <;>
  simp


/-- Witness of C1 at the sample game: the 4 the player put at row 0, column 2 is fine
there, the lookup at the concrete 9x9 board returns and leaves the world alone. -/
theorem isValidMove_iff_conflict_witness :
    ∃ ans, isValidMove sampleWorld 0 2 4 = Outcome.done ans sampleWorld ∧
      (ans = false ↔ Conflict sampleWorld.gameState.board 0 2 4) ∧
      (ans = true ↔ ¬ Conflict sampleWorld.gameState.board 0 2 4) :=
  isValidMove_iff_conflict sampleWorld 0 2 4 (by decide) (by decide) (by decide)

/-- C2, as stated, fails: a rejected new-game request leaves the sample game with an
empty board and no selection, not in its prior state. -/
theorem startNewGame_failure_resets_sample :
    (startNewGameThen sampleWorld Fetch.rejected 5000 { handle := 2 }).gameState
        ≠ sampleWorld.gameState ∧
      (startNewGameThen sampleWorld Fetch.rejected 5000 { handle := 2 }).gameState.board = [] ∧
      sampleWorld.gameState.board = sampleBoard := by
  decide

/-- C2, amended: after a failed `startNewGame()` the game state is the reset state (board,
solution, originalBoard and notes empty, nothing selected, not complete, no hints used,
both histories empty, note mode off, no timer interval) with `gameId`, `difficulty`,
`maxHints`, `gameStartTime` and `autoCheck` as before; one new-game request was sent, the
error message is shown and the loading overlay is hidden. -/
theorem startNewGame_failure_leaves_reset_state (w : World) (answer : Fetch NewGamePayload)
    (now : Int) (t : TimerId) (hfail : NewGameFailed answer) :
    (startNewGameThen w answer now t).gameState =
        { w.gameState with
          board := [], solution := [], originalBoard := [], notes := [],
          selectedCell := none, isGameComplete := false, hintsUsed := 0,
          movesHistory := [], redoStack := [], isNoteMode := false,
          timerInterval := none } ∧
      (startNewGameThen w answer now t).sent =
        w.sent ++ [Request.newGame w.gameState.difficulty] ∧
      (startNewGameThen w answer now t).page.errorMessage = some ErrorText.startNewGame ∧
      (startNewGameThen w answer now t).page.errorModalShown = true ∧
      (startNewGameThen w answer now t).page.loadingShown = false := by
  have hres : startNewGameResume (startNewGame w).world answer now t =
      startNewGameFailed (startNewGame w).world := by
    cases answer with
    | rejected => rfl
    | unreadable => rfl
    | payload data => simp [startNewGameResume, hfail data rfl]
  simp only [startNewGameThen, hres]
  simp [startNewGameFailed, startNewGame, Async.world, resetGameState, showLoading,
    showStatus, catchError, showError, updateProgress, updateUndoRedoButtons,
    stopTimer_gameState, stopTimer_sent]

/-- Witness of C2 (amended) at the sample game: the backend answers with a falsy
`success`, and the game state left behind is the reset state. -/
theorem startNewGame_failure_leaves_reset_state_witness :
    (startNewGameThen sampleWorld (Fetch.payload
        { success := false, game_id := none, puzzle := [], solution := [] }) 5000
        { handle := 2 }).gameState =
        { sampleWorld.gameState with
          board := [], solution := [], originalBoard := [], notes := [],
          selectedCell := none, isGameComplete := false, hintsUsed := 0,
          movesHistory := [], redoStack := [], isNoteMode := false,
          timerInterval := none } :=
  (startNewGame_failure_leaves_reset_state sampleWorld _ 5000 { handle := 2 }
    (fun data h => by cases h; rfl)).1

/-- C3: `makeMove(value)` issues a make-move request exactly when a cell is selected, the
game is not complete and `originalBoard` is 0 at the selected cell.  The request then
carries the current `gameId`, the cell's row and column, the value, and `note` or `number`
after `isNoteMode`, and nothing else changes.  When no request is issued the world
(game state, page, error modal) is as before.  Hence a request issued by `makeMove`
targets a cell whose `originalBoard` entry is 0. -/
theorem makeMove_sends_iff_guards_pass (w : World) (value : Nat) :
    ((makeMove w value).isAwaiting = true ↔
      ∃ cell, w.gameState.selectedCell = some cell ∧ w.gameState.isGameComplete = false ∧
        index2 w.gameState.originalBoard cell.row cell.col = Lookup.value 0) ∧
    (∀ cell, w.gameState.selectedCell = some cell →
      (makeMove w value).isAwaiting = true →
        makeMove w value =
          Async.awaiting { w with sent := w.sent ++ [moveRequest w cell value] }) ∧
    ((makeMove w value).isAwaiting = false → (makeMove w value).world = w) ∧
    (∀ g r c v t, (makeMove w value).world.sent = w.sent ++ [Request.makeMove g r c v t] →
      index2 w.gameState.originalBoard r c = Lookup.value 0) := by
  cases hsel : w.gameState.selectedCell with
  | none => simp [makeMove_of_no_selection w value hsel, Async.isAwaiting, Async.world]
  | some cell =>
    cases hc : w.gameState.isGameComplete with
    | true => simp [makeMove_of_complete w value hc, Async.isAwaiting, Async.world]
    | false =>
      cases ho : index2 w.gameState.originalBoard cell.row cell.col with
      | typeError =>
        simp [makeMove_of_missing_row w value hsel hc ho, Async.isAwaiting, Async.world, ho]
      | undef =>
        simp [makeMove_of_given w value hsel hc (by simp [ho]) (by simp [ho, Lookup.isNonZero]),
          Async.isAwaiting, Async.world, ho]
      | value a =>
        by_cases ha : a = 0
        · subst ha
          rw [makeMove_of_free w value hsel hc ho]
          simp only [Async.isAwaiting, Async.world]
          refine ⟨by simp [ho], by simp, by simp, ?_⟩
          intro g r c v t h
          simp [moveRequest] at h
          obtain ⟨-, h1, h2, -, -⟩ := h
          rw [← h1, ← h2]; exact ho
        · simp [makeMove_of_given w value hsel hc (by simp [ho])
            (by simp [ho, Lookup.isNonZero, ha]), Async.isAwaiting, Async.world, ho, ha]

/-- Witness of C3 at the sample game: with row 0, column 3 selected (an empty cell that is
no given) `makeMove(6)` issues exactly the request for that cell in `number` mode. -/
theorem makeMove_sends_iff_guards_pass_witness :
    makeMove sampleWorld 6 =
      Async.awaiting { sampleWorld with sent :=
        [Request.makeMove (some { token := 7 }) 0 3 6 MoveType.number] } :=
  (makeMove_sends_iff_guards_pass sampleWorld 6).2.1 { row := 0, col := 3 } rfl (by decide)

/-- C4: when the guards of `makeMove` pass and the answer is a success carrying
`current_board`, `notes` and a `moves_history` array `H` (possibly empty), then afterwards
the local board, notes and history are those of the answer, the redo stack is empty, and
`originalBoard`, `hintsUsed`, `gameId` and the selection are untouched. -/
theorem makeMove_success_adopts_answer (w w1 : World) (value : Nat) (data : MovePayload)
    (H : List HistoryEntry) (now : Int)
    (hguard : makeMove w value = Async.awaiting w1)
    (hsuccess : data.success = true) (hH : data.moves_history = some H) :
    (makeMoveResume w1 (Fetch.payload data) now).gameState.board = data.current_board ∧
    (makeMoveResume w1 (Fetch.payload data) now).gameState.notes = data.notes ∧
    (makeMoveResume w1 (Fetch.payload data) now).gameState.movesHistory = H ∧
    (makeMoveResume w1 (Fetch.payload data) now).gameState.redoStack = [] ∧
    (makeMoveResume w1 (Fetch.payload data) now).gameState.originalBoard
      = w.gameState.originalBoard ∧
    (makeMoveResume w1 (Fetch.payload data) now).gameState.hintsUsed
      = w.gameState.hintsUsed ∧
    (makeMoveResume w1 (Fetch.payload data) now).gameState.gameId = w.gameState.gameId ∧
    (makeMoveResume w1 (Fetch.payload data) now).gameState.selectedCell
      = w.gameState.selectedCell := by
  have hw1 : w1.gameState = w.gameState := makeMove_awaiting_gameState hguard
  simp only [makeMoveResume, hsuccess, if_true, hH, Option.getD_some]
  generalize hw : ({ w1 with gameState := { w1.gameState with
      board := data.current_board, notes := data.notes, movesHistory := H,
      redoStack := [] } } : World) = wa
  have hga : (renderBoard wa).world.gameState = wa.gameState := renderBoard_gameState wa
  have hwa : wa.gameState = { w.gameState with
      board := data.current_board, notes := data.notes, movesHistory := H,
      redoStack := [] } := by rw [← hw, ← hw1]
  cases hr : renderBoard wa with
  | threw w2 =>
    rw [hr] at hga
    simp only [Outcome.world] at hga
    simp [catchError, showError, hga, hwa]
  | done u w2 =>
    rw [hr] at hga
    simp only [Outcome.world] at hga
    cases data.is_complete <;>
      simp [handleGameComplete_gameState, updateProgress, updateUndoRedoButtons, hga, hwa]

/-- Witness of C4 at the sample game: `makeMove(6)` passes the guards, and the successful
answer with a two-entry history is adopted. -/
theorem makeMove_success_adopts_answer_witness :
    (makeMoveResume (makeMove sampleWorld 6).world (Fetch.payload sampleMoveAnswer)
        2000).gameState.board = sampleMoveAnswer.current_board ∧
      (makeMoveResume (makeMove sampleWorld 6).world (Fetch.payload sampleMoveAnswer)
        2000).gameState.movesHistory = [{ tag := 1 }, { tag := 2 }] ∧
      (makeMoveResume (makeMove sampleWorld 6).world (Fetch.payload sampleMoveAnswer)
        2000).gameState.redoStack = [] :=
  have h := makeMove_success_adopts_answer sampleWorld (makeMove sampleWorld 6).world 6
    sampleMoveAnswer [{ tag := 1 }, { tag := 2 }] 2000 (by decide) rfl rfl
  ⟨h.1, h.2.2.1, h.2.2.2.1⟩

/-- C5, as stated, fails: the same successful undo answer, lacking `moves_history`, leaves
the local history at whatever it was before, so the result depends on the previous local
value. -/
theorem undo_answer_without_history_keeps_local :
    (undoMoveResume (undoMove sampleWorld).world
        (Fetch.payload answerWithoutHistory)).gameState.movesHistory = [{ tag := 1 }] ∧
      (undoMoveResume (undoMove sampleWorldNoHistory).world
        (Fetch.payload answerWithoutHistory)).gameState.movesHistory = [] ∧
      (undoMove sampleWorld).isAwaiting = true ∧
      (undoMove sampleWorldNoHistory).isAwaiting = true := by
  decide

/-- C5, amended: with a non-null `gameId`, `undoMove` and `redoMove` issue their request,
and on a successful answer the local board and notes are the answer's `current_board` and
`notes`; the local history is the answer's `moves_history` when the answer has one (the
empty array included) and the previous local history when it has none; likewise the redo
stack with `redo_stack`. -/
theorem history_answer_adopted_with_fallback (w : World) (g : GameId)
    (data : HistoryPayload) (hid : w.gameState.gameId = some g)
    (hsuccess : data.success = true) :
    (undoMove w = Async.awaiting { w with sent := w.sent ++ [Request.undo (some g)] } ∧
      redoMove w = Async.awaiting { w with sent := w.sent ++ [Request.redo (some g)] }) ∧
    (∀ w1, w1 = undoMoveResume (undoMove w).world (Fetch.payload data) ∨
           w1 = redoMoveResume (redoMove w).world (Fetch.payload data) →
      w1.gameState.board = data.current_board ∧
      w1.gameState.notes = data.notes ∧
      (∀ H, data.moves_history = some H → w1.gameState.movesHistory = H) ∧
      (data.moves_history = none → w1.gameState.movesHistory = w.gameState.movesHistory) ∧
      (∀ R, data.redo_stack = some R → w1.gameState.redoStack = R) ∧
      (data.redo_stack = none → w1.gameState.redoStack = w.gameState.redoStack)) := by
  have hu : undoMove w = Async.awaiting { w with sent := w.sent ++ [Request.undo (some g)] } := by
    simp [undoMove, hid]
  have hr : redoMove w = Async.awaiting { w with sent := w.sent ++ [Request.redo (some g)] } := by
    simp [redoMove, hid]
  refine ⟨⟨hu, hr⟩, ?_⟩
  have key : ∀ (w0 : World) (message : ErrorText), w0.gameState = w.gameState →
      (adoptHistory w0 (Fetch.payload data) message).gameState =
        { w.gameState with
          board := data.current_board, notes := data.notes,
          movesHistory := data.moves_history.getD w.gameState.movesHistory,
          redoStack := data.redo_stack.getD w.gameState.redoStack } := by
    intro w0 message h0
    simp only [adoptHistory, hsuccess, if_true]
    generalize hw : ({ w0 with gameState := { w0.gameState with
      board := data.current_board, notes := data.notes,
      movesHistory := data.moves_history.getD w0.gameState.movesHistory,
      redoStack := data.redo_stack.getD w0.gameState.redoStack } } : World) = wa
    have hga : (renderBoard wa).world.gameState = wa.gameState := renderBoard_gameState wa
    have hwa : wa.gameState = { w.gameState with
        board := data.current_board, notes := data.notes,
        movesHistory := data.moves_history.getD w.gameState.movesHistory,
        redoStack := data.redo_stack.getD w.gameState.redoStack } := by rw [← hw, ← h0]
    cases hrb : renderBoard wa with
    | threw w2 =>
      rw [hrb] at hga
      simp only [Outcome.world] at hga
      simp [catchError, showError, hga, hwa]
    | done u w2 =>
      rw [hrb] at hga
      simp only [Outcome.world] at hga
      simp [updateProgress, updateUndoRedoButtons, hga, hwa]
  intro w1 h1
  have hgs : w1.gameState = { w.gameState with
        board := data.current_board, notes := data.notes,
        movesHistory := data.moves_history.getD w.gameState.movesHistory,
        redoStack := data.redo_stack.getD w.gameState.redoStack } := by
    rcases h1 with h1 | h1
    · rw [h1, hu]; exact key _ _ rfl
    · rw [h1, hr]; exact key _ _ rfl
  rw [hgs]
  refine ⟨rfl, rfl, ?_, ?_, ?_, ?_⟩
  · intro H hH; simp [hH]
  · intro hH; simp [hH]
  · intro R hR; simp [hR]
  · intro hR; simp [hR]

/-- Witness of C5 (amended) at the sample game: the undo answer with an empty history and
a one-entry redo stack is adopted as sent. -/
theorem history_answer_adopted_with_fallback_witness :
    (undoMoveResume (undoMove sampleWorld).world
        (Fetch.payload sampleUndoAnswer)).gameState.movesHistory = [] ∧
      (undoMoveResume (undoMove sampleWorld).world
        (Fetch.payload sampleUndoAnswer)).gameState.redoStack = [{ tag := 1 }] :=
  have h := (history_answer_adopted_with_fallback sampleWorld { token := 7 }
    sampleUndoAnswer rfl rfl).2 _ (Or.inl rfl)
  ⟨h.2.2.1 [] rfl, h.2.2.2.2.1 [{ tag := 1 }] rfl⟩

/-- C6: with a 9x9 `originalBoard` and `row, col ≤ 8`, if the entry of `originalBoard` at
`(row, col)` is not 0 then `selectCell(row, col)` returns and leaves the whole world,
`selectedCell` included, exactly as it was. -/
theorem selectCell_given_is_noop (w : World) (row col : Nat)
    (ho : Grid9 w.gameState.originalBoard) (hr : row < 9) (hc : col < 9)
    (hgiven : index2 w.gameState.originalBoard row col ≠ Lookup.value 0) :
    selectCell w row col = Outcome.done () w := by
  obtain ⟨a, ha⟩ := index2_of_grid9 ho hr hc
  have ha0 : a ≠ 0 := by
    intro h; apply hgiven; rw [ha, h]
  simp [selectCell, ha, Lookup.isNonZero, ha0]

/-- Witness of C6 at the sample game: row 0, column 0 holds the given 5; selecting it
changes nothing (the selection stays at row 0, column 3). -/
theorem selectCell_given_is_noop_witness :
    selectCell sampleWorld 0 0 = Outcome.done () sampleWorld :=
  selectCell_given_is_noop sampleWorld 0 0 (by decide) (by decide) (by decide) (by decide)

/-- C7: when no cell is selected, or `hintsUsed >= maxHints`, or the selected cell is a
given (its `originalBoard` entry is a non-zero digit), `getHint()` returns before its
`fetch`: the request log and the game state are as before, and the only write is the
status message (of kind `error`). -/
theorem getHint_refuses_without_request (w : World)
    (h : w.gameState.selectedCell = none ∨
      w.gameState.hintsUsed ≥ w.gameState.maxHints ∨
      ∃ cell v, w.gameState.selectedCell = some cell ∧
        index2 w.gameState.originalBoard cell.row cell.col = Lookup.value v ∧ v ≠ 0) :
    ∃ message, getHint w = Async.settled (showStatus w message StatusKind.error) ∧
      (showStatus w message StatusKind.error).sent = w.sent ∧
      (showStatus w message StatusKind.error).gameState = w.gameState ∧
      (showStatus w message StatusKind.error).page =
        { w.page with status := message, statusKind := StatusKind.error } := by
  cases hsel : w.gameState.selectedCell with
  | none => exact ⟨StatusText.selectCellFirst, by simp [getHint, hsel], rfl, rfl, rfl⟩
  | some cell =>
    cases hc : w.gameState.isGameComplete with
    | true =>
      exact ⟨StatusText.selectCellFirst, by simp [getHint, hsel, hc], rfl, rfl, rfl⟩
    | false =>
      by_cases hq : w.gameState.hintsUsed ≥ w.gameState.maxHints
      · exact ⟨StatusText.hintsExhausted w.gameState.maxHints,
          by simp [getHint, hsel, hc, hq], rfl, rfl, rfl⟩
      · rcases h with h | h | ⟨cell2, v, h1, h2, h3⟩
        · rw [hsel] at h; cases h
        · exact absurd h hq
        · rw [hsel] at h1
          cases h1
          refine ⟨StatusText.cannotHintOriginal, ?_, rfl, rfl, rfl⟩
          simp only [getHint, hsel, hc, h2, Lookup.isNonZero]
          simp [hq, h3]

/-- Witness of C7: the sample game with all five hints used refuses the hint locally. -/
theorem getHint_refuses_without_request_witness :
    ∃ message,
      getHint { sampleWorld with gameState := { sampleState with hintsUsed := 5 } } =
        Async.settled (showStatus
          { sampleWorld with gameState := { sampleState with hintsUsed := 5 } }
          message StatusKind.error) :=
  (getHint_refuses_without_request
    { sampleWorld with gameState := { sampleState with hintsUsed := 5 } }
    (Or.inr (Or.inl (by decide)))).imp (fun _ hm => hm.1)

/-- C8, as stated, fails: `undoMove()` issues its request, the player returns to the
welcome screen (which empties `originalBoard` and disables both buttons), then the
successful undo answer is processed.  Its arrays are adopted, `renderBoard` throws on the
empty `originalBoard`, and `updateUndoRedoButtons` is never reached: the cached `redoStack`
has one entry while the redo button is disabled. -/
theorem late_undo_answer_leaves_redo_disabled :
    ¬ ButtonsFollowHistory (run sampleWorld lateUndoAnswer) ∧
    sampleUndoAnswer.success = true ∧
    (run sampleWorld lateUndoAnswer).gameState.redoStack = [{ tag := 1 }] ∧
    (run sampleWorld lateUndoAnswer).page.redoDisabled = true ∧
    (run sampleWorld lateUndoAnswer).page.errorMessage = some ErrorText.undoMove := by
  refine ⟨?_, rfl, by decide, by decide, by decide⟩
  intro h
  have h1 : (run sampleWorld lateUndoAnswer).page.redoDisabled = false :=
    h.2.2 (by decide)
  exact absurd h1 (by decide)

/-- C8, amended: once a successful make-move, undo or redo answer has been processed with
`renderBoard` running to its end, the undo button is enabled exactly when the cached
`movesHistory` is non-empty and the redo button exactly when the cached `redoStack` is
non-empty; after such a move the redo button is disabled.  `renderBoard` runs to its end
whenever the board and notes of the answer and the `originalBoard` of the game are 9x9. -/
theorem buttons_follow_cached_history (w : World) (now : Int) (move : MovePayload)
    (nav : HistoryPayload) (hm : move.success = true) (hh : nav.success = true)
    (hrm : Renders (moveAdopted w move)) (hrn : Renders (historyAdopted w nav)) :
    ButtonsFollowHistory (makeMoveResume w (Fetch.payload move) now) ∧
      (makeMoveResume w (Fetch.payload move) now).page.redoDisabled = true ∧
      ButtonsFollowHistory (undoMoveResume w (Fetch.payload nav)) ∧
      ButtonsFollowHistory (redoMoveResume w (Fetch.payload nav)) ∧
      (∀ (w0 : World) (move0 : MovePayload), Grid9 w0.gameState.originalBoard →
        Grid9 move0.current_board → Grid9 move0.notes → Renders (moveAdopted w0 move0)) ∧
      (∀ (w0 : World) (nav0 : HistoryPayload), Grid9 w0.gameState.originalBoard →
        Grid9 nav0.current_board → Grid9 nav0.notes → Renders (historyAdopted w0 nav0)) := by
  have h1 := makeMoveResume_of_renders w move now hm hrm
  have h2 := adoptHistory_of_renders w nav ErrorText.undoMove hh hrn
  have h3 := adoptHistory_of_renders w nav ErrorText.redoMove hh hrn
  refine ⟨?_, ?_, ?_, ?_, ?_, ?_⟩
  · rw [h1]
    split
    · simp only [ButtonsFollowHistory, handleGameComplete_gameState,
        (handleGameComplete_page_buttons _ now).1, (handleGameComplete_page_buttons _ now).2]
      simp [updateUndoRedoButtons, updateProgress]
    · exact buttonsFollowHistory_update _
  · rw [h1]
    split
    · rw [(handleGameComplete_page_buttons _ now).2]
      simp [updateUndoRedoButtons, updateProgress, renderBoard_gameState, moveAdopted]
    · simp [updateUndoRedoButtons, updateProgress, renderBoard_gameState, moveAdopted]
  · rw [undoMoveResume, h2]; exact buttonsFollowHistory_update _
  · rw [redoMoveResume, h3]; exact buttonsFollowHistory_update _
  · intro w0 move0 ho hb hn
    exact renders_of_grids (moveAdopted w0 move0) hb ho hn
  · intro w0 nav0 ho hb hn
    exact renders_of_grids (historyAdopted w0 nav0) hb ho hn

/-- Witness of C8 (amended) at the sample game: after the sample move answer the undo
button is enabled (two history entries) and the redo button disabled; after the sample undo
answer the undo button is disabled and the redo button enabled. -/
theorem buttons_follow_cached_history_witness :
    ButtonsFollowHistory (makeMoveResume sampleWorld (Fetch.payload sampleMoveAnswer) 2000) ∧
      (makeMoveResume sampleWorld (Fetch.payload sampleMoveAnswer) 2000).page.redoDisabled
        = true ∧
      ButtonsFollowHistory (undoMoveResume sampleWorld (Fetch.payload sampleUndoAnswer)) ∧
      ButtonsFollowHistory (redoMoveResume sampleWorld (Fetch.payload sampleUndoAnswer)) ∧
      (undoMoveResume sampleWorld (Fetch.payload sampleUndoAnswer)).page.redoDisabled
        = false :=
  have h := buttons_follow_cached_history sampleWorld 2000 sampleMoveAnswer sampleUndoAnswer
    rfl rfl (by decide) (by decide)
  ⟨h.1, h.2.1, h.2.2.1, h.2.2.2.1, by decide⟩

/-- C9, as stated, fails.  First run: `makeMove(6)` passes its guards, the player returns
to the welcome screen, then the successful answer with `is_complete` true is processed:
`renderBoard` throws on the emptied `originalBoard` before `handleGameComplete` is reached,
so `isGameComplete` is false and no game-stats request was sent although `gameId` is
non-null.  Second case: the answer arrives at once but its board has eight rows; again
`renderBoard` throws and nothing of the completion happens. -/
theorem winning_answer_without_completion :
    sampleWinningAnswer.success = true ∧ sampleWinningAnswer.is_complete = true ∧
    (run sampleWorld lateWinningAnswer).gameState.isGameComplete = false ∧
    (run sampleWorld lateWinningAnswer).gameState.gameId = some { token := 7 } ∧
    (run sampleWorld lateWinningAnswer).sent
      = [Request.makeMove (some { token := 7 }) 0 3 6 MoveType.number] ∧
    shortWinningAnswer.success = true ∧ shortWinningAnswer.is_complete = true ∧
    (makeMoveResume (makeMove sampleWorld 6).world (Fetch.payload shortWinningAnswer)
      126000).gameState.isGameComplete = false ∧
    (makeMoveResume (makeMove sampleWorld 6).world (Fetch.payload shortWinningAnswer)
      126000).gameState.timerInterval = some { handle := 1 } ∧
    (makeMoveResume (makeMove sampleWorld 6).world (Fetch.payload shortWinningAnswer)
      126000).sent = [Request.makeMove (some { token := 7 }) 0 3 6 MoveType.number] := by
  decide

/-- C9, amended: let the guards of `makeMove` pass and a successful answer arrive at time
`now` on which `renderBoard` runs to its end (as it does whenever the board and notes of the
answer and the `originalBoard` of the game are 9x9).  If `is_complete` is true then
afterwards `isGameComplete` is true, `timerInterval` is null and the interval is cleared;
with a non-null `gameId` exactly one request was added after the move request: a
game-stats request with that `gameId`, `completed = true` and `time_taken` the whole seconds
from `gameStartTime` to `now`; with a null `gameId` none was added.  If `is_complete` is
false, `isGameComplete` stays false, the timer interval stays as it was and no request is
added. -/
theorem makeMove_completion_effects (w w1 : World) (value : Nat) (data : MovePayload)
    (now : Int) (hguard : makeMove w value = Async.awaiting w1)
    (hsuccess : data.success = true) (hrender : Renders (moveAdopted w1 data)) :
    (data.is_complete = true →
      (makeMoveResume w1 (Fetch.payload data) now).gameState.isGameComplete = true ∧
      (makeMoveResume w1 (Fetch.payload data) now).gameState.timerInterval = none ∧
      (∀ t, w.gameState.timerInterval = some t →
        t ∉ (makeMoveResume w1 (Fetch.payload data) now).intervals) ∧
      (∀ g, w.gameState.gameId = some g →
        (makeMoveResume w1 (Fetch.payload data) now).sent =
          w1.sent ++ [Request.gameStats (some g) (elapsedSeconds w.gameState now) true]) ∧
      (w.gameState.gameId = none →
        (makeMoveResume w1 (Fetch.payload data) now).sent = w1.sent)) ∧
    (data.is_complete = false →
      (makeMoveResume w1 (Fetch.payload data) now).gameState.isGameComplete = false ∧
      (makeMoveResume w1 (Fetch.payload data) now).gameState.timerInterval
        = w.gameState.timerInterval ∧
      (makeMoveResume w1 (Fetch.payload data) now).intervals = w.intervals ∧
      (makeMoveResume w1 (Fetch.payload data) now).sent = w1.sent) ∧
    (∀ t0, w.gameState.gameStartTime = some t0 →
      elapsedSeconds w.gameState now = (now - t0) / 1000) ∧
    (Grid9 w.gameState.originalBoard → Grid9 data.current_board → Grid9 data.notes →
      Renders (moveAdopted w1 data)) := by
  have hgs : w1.gameState = w.gameState := makeMove_awaiting_gameState hguard
  obtain ⟨cell, -, hnc, -, hw1⟩ := makeMove_awaiting_inv hguard
  have hiv : w1.intervals = w.intervals := by rw [hw1]
  have hres := makeMoveResume_of_renders w1 data now hsuccess hrender
  rw [hres]
  refine ⟨?_, ?_, ?_, ?_⟩
  · intro hc
    simp only [hc, if_true]
    refine ⟨?_, ?_, ?_, ?_, ?_⟩
    · simp [handleGameComplete_gameState]
    · simp [handleGameComplete_gameState]
    · intro t ht
      rw [handleGameComplete_intervals]
      simp [updateUndoRedoButtons, updateProgress, renderBoard_gameState,
        renderBoard_intervals, moveAdopted, hgs, ht, hiv]
    · intro g hg
      rw [handleGameComplete_sent]
      simp [updateUndoRedoButtons, updateProgress, renderBoard_gameState, renderBoard_sent,
        moveAdopted, hgs, hg, elapsedSeconds, startMillis]
    · intro hg
      rw [handleGameComplete_sent]
      simp [updateUndoRedoButtons, updateProgress, renderBoard_gameState, renderBoard_sent,
        moveAdopted, hgs, hg]
  · intro hc
    simp [hc, updateUndoRedoButtons, updateProgress, renderBoard_gameState, renderBoard_sent,
      renderBoard_intervals, moveAdopted, hgs, hnc, hiv]
  · intro t0 ht0
    simp [elapsedSeconds, startMillis, ht0]
  · intro ho hb hn
    exact renders_of_grids (moveAdopted w1 data) hb (by rw [moveAdopted]; exact hgs ▸ ho) hn

/-- Witness of C9 (amended) at the sample game (timer started at 1000 ms): the winning
answer arriving at 126000 ms marks the game complete, stops the timer and adds one
game-stats request with 125 seconds. -/
theorem makeMove_completion_effects_witness :
    (makeMoveResume (makeMove sampleWorld 6).world (Fetch.payload sampleWinningAnswer)
        126000).gameState.isGameComplete = true ∧
      (makeMoveResume (makeMove sampleWorld 6).world (Fetch.payload sampleWinningAnswer)
        126000).gameState.timerInterval = none ∧
      (makeMoveResume (makeMove sampleWorld 6).world (Fetch.payload sampleWinningAnswer)
        126000).sent = (makeMove sampleWorld 6).world.sent ++
          [Request.gameStats (some { token := 7 }) (elapsedSeconds sampleWorld.gameState 126000)
            true] ∧
      elapsedSeconds sampleWorld.gameState 126000 = 125 :=
  have h := makeMove_completion_effects sampleWorld (makeMove sampleWorld 6).world 6
    sampleWinningAnswer 126000 (by decide) rfl (by decide)
  ⟨(h.1 rfl).1, (h.1 rfl).2.1, (h.1 rfl).2.2.2.1 { token := 7 } rfl, by decide⟩

/-- C10, evaluated at the failing input: in the sample game marked complete, `makeMove`,
`handleKeyPress` and `getHint` issue nothing and keep the game state, but `undoMove` and
`redoMove` issue their requests, and the successful undo answer replaces the board and the
history although `isGameComplete` is still true. -/
theorem undo_redo_ignore_completion :
    sampleWonWorld.gameState.isGameComplete = true ∧
      makeMove sampleWonWorld 6 = Async.settled sampleWonWorld ∧
      handleKeyPress sampleWonWorld "6" = Async.settled sampleWonWorld ∧
      (getHint sampleWonWorld).isAwaiting = false ∧
      undoMove sampleWonWorld =
        Async.awaiting { sampleWonWorld with sent := [Request.undo (some { token := 7 })] } ∧
      redoMove sampleWonWorld =
        Async.awaiting { sampleWonWorld with sent := [Request.redo (some { token := 7 })] } ∧
      (undoMoveResume (undoMove sampleWonWorld).world
        (Fetch.payload sampleUndoAnswer)).gameState.board = samplePuzzle ∧
      sampleWonWorld.gameState.board ≠ samplePuzzle ∧
      (undoMoveResume (undoMove sampleWonWorld).world
        (Fetch.payload sampleUndoAnswer)).gameState.movesHistory = [] ∧
      sampleWonWorld.gameState.movesHistory = [{ tag := 1 }] ∧
      (undoMoveResume (undoMove sampleWonWorld).world
        (Fetch.payload sampleUndoAnswer)).gameState.isGameComplete = true := by
  decide

/-- C11: on a 9x9 board shown in full, after a successful check-solution answer with
`is_valid` false the buttons carrying `error` are exactly those of the cells whose board
value `v` is non-zero and for which `isValidMove(i, j, v)` returns false, that is, the
filled cells whose digit stands elsewhere in their row, column or box; marks present before
play no part.  With `is_valid` true no button carries `error`.  The game state (the board
included) is as before in both cases. -/
theorem checkSolution_marks_conflicts (w : World) (data : CheckPayload)
    (hb : Grid9 w.gameState.board) (hs : ShowsGrid w.page.cells)
    (hsuccess : data.success = true) :
    (data.is_valid = false →
      ShowsGrid (checkSolutionResume w (Fetch.payload data)).page.cells ∧
      (∀ cell ∈ (checkSolutionResume w (Fetch.payload data)).page.cells,
        (cell.error = true ↔
          ∃ v, index2 w.gameState.board cell.row cell.col = Lookup.value v ∧ v ≠ 0 ∧
            isValidMove w cell.row cell.col v = Outcome.done false w) ∧
        (cell.error = true ↔ InConflict w.gameState.board cell.row cell.col))) ∧
    (data.is_valid = true →
      ∀ cell ∈ (checkSolutionResume w (Fetch.payload data)).page.cells, cell.error = false) ∧
    (checkSolutionResume w (Fetch.payload data)).gameState = w.gameState := by
  have hhl := highlightErrors_eq
    (showStatus w StatusText.solutionConflicts StatusKind.error) hb hs
  cases hv : data.is_valid with
  | true =>
    refine ⟨by simp, ?_, ?_⟩
    · intro _ cell hcell
      simp only [checkSolutionResume, hsuccess, hv, if_true, clearErrors] at hcell
      obtain ⟨c0, _, rfl⟩ := List.mem_map.1 hcell
      rfl
    · simp [checkSolutionResume, hsuccess, hv, clearErrors, showStatus]
  | false =>
    have hres : checkSolutionResume w (Fetch.payload data) =
        { showStatus w StatusText.solutionConflicts StatusKind.error with
          page := { (showStatus w StatusText.solutionConflicts StatusKind.error).page with
            cells := (w.page.cells.map (fun cell =>
              { cell with error := flagged w.gameState.board cell.row cell.col })) } } := by
      simp only [checkSolutionResume, hsuccess, hv, if_true, Bool.false_eq_true, if_false]
      rw [hhl]
      rfl
    rw [hres]
    refine ⟨?_, by simp, rfl⟩
    intro _
    refine ⟨showsGrid_highlighted hs, ?_⟩
    intro cell hcell
    obtain ⟨c0, hc0, hrow, hcol, herr⟩ := mem_highlighted hcell
    obtain ⟨hi, hj⟩ := pos_of_showsGrid hs hc0
    rw [← hrow] at hi
    rw [← hcol] at hj
    have hfl := flagged_iff w.gameState.board hi hj
    rw [herr]
    refine ⟨?_, hfl⟩
    rw [hfl]
    unfold InConflict
    constructor
    · rintro ⟨v, h1, h2, h3⟩
      refine ⟨v, h1, h2, ?_⟩
      rw [isValidMove_eq w _ _ v hb hi hj, (conflictB_iff _ v hi hj).2 h3]
      rfl
    · rintro ⟨v, h1, h2, h3⟩
      refine ⟨v, h1, h2, ?_⟩
      rw [isValidMove_eq w _ _ v hb hi hj] at h3
      apply (conflictB_iff _ v hi hj).1
      cases hc : conflictB w.gameState.board cell.row cell.col v with
      | true => rfl
      | false => rw [hc] at h3; cases h3

/-- Witness of C11: on the sample board with a second 5 at row 0, column 3 the answer
`is_valid = false` marks the buttons of the clashing cells and nothing changes in the game
state. -/
theorem checkSolution_marks_conflicts_witness :
    (∀ cell ∈ (checkSolutionResume clashWorld
        (Fetch.payload { success := true, is_valid := false })).page.cells,
      (cell.error = true ↔ InConflict clashWorld.gameState.board cell.row cell.col)) ∧
    (checkSolutionResume clashWorld
      (Fetch.payload { success := true, is_valid := false })).gameState
        = clashWorld.gameState :=
  have h := checkSolution_marks_conflicts clashWorld { success := true, is_valid := false }
    (by decide) (by decide) rfl
  ⟨fun cell hcell => ((h.1 rfl).2 cell hcell).2, h.2.2⟩

/-- C12: for a successful new-game answer carrying a 9x9 puzzle `P` and a solution `S`,
after `startNewGame()` the board and `originalBoard` are `P`, the solution is `S`, the notes
are a 9x9 grid of empty lists, both histories are empty and no cell is selected; the board
element shows the 81 buttons of `P` in order: the button of `(i, j)` shows the digit with
the class `original` when `P[i][j]` is non-zero, and is empty (no digit, no notes, neither
`original` nor `filled`) when `P[i][j]` is 0.  The request sent carries the current
difficulty. -/
theorem startNewGame_success_installs_puzzle (w : World) (data : NewGamePayload) (now : Int)
    (t : TimerId) (hsuccess : data.success = true) (hp : Grid9 data.puzzle) :
    (startNewGameThen w (Fetch.payload data) now t).gameState.board = data.puzzle ∧
    (startNewGameThen w (Fetch.payload data) now t).gameState.originalBoard = data.puzzle ∧
    (startNewGameThen w (Fetch.payload data) now t).gameState.solution = data.solution ∧
    (startNewGameThen w (Fetch.payload data) now t).gameState.notes
      = List.replicate 9 (List.replicate 9 []) ∧
    (startNewGameThen w (Fetch.payload data) now t).gameState.movesHistory = [] ∧
    (startNewGameThen w (Fetch.payload data) now t).gameState.redoStack = [] ∧
    (startNewGameThen w (Fetch.payload data) now t).gameState.selectedCell = none ∧
    (startNewGameThen w (Fetch.payload data) now t).sent
      = w.sent ++ [Request.newGame w.gameState.difficulty] ∧
    (startNewGameThen w (Fetch.payload data) now t).page.cells
      = allCells.map (puzzleCell data.puzzle) ∧
    (∀ cell ∈ (startNewGameThen w (Fetch.payload data) now t).page.cells,
      ∃ v, index2 data.puzzle cell.row cell.col = Lookup.value v ∧
        ((cell.text = some v ∧ cell.original = true) ↔ v ≠ 0) ∧
        (v = 0 → cell.text = none ∧ cell.notes = none ∧ cell.original = false ∧
          cell.filled = false)) := by
  have hcells : (startNewGameThen w (Fetch.payload data) now t).page.cells
      = allCells.map (puzzleCell data.puzzle) := by
    simp [startNewGameThen, startNewGameResume_of_grid _ data now t hsuccess hp, showLoading,
      showStatus, updateUndoRedoButtons, updateProgress, startTimer]
  have hmap : data.puzzle.map (fun row => row) = data.puzzle := List.map_id' _
  refine ⟨?_, ?_, ?_, ?_, ?_, ?_, ?_, ?_, hcells, ?_⟩
  · simp [startNewGameThen, startNewGameResume_of_grid _ data now t hsuccess hp, showLoading,
      showStatus, updateUndoRedoButtons, updateProgress, startTimer, newGameAdopted]
  · simp [startNewGameThen, startNewGameResume_of_grid _ data now t hsuccess hp, showLoading,
      showStatus, updateUndoRedoButtons, updateProgress, startTimer, newGameAdopted]
  · simp [startNewGameThen, startNewGameResume_of_grid _ data now t hsuccess hp, showLoading,
      showStatus, updateUndoRedoButtons, updateProgress, startTimer, newGameAdopted]
  · simp [startNewGameThen, startNewGameResume_of_grid _ data now t hsuccess hp, showLoading,
      showStatus, updateUndoRedoButtons, updateProgress, startTimer, newGameAdopted,
      emptyNotes]
  · simp [startNewGameThen, startNewGameResume_of_grid _ data now t hsuccess hp, showLoading,
      showStatus, updateUndoRedoButtons, updateProgress, startTimer, newGameAdopted,
      startNewGame, Async.world, resetGameState, stopTimer_gameState]
  · simp [startNewGameThen, startNewGameResume_of_grid _ data now t hsuccess hp, showLoading,
      showStatus, updateUndoRedoButtons, updateProgress, startTimer, newGameAdopted,
      startNewGame, Async.world, resetGameState, stopTimer_gameState]
  · simp [startNewGameThen, startNewGameResume_of_grid _ data now t hsuccess hp, showLoading,
      showStatus, updateUndoRedoButtons, updateProgress, startTimer, newGameAdopted,
      startNewGame, Async.world, resetGameState, stopTimer_gameState]
  · simp [startNewGameThen, startNewGameResume_of_grid _ data now t hsuccess hp, showLoading,
      showStatus, updateUndoRedoButtons, updateProgress, startTimer, newGameAdopted,
      startNewGame, Async.world, resetGameState, stopTimer_gameState, stopTimer_sent]
  · intro cell hcell
    rw [hcells] at hcell
    obtain ⟨⟨i, j⟩, hmem, rfl⟩ := List.mem_map.1 hcell
    obtain ⟨hi, hj⟩ := mem_allCells.1 hmem
    obtain ⟨v, hv⟩ := index2_of_grid9 hp hi hj
    refine ⟨v, ?_, ?_, ?_⟩
    · by_cases h0 : v = 0 <;> simp [puzzleCell, hv, h0]
    · by_cases h0 : v = 0 <;> simp [puzzleCell, hv, h0]
    · intro h0; simp [puzzleCell, hv, h0]

/-- Witness of C12 with difficulty `hard`: the sample game asks for a hard puzzle, the
backend answers with the sample puzzle, and the board shows its 30 givens as `original`
buttons and 51 empty buttons. -/
theorem startNewGame_success_installs_puzzle_witness :
    (startNewGameThen sampleWorld (Fetch.payload sampleNewGameAnswer) 5000
      { handle := 2 }).sent = [Request.newGame "hard"] ∧
    (startNewGameThen sampleWorld (Fetch.payload sampleNewGameAnswer) 5000
      { handle := 2 }).gameState.board = samplePuzzle ∧
    (startNewGameThen sampleWorld (Fetch.payload sampleNewGameAnswer) 5000
      { handle := 2 }).page.cells = allCells.map (puzzleCell samplePuzzle) ∧
    ((allCells.map (puzzleCell samplePuzzle)).filter (fun cell => cell.original)).length = 30 ∧
    ((allCells.map (puzzleCell samplePuzzle)).filter
      (fun cell => cell.text == none && !cell.original && !cell.filled)).length = 51 :=
  have h := startNewGame_success_installs_puzzle sampleWorld sampleNewGameAnswer 5000
    { handle := 2 } rfl (by decide)
  ⟨h.2.2.2.2.2.2.2.1, h.1, h.2.2.2.2.2.2.2.2.1, by decide, by decide⟩

/-- C13: when the guards of `getHint` pass and the answer is a success with a non-zero
hint digit `h` (any of 1..9) and `hints_used = k`, then `hintsUsed` becomes `k`, the
remaining-hint display shows `maxHints - k` (one less than a display that showed
`maxHints - hintsUsed` exactly when `k` is the previous `hintsUsed` plus one), and `h` is
submitted through `makeMove` for the selected cell: a make-move request for that cell with
value `h` is issued.  Both counters keep these values whatever the answer to that move. -/
theorem getHint_success_counts_and_submits (w w1 : World) (data : HintPayload) (h k : Nat)
    (hguard : getHint w = Async.awaiting w1) (hsuccess : data.success = true)
    (hh : data.hint = some h) (h0 : h ≠ 0) (hk : data.hints_used = k) :
    ∃ cell w2, w.gameState.selectedCell = some cell ∧
      getHintResume w1 (Fetch.payload data) = Async.awaiting w2 ∧
      w2.gameState.hintsUsed = k ∧
      w2.page.hintCount = (w.gameState.maxHints : Int) - (k : Int) ∧
      (w.page.hintCount = (w.gameState.maxHints : Int) - (w.gameState.hintsUsed : Int) →
        (w2.page.hintCount = w.page.hintCount - 1 ↔ k = w.gameState.hintsUsed + 1)) ∧
      w2.sent = w1.sent ++ [moveRequest w cell h] ∧
      ∀ answer now,
        (getHintFinish w2 answer now).gameState.hintsUsed = k ∧
        (getHintFinish w2 answer now).page.hintCount
          = (w.gameState.maxHints : Int) - (k : Int) := by
  obtain ⟨cell, hsel, hc, -, ho, hw1⟩ := getHint_awaiting_inv hguard
  have hres := getHintResume_of_hint w1 data h cell hsuccess hh h0
    (by rw [hw1]; exact hsel) (by rw [hw1]; exact hc) (by rw [hw1]; exact ho)
  refine ⟨cell, _, hsel, hres, ?_, ?_, ?_, ?_, ?_⟩
  · simp [hintCounted, hk]
  · simp [hintCounted, hk, hw1]
  · intro hshown
    simp only [hintCounted, hk, hw1, hshown]
    constructor
    · intro h; omega
    · intro h; omega
  · simp [hw1, moveRequest]
  · intro answer now
    have hm := makeMoveResume_hints
      { hintCounted w1 data with sent := w1.sent ++ [moveRequest w1 cell h] } answer now
    have ha := getHintAfterMove_hints (makeMoveResume
      { hintCounted w1 data with sent := w1.sent ++ [moveRequest w1 cell h] } answer now)
    simp only [getHintFinish]
    rw [ha.1, ha.2, hm.1, hm.2]
    simp [hintCounted, hk, hw1]

/-- Witness of C13 at the sample game (one hint used, five allowed): the answer with digit
6 and `hints_used = 2` leaves `hintsUsed = 2`, shows 3 remaining hints and issues the move
request for row 0, column 3 with value 6. -/
theorem getHint_success_counts_and_submits_witness :
    ∃ cell w2, sampleWorld.gameState.selectedCell = some cell ∧
      getHintResume (getHint sampleWorld).world (Fetch.payload sampleHintAnswer)
        = Async.awaiting w2 ∧
      w2.gameState.hintsUsed = 2 ∧ w2.page.hintCount = 3 ∧
      w2.sent = (getHint sampleWorld).world.sent ++ [moveRequest sampleWorld cell 6] :=
  (getHint_success_counts_and_submits sampleWorld (getHint sampleWorld).world
      sampleHintAnswer 6 2 (by decide) rfl rfl (by decide) rfl).imp
    (fun _ hex => hex.imp (fun _ hall =>
      ⟨hall.1, hall.2.1, hall.2.2.1, hall.2.2.2.1, hall.2.2.2.2.2.1⟩))

/-- C20: when the guards of `getHint` pass and the answer is a success with a non-zero
digit `h`, the make-move request that `getHint` causes carries `move_type` `note` if
`isNoteMode` is true and `number` if it is false, and at that point `hintsUsed` already is
the `hints_used` of the answer. -/
theorem getHint_applies_in_input_mode (w w1 : World) (data : HintPayload) (h : Nat)
    (hguard : getHint w = Async.awaiting w1) (hsuccess : data.success = true)
    (hh : data.hint = some h) (h0 : h ≠ 0) :
    ∃ cell w2, w.gameState.selectedCell = some cell ∧
      getHintResume w1 (Fetch.payload data) = Async.awaiting w2 ∧
      w2.gameState.hintsUsed = data.hints_used ∧
      (w.gameState.isNoteMode = true →
        w2.sent = w1.sent ++
          [Request.makeMove w.gameState.gameId cell.row cell.col h MoveType.note]) ∧
      (w.gameState.isNoteMode = false →
        w2.sent = w1.sent ++
          [Request.makeMove w.gameState.gameId cell.row cell.col h MoveType.number]) := by
  obtain ⟨cell, hsel, hc, -, ho, hw1⟩ := getHint_awaiting_inv hguard
  have hres := getHintResume_of_hint w1 data h cell hsuccess hh h0
    (by rw [hw1]; exact hsel) (by rw [hw1]; exact hc) (by rw [hw1]; exact ho)
  refine ⟨cell, _, hsel, hres, ?_, ?_, ?_⟩
  · simp [hintCounted]
  · intro hn; simp [hw1, moveRequest, hn]
  · intro hn; simp [hw1, moveRequest, hn]

/-- Witness of C20 at the sample game in note mode: the hint digit 6 goes out as a `note`
move for row 0, column 3, with `hintsUsed` already at 2. -/
theorem getHint_applies_in_input_mode_witness :
    ∃ cell w2, sampleNoteWorld.gameState.selectedCell = some cell ∧
      getHintResume (getHint sampleNoteWorld).world (Fetch.payload sampleHintAnswer)
        = Async.awaiting w2 ∧
      w2.gameState.hintsUsed = 2 ∧
      w2.sent = (getHint sampleNoteWorld).world.sent ++
        [Request.makeMove (some { token := 7 }) cell.row cell.col 6 MoveType.note] :=
  (getHint_applies_in_input_mode sampleNoteWorld (getHint sampleNoteWorld).world
      sampleHintAnswer 6 (by decide) rfl rfl (by decide)).imp
    (fun _ hex => hex.imp (fun _ hall =>
      ⟨hall.1, hall.2.1, hall.2.2.1, hall.2.2.2.1 rfl⟩))

/-- C14: for `makeMove`, `undoMove`, `redoMove`, `getHint` and `checkSolution`, when the
operation has issued its request and that request fails (it rejects, the body is
unreadable, or the payload has a falsy `success`), the continuation ends normally and no
further request is issued; the game state and the armed intervals are those from before the
call, and the only effect is the message: the error modal opened on the operation's own
text with one line logged, or, for `getHint` answered by a payload with a falsy `success`,
the status line set to the no-hint text of kind `error`. -/
theorem failed_request_shows_only_message (w : World) (value : Nat) (now : Int)
    (move : Fetch MovePayload) (nav : Fetch HistoryPayload) (hint : Fetch HintPayload)
    (check : Fetch CheckPayload)
    (hmove : Failed MovePayload.success move) (hnav : Failed HistoryPayload.success nav)
    (hhint : Failed HintPayload.success hint) (hcheck : Failed CheckPayload.success check) :
    (∀ w1, makeMove w value = Async.awaiting w1 →
      ShowsError w (makeMoveResume w1 move now) ErrorText.makeMove ∧
      (makeMoveResume w1 move now).sent = w1.sent) ∧
    (∀ w1, undoMove w = Async.awaiting w1 →
      ShowsError w (undoMoveResume w1 nav) ErrorText.undoMove ∧
      (undoMoveResume w1 nav).sent = w1.sent) ∧
    (∀ w1, redoMove w = Async.awaiting w1 →
      ShowsError w (redoMoveResume w1 nav) ErrorText.redoMove ∧
      (redoMoveResume w1 nav).sent = w1.sent) ∧
    (∀ w1, getHint w = Async.awaiting w1 →
      ∃ final, getHintResume w1 hint = Async.settled final ∧ final.sent = w1.sent ∧
        ((∀ data, hint ≠ Fetch.payload data) → ShowsError w final ErrorText.getHint) ∧
        (∀ data, hint = Fetch.payload data →
          ShowsStatus w final StatusText.noHintAvailable StatusKind.error)) ∧
    (∀ w1, checkSolution w = Async.awaiting w1 →
      ShowsError w (checkSolutionResume w1 check) ErrorText.checkSolution ∧
      (checkSolutionResume w1 check).sent = w1.sent) := by
  refine ⟨?_, ?_, ?_, ?_, ?_⟩
  · intro w1 h
    obtain ⟨cell, -, -, -, hw1⟩ := makeMove_awaiting_inv h
    rw [makeMoveResume_failed w1 move now hmove]
    exact ⟨showsError_catchError _ (by rw [hw1]) (by rw [hw1]) (by rw [hw1]) (by rw [hw1]),
      rfl⟩
  · intro w1 h
    obtain ⟨g, -, hw1⟩ := undoMove_awaiting_inv h
    rw [undoMoveResume, adoptHistory_failed w1 nav _ hnav]
    exact ⟨showsError_catchError _ (by rw [hw1]) (by rw [hw1]) (by rw [hw1]) (by rw [hw1]),
      rfl⟩
  · intro w1 h
    obtain ⟨g, -, hw1⟩ := redoMove_awaiting_inv h
    rw [redoMoveResume, adoptHistory_failed w1 nav _ hnav]
    exact ⟨showsError_catchError _ (by rw [hw1]) (by rw [hw1]) (by rw [hw1]) (by rw [hw1]),
      rfl⟩
  · intro w1 h
    obtain ⟨cell, -, -, -, -, hw1⟩ := getHint_awaiting_inv h
    cases hint with
    | rejected =>
      exact ⟨_, rfl, rfl,
        fun _ => showsError_catchError _ (by rw [hw1]) (by rw [hw1]) (by rw [hw1])
          (by rw [hw1]),
        fun data hd => by cases hd⟩
    | unreadable =>
      exact ⟨_, rfl, rfl,
        fun _ => showsError_catchError _ (by rw [hw1]) (by rw [hw1]) (by rw [hw1])
          (by rw [hw1]),
        fun data hd => by cases hd⟩
    | payload data =>
      refine ⟨_, getHintResume_refused w1 data (hhint data rfl), rfl, ?_, ?_⟩
      · intro hno
        exact absurd rfl (hno data)
      · intro _ _
        exact showsStatus_showStatus _ _ (by rw [hw1]) (by rw [hw1]) (by rw [hw1])
          (by rw [hw1])
  · intro w1 h
    obtain ⟨g, -, hw1⟩ := checkSolution_awaiting_inv h
    rw [checkSolutionResume_failed w1 check hcheck]
    exact ⟨showsError_catchError _ (by rw [hw1]) (by rw [hw1]) (by rw [hw1]) (by rw [hw1]),
      rfl⟩

/-- Witness of C14 at the sample game: the move request for the digit 6 is rejected and the
undo request gets an unreadable body, each leaving the game as it was with its own error
text; the hint request is answered with a falsy `success` and only the status line
changes. -/
theorem failed_request_shows_only_message_witness :
    ShowsError sampleWorld
      (makeMoveResume (makeMove sampleWorld 6).world Fetch.rejected 2000)
      ErrorText.makeMove ∧
    ShowsError sampleWorld
      (undoMoveResume (undoMove sampleWorld).world Fetch.unreadable) ErrorText.undoMove ∧
    (∃ final, getHintResume (getHint sampleWorld).world (Fetch.payload refusedHintAnswer)
        = Async.settled final ∧
      ShowsStatus sampleWorld final StatusText.noHintAvailable StatusKind.error) :=
  have h := failed_request_shows_only_message sampleWorld 6 2000 Fetch.rejected
    Fetch.unreadable (Fetch.payload refusedHintAnswer) Fetch.rejected
    (fun _ h => by cases h) (fun _ h => by cases h) (fun _ h => by cases h; rfl)
    (fun _ h => by cases h)
  ⟨(h.1 (makeMove sampleWorld 6).world (by decide)).1,
    (h.2.1 (undoMove sampleWorld).world (by decide)).1,
    (h.2.2.2.1 (getHint sampleWorld).world (by decide)).imp
      (fun _ hf => ⟨hf.1, hf.2.2.2 refusedHintAnswer rfl⟩)⟩

/-- C19: on a 9x9 board shown in full, `highlightErrors` returns and every button it marks
has a partner: another marked button in the same row, column or 3x3 box whose cell holds the
same digit.  Two distinct filled cells of a common row, column or box with the same digit
both fail `isValidMove`.  No button is marked exactly when no row, column or box holds the
same non-zero digit twice. -/
theorem highlightErrors_marks_in_pairs (w : World) (hb : Grid9 w.gameState.board)
    (hs : ShowsGrid w.page.cells) :
    ∃ w1, highlightErrors w = Outcome.done () w1 ∧ w1.gameState = w.gameState ∧
      (∀ c ∈ w1.page.cells, c.error = true →
        ∃ d ∈ w1.page.cells, d.error = true ∧ (d.row, d.col) ≠ (c.row, c.col) ∧
          SameUnit c.row c.col d.row d.col ∧
          index2 w.gameState.board d.row d.col = index2 w.gameState.board c.row c.col) ∧
      (∀ i j k l v, i < 9 → j < 9 → k < 9 → l < 9 → (i, j) ≠ (k, l) → SameUnit i j k l →
        v ≠ 0 → index2 w.gameState.board i j = Lookup.value v →
        index2 w.gameState.board k l = Lookup.value v →
        isValidMove w i j v = Outcome.done false w ∧
          isValidMove w k l v = Outcome.done false w) ∧
      ((∀ c ∈ w1.page.cells, c.error = false) ↔ ¬ DuplicateDigit w.gameState.board) := by
  refine ⟨_, highlightErrors_eq w hb hs, rfl, ?_, ?_, ?_⟩
  · intro c hc herr
    obtain ⟨c0, hc0, hrow, hcol, hflag⟩ := mem_highlighted hc
    obtain ⟨hi, hj⟩ := pos_of_showsGrid hs hc0
    rw [← hrow] at hi
    rw [← hcol] at hj
    rw [hflag] at herr
    obtain ⟨k, l, v, hk, hl, hne, hu, hv, hij, hkl⟩ :=
      pair_of_inConflict ((flagged_iff _ hi hj).1 herr)
    obtain ⟨d0, hd0, hdr, hdc⟩ := mem_of_showsGrid hs hk hl
    have hfl : flagged w.gameState.board k l = true :=
      (flagged_iff _ hk hl).2
        (inConflict_of_pair hi hj (fun h => hne h.symm) (sameUnit_symm hu) hv hkl hij)
    refine ⟨{ d0 with error := flagged w.gameState.board d0.row d0.col }, ?_, ?_, ?_, ?_, ?_⟩
    · exact List.mem_map_of_mem
        (fun cell => { cell with error := flagged w.gameState.board cell.row cell.col }) hd0
    · simp only [hdr, hdc, hfl]
    · simp only [hdr, hdc]; exact fun h => hne h.symm
    · simp only [hdr, hdc]; exact hu
    · simp only [hdr, hdc]; rw [hkl, hij]
  · intro i j k l v hi hj hk hl hne hu hv hij hkl
    have h1 : Conflict w.gameState.board i j v := by
      obtain ⟨v2, h2, -, h3⟩ := inConflict_of_pair hk hl hne hu hv hij hkl
      rw [hij] at h2
      cases h2
      exact h3
    have h2 : Conflict w.gameState.board k l v := by
      obtain ⟨v2, h2, -, h3⟩ :=
        inConflict_of_pair hi hj (fun h => hne h.symm) (sameUnit_symm hu) hv hkl hij
      rw [hkl] at h2
      cases h2
      exact h3
    rw [isValidMove_eq w i j v hb hi hj, isValidMove_eq w k l v hb hk hl,
      (conflictB_iff _ v hi hj).2 h1, (conflictB_iff _ v hk hl).2 h2]
    exact ⟨rfl, rfl⟩
  · constructor
    · rintro hall ⟨i, j, k, l, v, hi, hj, hk, hl, hne, hu, hv, hij, hkl⟩
      obtain ⟨c0, hc0, hr, hc⟩ := mem_of_showsGrid hs hi hj
      have hfl : flagged w.gameState.board i j = true :=
        (flagged_iff _ hi hj).2 (inConflict_of_pair hk hl hne hu hv hij hkl)
      have := hall { c0 with error := flagged w.gameState.board c0.row c0.col }
        (List.mem_map_of_mem
          (fun cell => { cell with error := flagged w.gameState.board cell.row cell.col }) hc0)
      simp only [hr, hc, hfl] at this
      cases this
    · intro hnd c hc
      obtain ⟨c0, hc0, hrow, hcol, hflag⟩ := mem_highlighted hc
      obtain ⟨hi, hj⟩ := pos_of_showsGrid hs hc0
      rw [← hrow] at hi
      rw [← hcol] at hj
      rw [hflag]
      cases hfl : flagged w.gameState.board c.row c.col with
      | false => rfl
      | true =>
        exfalso
        obtain ⟨k, l, v, hk, hl, hne, hu, hv, hij, hkl⟩ :=
          pair_of_inConflict ((flagged_iff _ hi hj).1 hfl)
        exact hnd ⟨c.row, c.col, k, l, v, hi, hj, hk, hl, hne, hu, hv, hij, hkl⟩

/-- Witness of C19 on the sample board with a second 5 at row 0, column 3: the marked
buttons are those of the three 5s that clash, at (0,0), (0,3) and (1,5). -/
theorem highlightErrors_marks_in_pairs_witness :
    (∃ w1, highlightErrors clashWorld = Outcome.done () w1 ∧
      w1.gameState = clashWorld.gameState ∧
      ∀ c ∈ w1.page.cells, c.error = true →
        ∃ d ∈ w1.page.cells, d.error = true ∧ (d.row, d.col) ≠ (c.row, c.col) ∧
          SameUnit c.row c.col d.row d.col ∧
          index2 clashWorld.gameState.board d.row d.col
            = index2 clashWorld.gameState.board c.row c.col) ∧
    (((highlightErrors clashWorld).world.page.cells.filter (fun c => c.error)).map
      (fun c => (c.row, c.col)) = [(0, 0), (0, 3), (1, 5)]) :=
  ⟨(highlightErrors_marks_in_pairs clashWorld (by decide) (by decide)).imp
    (fun _ h => ⟨h.1, h.2.1, h.2.2.1⟩), by decide⟩

/-- C15: storing settings `s` with `saveSettingsToStorage` (or through `saveSettings`) and
running `loadSettings` on a freshly constructed controller gives back `s`, with
`gameState.autoCheck` equal to `s.autoCheck`; the constructor as a whole ends with these
settings too.  In general `loadSettings` on a fresh controller gives the stored keys laid
over the defaults, and changes nothing when no item is stored. -/
theorem settings_round_trip (c : Controller) (controls : Settings) (page : Page)
    (dataTheme : String) (saved : StoredSettings) :
    (loadSettings (freshController page (saveSettingsToStorage c).stored dataTheme)).settings
      = c.settings ∧
    (loadSettings (freshController page (saveSettingsToStorage c).stored
      dataTheme)).world.gameState.autoCheck = c.settings.autoCheck ∧
    (construct page (saveSettingsToStorage c).stored dataTheme).settings = c.settings ∧
    (loadSettings (freshController page (saveSettings c controls).stored dataTheme)).settings
      = controls ∧
    (loadSettings (freshController page (some saved) dataTheme)).settings
      = overlay defaultSettings saved ∧
    loadSettings (freshController page none dataTheme)
      = freshController page none dataTheme := by
  refine ⟨?_, ?_, ?_, ?_, ?_, rfl⟩
  · simp [loadSettings, freshController, saveSettingsToStorage, overlay, stringify]
  · simp [loadSettings, freshController, saveSettingsToStorage, overlay, stringify]
  · simp [construct, applyTheme, loadSettings, freshController, saveSettingsToStorage,
      overlay, stringify]
  · simp [loadSettings, freshController, saveSettings, applyTheme, saveSettingsToStorage,
      overlay, stringify]
  · simp [loadSettings, freshController]

/-- Witness of C15 with theme `dark` and animations off: after saving, a freshly
constructed controller loads exactly these settings. -/
theorem settings_round_trip_witness :
    (loadSettings (freshController samplePage (saveSettingsToStorage sampleController).stored
      "light")).settings
      = { theme := "dark", animations := false, autoCheck := true, sound := true } :=
  (settings_round_trip sampleController defaultSettings samplePage "light"
    (stringify defaultSettings)).1

/-- C16: with `gameStartTime` set (to a non-zero time `start`) and `now` not before it,
`updateTimer` writes the display of `e` seconds for `e = floor((now - start) / 1000)`:
`floor(e / 60)` and `e mod 60`, each left-padded with zeros to two digits, around a colon,
and writes nothing else.  For every `e` below 6000 the display has the shape `MM:SS`; for
`e = 125` it reads `02:05`.  With `gameStartTime` not set the world is left as it is. -/
theorem updateTimer_displays_elapsed (w : World) (now start : Int)
    (hstart : w.gameState.gameStartTime = some start) (hne : start ≠ 0)
    (hle : start ≤ now) :
    updateTimer w now =
      { w with page := { w.page with
          timerText := timerDisplay ((now - start) / 1000).toNat } } ∧
    (∀ e, e < 6000 → isMMSS (timerDisplay e) = true) ∧
    timerDisplay 125 = "02:05" ∧
    (∀ (w0 : World) (now0 : Int), w0.gameState.gameStartTime = none →
      updateTimer w0 now0 = w0) := by
  refine ⟨?_, ?_, by decide, ?_⟩
  · have hnn : 0 ≤ (now - start) / 1000 := Int.ediv_nonneg (by omega) (by omega)
    obtain ⟨e, he⟩ := Int.eq_ofNat_of_zero_le hnn
    have hmin : ((e : Int)) / 60 = ((e / 60 : Nat) : Int) := by omega
    have hsec : Int.tmod (e : Int) 60 = ((e % 60 : Nat) : Int) := by
      rw [Int.tmod_eq_emod (by omega) (by omega)]; omega
    simp only [updateTimer, hstart, hne, if_false, he, hmin, hsec, toString_natCast,
      Int.toNat_ofNat, timerDisplay]
  · intro e he
    have h1 := twoDigits_below_hundred ⟨e / 60, by omega⟩
    have h2 := twoDigits_below_hundred ⟨e % 60, by omega⟩
    exact isMMSS_of_twoDigits h1 h2
  · intro w0 now0 h0
    simp [updateTimer, h0]

/-- Witness of C16 at the sample game (timer started at 1000 ms): at 126000 ms, after
exactly 125 seconds, the display reads `02:05`. -/
theorem updateTimer_displays_elapsed_witness :
    updateTimer sampleWorld 126000 =
      { sampleWorld with page := { sampleWorld.page with timerText := "02:05" } } :=
  (updateTimer_displays_elapsed sampleWorld 126000 1000 rfl (by decide) (by decide)).1

/-- C17, as stated, fails at the dismiss button: after a `beforeinstallprompt` event, the
3 second timer and a click on the dismiss button, the prompt is hidden but the deferred
handle is still held. -/
theorem dismiss_keeps_deferred_prompt :
    (pwaRun (initialPwa false)
      [PwaEvent.beforeInstallPrompt { id := 1 }, PwaEvent.showTimerFires false,
       PwaEvent.dismissClick]).deferredPrompt = some { id := 1 } ∧
    (pwaRun (initialPwa false)
      [PwaEvent.beforeInstallPrompt { id := 1 }, PwaEvent.showTimerFires false,
       PwaEvent.dismissClick]).promptShown = false := by
  decide

/-- C17, amended: in every run of the install helper from its constructor state, a held
handle is the event of an earlier `beforeinstallprompt`; the handle is null after
`installApp` has resumed from `userChoice` with either outcome and after `appinstalled`;
a click on the dismiss button hides the prompt and leaves the handle as it is. -/
theorem deferred_prompt_lifecycle (shown : Bool) (events : List PwaEvent) (s : Pwa)
    (accepted : Bool) :
    (∀ e, (pwaRun (initialPwa shown) events).deferredPrompt = some e →
      PwaEvent.beforeInstallPrompt e ∈ events) ∧
    (installAppResume s accepted).deferredPrompt = none ∧
    (0 < s.awaitingChoice →
      (pwaStep s (PwaEvent.choiceResolves accepted)).deferredPrompt = none) ∧
    (pwaStep s PwaEvent.appInstalled).deferredPrompt = none ∧
    (pwaStep s PwaEvent.dismissClick).deferredPrompt = s.deferredPrompt ∧
    (pwaStep s PwaEvent.dismissClick).promptShown = false := by
  refine ⟨?_, rfl, ?_, rfl, rfl, rfl⟩
  · induction events using List.reverseRecOn with
    | nil => intro e h; cases h
    | append_singleton es ev ih =>
      intro e h
      rw [pwaRun_append] at h
      rcases pwaStep_deferredPrompt _ _ _ h with h1 | h1
      · exact List.mem_append_left _ (ih e h1)
      · rw [h1]; simp
  · intro hpos
    have : s.awaitingChoice ≠ 0 := by omega
    simp [pwaStep, this, installAppResume, hideInstallPrompt]

/-- Witness of C17 (amended): after a `beforeinstallprompt` event, a click on the install
button and the user's choice, the handle is null again. -/
theorem deferred_prompt_lifecycle_witness :
    (pwaRun (initialPwa false)
      [PwaEvent.beforeInstallPrompt { id := 1 }, PwaEvent.installClick]).deferredPrompt
        = some { id := 1 } ∧
    (pwaStep (pwaRun (initialPwa false)
      [PwaEvent.beforeInstallPrompt { id := 1 }, PwaEvent.installClick])
      (PwaEvent.choiceResolves true)).deferredPrompt = none :=
  ⟨by decide,
    (deferred_prompt_lifecycle false [] (pwaRun (initialPwa false)
      [PwaEvent.beforeInstallPrompt { id := 1 }, PwaEvent.installClick]) true).2.2.1
      (by decide)⟩

/-- C18, as stated, fails: with two overlapping calls of `startNewGame`, the player selects
the empty cell at row 0, column 2 of the first puzzle, then the answer to the second call
replaces `originalBoard` by a puzzle with the given 4 there.  The selection now points at a
given, and the given-cell guard of `makeMove` fires: the game is not complete, a cell is
selected, yet `makeMove(7)` returns without a request. -/
theorem overlapping_new_games_select_given :
    ¬ SelectionFree (run freshWorld overlappingNewGames).gameState ∧
    (run freshWorld overlappingNewGames).gameState.selectedCell
      = some { row := 0, col := 2 } ∧
    index2 (run freshWorld overlappingNewGames).gameState.originalBoard 0 2
      = Lookup.value 4 ∧
    (run freshWorld overlappingNewGames).gameState.isGameComplete = false ∧
    makeMove (run freshWorld overlappingNewGames) 7
      = Async.settled (run freshWorld overlappingNewGames) := by
  refine ⟨?_, by decide, by decide, by decide, by decide⟩
  intro h
  have h1 := h { row := 0, col := 2 } (by decide)
  exact absurd h1 (by decide)

/-- C18, amended: along every run of the controller's operations and backend answers in
which new-game requests do not overlap (`startNewGame` is called only while no new-game
request is in flight), started in a world with no selection, whenever a cell is selected
`originalBoard` is 0 at its coordinates; there the test `originalBoard[row][col] !== 0` of
the given-cell guards of `makeMove`, `getHint` and `handleKeyPress` is false. -/
theorem orderly_runs_keep_selection_free (w0 : World) (events : List Event)
    (hstart : w0.gameState.selectedCell = none) (hord : orderly false events = true) :
    SelectionFree (run w0 events).gameState ∧
    (∀ cell, (run w0 events).gameState.selectedCell = some cell →
      (index2 (run w0 events).gameState.originalBoard cell.row cell.col).isNonZero
        = false) := by
  have hinv : OrderlyInv false w0 := by
    refine ⟨?_, fun h => by cases h⟩
    intro cell hcell
    rw [hstart] at hcell
    cases hcell
  have hfree := orderlyInv_run events false w0 hinv hord
  refine ⟨hfree, ?_⟩
  intro cell hcell
  rw [hfree cell hcell]
  rfl

/-- Witness of C18 (amended): a new game, its answer, the selection of row 0, column 2 and
a move with its answer form an orderly run; the selected cell is no given. -/
theorem orderly_runs_keep_selection_free_witness :
    (run freshWorld orderlyGame).gameState.selectedCell = some { row := 0, col := 2 } ∧
    SelectionFree (run freshWorld orderlyGame).gameState :=
  ⟨by decide,
    (orderly_runs_keep_selection_free freshWorld orderlyGame rfl (by decide)).1⟩

end SudokuPro
